import Mathlib

/-!
Verification of the HEVCPlayerView binary parsing core.

This file gives a shallow embedding, in Lean 4, of the bit-level and
byte-level parsing routines of the HEVCPlayerView repository
(`hevc/bitstream.h`, `hevc/bitstream.cc`, `hevc/decoder.cc`,
`mov/atom_collection.cc`, `mov/atom.cc`), specialised to the production
configuration `__SIZEOF_SIZE_T__ == 8` (64-bit machine word) on a
little-endian CPU, and proves properties of the embedded code.

Byte buffers are modelled as `List Nat`; a read beyond the end of the
list returns the padding byte 0 (the original code allocates its input
with trailing padding and performs unchecked fixed-width loads).
Machine words are modelled as `Nat` with explicit reductions modulo
`2 ^ 64` at the points where the C code can overflow or wrap.
-/

namespace HEVC

/-- Reads one byte of a buffer; positions past the end read the padding
value 0 (the decoder clones its input with trailing padding). -/
def byteAt (data : List Nat) (i : Nat) : Nat := (data.getD i 0) % 256

/-- `CPU::LoadUINT16BE`: a 16-bit big-endian load. -/
def loadUINT16BE (data : List Nat) (i : Nat) : Nat :=
  byteAt data i * 2 ^ 8 + byteAt data (i + 1)

/-- `CPU::LoadUINT32BE`: a 32-bit big-endian load. -/
def loadUINT32BE (data : List Nat) (i : Nat) : Nat :=
  byteAt data i * 2 ^ 24 + byteAt data (i + 1) * 2 ^ 16 +
  byteAt data (i + 2) * 2 ^ 8 + byteAt data (i + 3)

/-- `CPU::LoadUINT64BE`: a 64-bit big-endian load. -/
def loadUINT64BE (data : List Nat) (i : Nat) : Nat :=
  loadUINT32BE data i * 2 ^ 32 + loadUINT32BE data (i + 4)

/-- `CPU::LoadUINT64LE`: a 64-bit little-endian load. -/
def loadUINT64LE (data : List Nat) (i : Nat) : Nat :=
  byteAt data i + byteAt data (i + 1) * 2 ^ 8 + byteAt data (i + 2) * 2 ^ 16 +
  byteAt data (i + 3) * 2 ^ 24 + byteAt data (i + 4) * 2 ^ 32 +
  byteAt data (i + 5) * 2 ^ 40 + byteAt data (i + 6) * 2 ^ 48 +
  byteAt data (i + 7) * 2 ^ 56

/-- `CPU::BitExtractUINT32`: extract `len` bits starting at bit `start`. -/
def bitExtract (n start len : Nat) : Nat := (n >>> start) % 2 ^ len

/-- The number of binary digits of `n`, computed with explicit fuel so
that it is correct for all `n < 2 ^ fuel` (the helper behind the
leading-zero count of a machine word). -/
def bitLenFuel : Nat → Nat → Nat
  | 0, _ => 0
  | f + 1, n => if n = 0 then 0 else bitLenFuel f (n / 2) + 1

/-- The number of binary digits of a 64-bit word (0 for 0). -/
def bitLen (n : Nat) : Nat := bitLenFuel 64 n

/-- `__builtin_clzll` on a 64-bit word (64 for the word 0, where the C
intrinsic is undefined). -/
def clz64 (n : Nat) : Nat := 64 - bitLen n

/-- `__builtin_clz` on a 32-bit word (32 for the word 0, where the C
intrinsic is undefined). -/
def clz32 (n : Nat) : Nat := 32 - bitLen n

/-- Trailing-zero count with explicit fuel. -/
def ctzFuel : Nat → Nat → Nat
  | 0, _ => 0
  | f + 1, n => if n % 2 = 1 then 0 else ctzFuel f (n / 2) + 1

/-- `__builtin_ctzll`: trailing zero count of a 64-bit word (64 for the
word 0, where the C intrinsic is undefined). -/
def ctz64 (n : Nat) : Nat := if n = 0 then 64 else ctzFuel 64 n

/-- `__builtin_ctz` on a 32-bit word. -/
def ctz32 (n : Nat) : Nat := if n = 0 then 32 else ctzFuel 32 n

/-- Clears all bits of `c` at positions `≥ l`; this is the effect of the
recurring C idiom `cache ^= (cache >> l) << l`. -/
def dropHigh (c l : Nat) : Nat := c ^^^ ((c >>> l) <<< l)

/-- `hevc::BitStreamReader` (64-bit configuration, `CACHE_BITS = 64`).
`top` is the byte index of the next load position, `cache` the cached
word and `length` the number of valid bits in the cache.  The `end_`
member of the source is never consulted by the 64-bit code paths and is
omitted. -/
structure BitStreamReader where
  top : Nat
  cache : Nat
  length : Nat
  deriving Repr, DecidableEq

namespace BitStreamReader

/-- `BitStreamReader::LoadCache` (64-bit branch): load a big-endian
64-bit word at `top` and advance `top` by 8. -/
def loadCache (data : List Nat) (s : BitStreamReader) : BitStreamReader :=
  { top := s.top + 8, cache := loadUINT64BE data s.top, length := 64 }

/-- `BitStreamReader::Initialize`: reset the cursor to byte index `top`
and preload the cache. -/
def setup (data : List Nat) (top : Nat) : BitStreamReader :=
  loadCache data { top := top, cache := 0, length := 0 }

/-- `BitStreamReader::FillCache` (64-bit branch): shift the cache up by
32 bits (with 64-bit wraparound) and merge a 32-bit big-endian load. -/
def fillCache (data : List Nat) (s : BitStreamReader) : BitStreamReader :=
  { top := s.top + 4,
    cache := ((s.cache <<< 32) % 2 ^ 64) ||| loadUINT32BE data s.top,
    length := s.length + 32 }

/-- The extraction tail shared by `GetBit`, `GetBits` and `ReadGolomb`:
`length_ -= n; code = cache_ >> length_; cache_ ^= code << length_;
return code`. -/
def extractBits (s : BitStreamReader) (n : Nat) : Nat × BitStreamReader :=
  (s.cache >>> (s.length - n),
    { s with
      cache := s.cache ^^^ ((s.cache >>> (s.length - n)) <<< (s.length - n))
      length := s.length - n })

/-- `BitStreamReader::GetBit`. -/
def getBit (data : List Nat) (s : BitStreamReader) : Nat × BitStreamReader :=
  if s.length = 0 then extractBits (s.loadCache data) 1 else extractBits s 1

/-- `BitStreamReader::GetBits` (the source asserts `len ≤ 16`). -/
def getBits (data : List Nat) (s : BitStreamReader) (n : Nat) :
    Nat × BitStreamReader :=
  if s.length < n then extractBits (s.fillCache data) n else extractBits s n

/-- The length detection and extraction of `BitStreamReader::ReadGolomb`
once the cache holds at least 32 bits: the leading-zero count of the
cache aligned to the top of a 64-bit word gives the code length
`clz * 2 + 1`, and the code value minus one is the decoded number. -/
def golombExtract (s : BitStreamReader) : Nat × BitStreamReader :=
  ((extractBits s (clz64 ((s.cache <<< (64 - s.length)) % 2 ^ 64) * 2 + 1)).1 - 1,
   (extractBits s (clz64 ((s.cache <<< (64 - s.length)) % 2 ^ 64) * 2 + 1)).2)

/-- `BitStreamReader::ReadGolomb` (64-bit branch of `bitstream.cc`). -/
def readGolomb (data : List Nat) (s : BitStreamReader) :
    Nat × BitStreamReader :=
  if s.length < 32 then golombExtract (s.fillCache data) else golombExtract s

/-- `BitStreamReader::GetGolomb` (the template cast is the identity for
the value range 0..65534 used by the decoder). -/
def getGolomb (data : List Nat) (s : BitStreamReader) :
    Nat × BitStreamReader := s.readGolomb data

/-- `BitStreamReader::SkipGolomb`. -/
def skipGolomb (data : List Nat) (s : BitStreamReader) : BitStreamReader :=
  (s.readGolomb data).2

/-- `BitStreamReader::SkipBits`.  When the skip count reaches past the
cache, the read pointer is advanced by whole bytes, the cache reloaded,
and the remaining `(n - length_) & 7` bits discarded; the discard tail
`length_ -= n; cache_ ^= (cache_ >> length_) << length_` is the state
part of `extractBits`. -/
def skipBits (data : List Nat) (s : BitStreamReader) (n : Nat) :
    BitStreamReader :=
  if s.length ≤ n then
    (extractBits
      (loadCache data { s with top := s.top + ((n - s.length) >>> 3) })
      ((n - s.length) % 8)).2
  else (extractBits s n).2

/-- `BitStreamReader::SkipToByteBoundary` (`length_ &= ~7` clears the
three low bits of the bit count, discarding `length_ % 8` bits). -/
def skipToByteBoundary (s : BitStreamReader) : BitStreamReader :=
  (extractBits s (s.length % 8)).2

end BitStreamReader

/-! ### The abstract bit-stream view

The reference semantics of the reader: bit `i` of a buffer is bit
`7 - i % 8` of byte `i / 8` (most-significant-bit first), and a read of
`n` bits at position `p` returns the bits `p, p+1, …, p+n-1` as the
digits of a natural number, most significant first. -/

/-- Bit `i` of the buffer in most-significant-bit-first order. -/
def streamBit (data : List Nat) (i : Nat) : Bool :=
  Nat.testBit (byteAt data (i / 8)) (7 - i % 8)

/-- The value of the `n` bits starting at bit position `p`,
most-significant bit first. -/
def streamBits (data : List Nat) (p : Nat) : Nat → Nat
  | 0 => 0
  | n + 1 => streamBits data p n * 2 + (streamBit data (p + n)).toNat

/-- The reader state `s` faithfully represents absolute bit position `p`
of the buffer: the cache holds exactly the next `s.length` bits. -/
def Rep (data : List Nat) (s : BitStreamReader) (p : Nat) : Prop :=
  s.length ≤ 64 ∧ 8 * s.top = p + s.length ∧
    s.cache = streamBits data p s.length

/-! ### Parameter sets and the decoder state (`hevc/decoder.h`, `hevc/decoder.cc`)

The parameter-set decode routines mutate fields of `hevc::Decoder` and
return an `int` status.  They are embedded as functions from the decoder
state to `Option` of the new state (`none` embeds `return 0`).  The C
arrays `sps_[2]` and `pps_[2]` are read by `DecodeSliceHeader` at
unchecked indices up to 255; they are modelled as total maps so that an
out-of-range read returns an unspecified (universally quantified) record
rather than being undefined. -/

/-- `hevc::NALUnitType` values used by the decoder. -/
def NAL_VPS : Nat := 32
def NAL_SPS : Nat := 33
def NAL_PPS : Nat := 34
def NAL_SEI_PFX : Nat := 39

/-- `hevc::AUX_ID = 15 - 3` (scalability-mask index, MSB-first). -/
def AUX_ID : Nat := 12

/-- `hevc::AUX_ALPHA`. -/
def AUX_ALPHA : Nat := 1

/-- `SEI_TYPE_ALPHA_CHANNEL_INFO`. -/
def SEI_ALPHA_CHANNEL_INFO : Nat := 165

/-- `Decoder::IsIDR`: the unsigned-subtraction range test
`n - NAL_IDR_W_RADL <= NAL_IDR_N_LP - NAL_IDR_W_RADL` holds exactly for
`n ∈ {19, 20}` (the subtraction wraps for `n < 19`). -/
def isIDR (n : Nat) : Bool := 19 ≤ n && n ≤ 20

/-- `Decoder::IsIRAP`: `n - NAL_BLA_W_LP <= NAL_RSV_IRAP_VCL23 -
NAL_BLA_W_LP`, i.e. `n ∈ [16, 23]`. -/
def isIRAP (n : Nat) : Bool := 16 ≤ n && n ≤ 23

/-- Functional update of a one-dimensional C array. -/
def updFn (f : Nat → Nat) (i v : Nat) : Nat → Nat :=
  fun j => if j = i then v else f j

/-- Functional update of a two-dimensional C array. -/
def updFn2 (f : Nat → Nat → Nat) (i j v : Nat) : Nat → Nat → Nat :=
  fun a b => if a = i ∧ b = j then v else f a b

/-- `hevc::ProfileTierLevel` (the subset of PTL fields the decoder
keeps). -/
structure ProfileTierLevel where
  general_profile_compatibility_flags : Nat
  general_profile_space : Nat
  general_tier_flag : Nat
  general_profile_idc : Nat
  general_progressive_source_flag : Nat
  general_interlaced_source_flag : Nat
  general_non_packed_constraint_flag : Nat
  general_frame_only_constraint_flag : Nat
  general_inbld_flag : Nat
  general_level_idc : Nat
  deriving Repr, DecidableEq

/-- `Decoder::ParseProfileTierLevel`: requires 12 bytes in `[top, fin)`
and extracts the fixed-layout common PTL; returns the parsed record and
the advanced cursor `top + 12`, or `none` for the C `NULL` return.  The
`maxSubLayersMinus1` argument is accepted but never consulted by the
source. -/
def parseProfileTierLevel (data : List Nat) (top fin : Nat)
    (maxSubLayersMinus1 : Nat) : Option (ProfileTierLevel × Nat) :=
  if fin - top < 12 then none
  else
    some ({ general_profile_space := bitExtract (byteAt data top) 6 2
            general_tier_flag := bitExtract (byteAt data top) 5 1
            general_profile_idc :=
              if bitExtract (byteAt data top) 0 5 = 0 then
                clz32 (loadUINT32BE data (top + 1))
              else bitExtract (byteAt data top) 0 5
            general_profile_compatibility_flags := loadUINT32BE data (top + 1)
            general_progressive_source_flag :=
              bitExtract (byteAt data (top + 5)) 7 1
            general_interlaced_source_flag :=
              bitExtract (byteAt data (top + 5)) 6 1
            general_non_packed_constraint_flag :=
              bitExtract (byteAt data (top + 5)) 5 1
            general_frame_only_constraint_flag :=
              bitExtract (byteAt data (top + 5)) 4 1
            general_inbld_flag := bitExtract (byteAt data (top + 10)) 0 1
            general_level_idc := byteAt data (top + 11) },
          top + 12)

/-- `hevc::VideoParameterSet::Extension`. -/
structure VPSExtension where
  layer_id_in_nuh : Nat → Nat
  dimension_id : Nat → Nat → Nat
  general_level_idc : Nat

/-- `hevc::VideoParameterSet` (the decoded subset). -/
structure VideoParameterSet where
  profile_tier_level : ProfileTierLevel
  extension : VPSExtension
  vps_video_parameter_set_id : Nat
  vps_max_layers_minus1 : Nat
  vps_max_sub_layers_minus1 : Nat
  vps_sub_layer_ordering_info_present_flag : Nat
  vps_max_layer_id : Nat
  vps_num_layer_sets_minus1 : Nat
  vps_timing_info_present_flag : Nat
  vps_extension_flag : Nat

/-- `hevc::SequenceParameterSet` (the decoded subset). -/
structure SequenceParameterSet where
  profile_tier_level : ProfileTierLevel
  pic_width_in_luma_samples : Nat
  pic_height_in_luma_samples : Nat
  sps_video_parameter_set_id : Nat
  sps_max_sub_layers_minus1 : Nat
  sps_seq_parameter_set_id : Nat
  chroma_format_idc : Nat
  separate_colour_plane_flag : Nat
  bit_depth_luma : Nat
  bit_depth_chroma : Nat
  log2_max_pic_order_cnt_lsb : Nat
  deriving Repr, DecidableEq

/-- `hevc::PictureParameterSet`. -/
structure PictureParameterSet where
  pps_pic_parameter_set_id : Nat
  pps_seq_parameter_set_id : Nat
  dependent_slice_segments_enabled_flag : Nat
  output_flag_present_flag : Nat
  num_extra_slice_header_bits : Nat
  deriving Repr, DecidableEq

/-- `hevc::sei::AlphaChannelInformation`. -/
structure AlphaChannelInformation where
  alpha_channel_cancel_flag : Nat
  alpha_channel_use_idc : Nat
  alpha_channel_bit_depth_minus8 : Nat
  alpha_transparent_value : Nat
  alpha_opaque_value : Nat
  alpha_channel_incr_flag : Nat
  alpha_channel_clip_flag : Nat
  deriving Repr, DecidableEq

/-- The parameter-set state of `hevc::Decoder` used by the parsing
routines. -/
structure DecoderState where
  vps : VideoParameterSet
  sps : Nat → SequenceParameterSet
  pps : Nat → PictureParameterSet
  alpha : AlphaChannelInformation

/-- The `dimension_id_len` loop of the VPS extension: repeatedly clear
the lowest set bit of the scalability mask and read a 3-bit length for
it.  The C loop runs at most 32 times for a 32-bit mask; the fuel (32
at the call site) makes that bound explicit. -/
def dimLenLoop (data : List Nat) :
    Nat → Nat → BitStreamReader → (Nat → Nat) → ((Nat → Nat) × BitStreamReader)
  | 0, _, r, dlen => (dlen, r)
  | f + 1, mask, r, dlen =>
    if mask = 0 then (dlen, r)
    else
      dimLenLoop data f (mask ^^^ (1 <<< ctz32 mask)) (r.getBits data 3).2
        (updFn dlen (ctz32 mask) ((r.getBits data 3).1 + 1))

/-- The `dimension_id[i][index]` loop of the VPS extension for one
layer `i`. -/
def dimIdLoop (data : List Nat) (i : Nat) (dlen : Nat → Nat) :
    Nat → Nat → BitStreamReader → (Nat → Nat → Nat) →
    ((Nat → Nat → Nat) × BitStreamReader)
  | 0, _, r, dim => (dim, r)
  | f + 1, mask, r, dim =>
    if mask = 0 then (dim, r)
    else
      dimIdLoop data i dlen f (mask ^^^ (1 <<< ctz32 mask))
        (r.getBits data (dlen (ctz32 mask))).2
        (updFn2 dim i (ctz32 mask) (r.getBits data (dlen (ctz32 mask))).1)

/-- The per-layer loop of the VPS extension
(`for i = 1 .. vps_max_layers_minus1`): read or synthesise
`layer_id_in_nuh[i]`, then the per-dimension IDs.  The first argument
counts the remaining layers. -/
def layerLoop (data : List Nat) (nuhFlag smask : Nat) (dlen : Nat → Nat) :
    Nat → Nat → (Nat → Nat) → (Nat → Nat → Nat) → BitStreamReader →
    ((Nat → Nat) × (Nat → Nat → Nat) × BitStreamReader)
  | 0, _, lid, dim, r => (lid, dim, r)
  | cnt + 1, i, lid, dim, r =>
    let gl : Nat × BitStreamReader :=
      if nuhFlag ≠ 0 then r.getBits data 6 else (i, r)
    let step : (Nat → Nat → Nat) × BitStreamReader :=
      if smask ≠ 0 then dimIdLoop data i dlen 32 smask gl.2 dim
      else (dim, gl.2)
    layerLoop data nuhFlag smask dlen cnt (i + 1) (updFn lid i gl.1)
      step.1 step.2

/-- The `vps_extension_flag` block of `Decoder::DecodeVideoParameterSet`:
byte alignment, the extension PTL byte, the splitting flag (unsupported
when set), the scalability masks, per-layer IDs, and the final
alpha-layer validity check. -/
def decodeVPSExtension (rbsp : List Nat) (r : BitStreamReader)
    (vps : VideoParameterSet) : Option VideoParameterSet :=
  match (r.skipToByteBoundary).getBits rbsp 8 with
  | (extPTL, r1) =>
    match r1.getBit rbsp with
    | (splitFlag, r2) =>
      if splitFlag ≠ 0 then none
      else
        match r2.getBits rbsp 16 with
        | (smask, r3) =>
          match dimLenLoop rbsp 32 smask r3 (fun _ => 0) with
          | (dlen, r4) =>
            match r4.getBit rbsp with
            | (nuhFlag, r5) =>
              match layerLoop rbsp nuhFlag smask dlen
                  vps.vps_max_layers_minus1 1 vps.extension.layer_id_in_nuh
                  vps.extension.dimension_id r5 with
              | (lid, dim, _) =>
                if lid 1 > 1 ∨ dim (lid 1) AUX_ID ≠ AUX_ALPHA then none
                else some { vps with extension :=
                  { layer_id_in_nuh := lid
                    dimension_id := dim
                    general_level_idc := extPTL } }

/-- The optional `vps_timing_info` block: skip the tick fields and fail
on a nonzero `vps_num_hrd_parameters`. -/
def decodeVPSTiming (rbsp : List Nat) (r : BitStreamReader) :
    Option BitStreamReader :=
  let ra := (r.skipBits rbsp 32).skipBits rbsp 32
  let gp := ra.getBit rbsp
  let rb := if gp.1 ≠ 0 then gp.2.skipGolomb rbsp else gp.2
  let gh := rb.getGolomb rbsp
  if gh.1 ≠ 0 then none else some gh.2

/-- `Decoder::DecodeVideoParameterSet` over an extracted RBSP. -/
def decodeVideoParameterSet (vps0 : VideoParameterSet) (rbsp : List Nat)
    (sz : Nat) : Option VideoParameterSet :=
  if sz < 2 + 4 + 12 then none
  else if bitExtract (loadUINT16BE rbsp 2) 1 3 > 0 then none
  else
    match parseProfileTierLevel rbsp 6 sz
        (bitExtract (loadUINT16BE rbsp 2) 1 3) with
    | none => none
    | some (ptl, rtop) =>
      match (BitStreamReader.setup rbsp rtop).getBit rbsp with
      | (subFlag, ra) =>
        if subFlag ≠ 0 then none
        else
          match (((ra.skipGolomb rbsp).skipGolomb rbsp).skipGolomb
              rbsp).getBits rbsp 6 with
          | (maxLayerId, rb) =>
            match rb.getGolomb rbsp with
            | (numSets, rc) =>
              match (if (numSets % 256) * maxLayerId % 256 > 0 then
                  rc.skipBits rbsp ((numSets % 256) * maxLayerId % 256)
                else rc).getBit rbsp with
              | (timingFlag, rd) =>
                match (if timingFlag ≠ 0 then decodeVPSTiming rbsp rd
                    else some rd) with
                | none => none
                | some r3 =>
                  match r3.getBit rbsp with
                  | (extFlag, re) =>
                    if extFlag ≠ 0 then
                      decodeVPSExtension rbsp re
                        { vps0 with
                          profile_tier_level := ptl
                          vps_video_parameter_set_id :=
                            loadUINT16BE rbsp 2 >>> 12
                          vps_max_layers_minus1 :=
                            bitExtract (loadUINT16BE rbsp 2) 4 6
                          vps_max_sub_layers_minus1 :=
                            bitExtract (loadUINT16BE rbsp 2) 1 3
                          vps_sub_layer_ordering_info_present_flag := subFlag
                          vps_max_layer_id := maxLayerId
                          vps_num_layer_sets_minus1 := numSets % 256
                          vps_timing_info_present_flag := timingFlag
                          vps_extension_flag := extFlag }
                    else
                      some
                        { vps0 with
                          profile_tier_level := ptl
                          vps_video_parameter_set_id :=
                            loadUINT16BE rbsp 2 >>> 12
                          vps_max_layers_minus1 :=
                            bitExtract (loadUINT16BE rbsp 2) 4 6
                          vps_max_sub_layers_minus1 :=
                            bitExtract (loadUINT16BE rbsp 2) 1 3
                          vps_sub_layer_ordering_info_present_flag := subFlag
                          vps_max_layer_id := maxLayerId
                          vps_num_layer_sets_minus1 := numSets % 256
                          vps_timing_info_present_flag := timingFlag
                          vps_extension_flag := extFlag }

/-- `Decoder::DecodeSequenceParameterSet` over an extracted RBSP. -/
def decodeSequenceParameterSet (st : DecoderState) (rbsp : List Nat)
    (sz : Nat) : Option DecoderState :=
  if sz < 2 + 1 + 12 then none
  else
    let rd2 := byteAt rbsp 2
    let maxSub := bitExtract rd2 1 3
    match parseProfileTierLevel rbsp 3 sz maxSub with
    | none => none
    | some (ptl, rtop) =>
      let r0 := BitStreamReader.setup rbsp rtop
      let gid := r0.getGolomb rbsp
      let spsId := gid.1 % 256
      if 2 ≤ spsId then none
      else
        let gc := gid.2.getGolomb rbsp
        let chroma0 := gc.1 % 256
        let gsep : Nat × BitStreamReader :=
          if chroma0 = 3 then gc.2.getBit rbsp else (0, gc.2)
        let chroma := if chroma0 = 3 ∧ gsep.1 ≠ 0 then 0 else chroma0
        let gw := gsep.2.getGolomb rbsp
        let gh := gw.2.getGolomb rbsp
        let gcf := gh.2.getBit rbsp
        let r1 :=
          if gcf.1 ≠ 0 then
            (((gcf.2.skipGolomb rbsp).skipGolomb rbsp).skipGolomb
              rbsp).skipGolomb rbsp
          else gcf.2
        let gbl := r1.getGolomb rbsp
        let gbc := gbl.2.getGolomb rbsp
        let glg := gbc.2.getGolomb rbsp
        let sps : SequenceParameterSet :=
          { profile_tier_level := ptl
            pic_width_in_luma_samples := gw.1 % 65536
            pic_height_in_luma_samples := gh.1 % 65536
            sps_video_parameter_set_id := rd2 >>> 4
            sps_max_sub_layers_minus1 := maxSub
            sps_seq_parameter_set_id := spsId
            chroma_format_idc := chroma
            separate_colour_plane_flag := gsep.1
            bit_depth_luma := (gbl.1 % 256 + 8) % 256
            bit_depth_chroma := (gbc.1 % 256 + 8) % 256
            log2_max_pic_order_cnt_lsb := (glg.1 % 256 + 4) % 256 }
        some { st with
          sps := fun j => if j = spsId then sps else st.sps j }

/-- `Decoder::DecodePictureParameterSet` over an extracted RBSP. -/
def decodePictureParameterSet (st : DecoderState) (rbsp : List Nat)
    (sz : Nat) : Option DecoderState :=
  let r0 := BitStreamReader.setup rbsp 2
  let gid := r0.getGolomb rbsp
  let ppsId := gid.1 % 256
  if 2 ≤ ppsId then none
  else
    let gsid := gid.2.getGolomb rbsp
    let gdep := gsid.2.getBit rbsp
    let gout := gdep.2.getBit rbsp
    let gx := gout.2.getBits rbsp 3
    let pps : PictureParameterSet :=
      { pps_pic_parameter_set_id := ppsId
        pps_seq_parameter_set_id := gsid.1 % 256
        dependent_slice_segments_enabled_flag := gdep.1
        output_flag_present_flag := gout.1
        num_extra_slice_header_bits := gx.1 }
    some { st with
      pps := fun j => if j = ppsId then pps else st.pps j }

/-- The bitwise complement of a 64-bit word. -/
def not64 (n : Nat) : Nat := n ^^^ (2 ^ 64 - 1)

/-- The word-parallel scan for the terminating non-`0xFF` byte of an
extended SEI payload-size field (`payload_size == 0xff` case): each full
word of `0xFF` bytes adds `0xff * 8` to the size, and the first word with
a non-`0xFF` byte contributes `0xff` per leading `0xFF` byte plus the
value of the terminating byte.  Returns the accumulated size and the new
scan position, or `none` for the truncated `return 0` case. -/
def seiSizeScan (rbsp : List Nat) (sz : Nat) (pos : Nat) (acc : Nat) :
    Option (Nat × Nat) :=
  if 8 ≤ sz - pos then
    if not64 (loadUINT64LE rbsp pos) ≠ 0 then
      some
        (acc + 255 * (ctz64 (not64 (loadUINT64LE rbsp pos)) >>> 3) +
          ((not64 (not64 (loadUINT64LE rbsp pos)) >>>
            ((ctz64 (not64 (loadUINT64LE rbsp pos)) >>> 3) <<< 3)) &&& 255),
         (ctz64 (not64 (loadUINT64LE rbsp pos)) >>> 3) + 1)
    else
      match seiSizeScan rbsp sz (pos + 8) (acc + 255 * 8) with
      | none => none
      | some (s, c) => some (s, 8 + c)
  else
    if not64 (loadUINT64LE rbsp pos) &&& (2 ^ ((sz - pos) * 8) - 1) = 0 then
      none
    else
      some
        (acc + 255 *
          (ctz64 (not64 (loadUINT64LE rbsp pos) &&&
            (2 ^ ((sz - pos) * 8) - 1)) >>> 3) +
          ((not64 (not64 (loadUINT64LE rbsp pos) &&&
              (2 ^ ((sz - pos) * 8) - 1)) >>>
            ((ctz64 (not64 (loadUINT64LE rbsp pos) &&&
              (2 ^ ((sz - pos) * 8) - 1)) >>> 3) <<< 3)) &&& 255),
         (ctz64 (not64 (loadUINT64LE rbsp pos) &&&
           (2 ^ ((sz - pos) * 8) - 1)) >>> 3) + 1)
  termination_by sz - pos
  decreasing_by omega

/-- One pass of the SEI message scan loop of
`Decoder::DecodeSupplementalEnhancementInformation`, starting at byte
offset `pos` of the RBSP.  The payload bytes start at `pos + 2 + c`
where `c` is the number of extension bytes consumed by the size scan
(0 for a one-byte size field).  Returns the `int` status and the
(possibly updated) alpha-channel record. -/
def seiScan (rbsp : List Nat) (sz : Nat) (alpha : AlphaChannelInformation)
    (pos : Nat) : Nat × AlphaChannelInformation :=
  if h2 : pos + 2 ≤ sz then
    if byteAt rbsp pos = 255 then (0, alpha)
    else
      match hsc : (if byteAt rbsp (pos + 1) = 255 then
          seiSizeScan rbsp sz (pos + 2) 255
        else some (byteAt rbsp (pos + 1), 0)) with
      | none => (0, alpha)
      | some (psize, c) =>
        if hend : sz ≤ pos + 2 + c + psize then (1, alpha)
        else
          if byteAt rbsp pos = SEI_ALPHA_CHANNEL_INFO then
            let w := loadUINT32BE rbsp (pos + 2 + c)
            let a1 : AlphaChannelInformation :=
              { alpha with
                alpha_channel_cancel_flag := w >>> 31
                alpha_channel_use_idc := bitExtract w 28 3
                alpha_channel_bit_depth_minus8 := bitExtract w 25 3 }
            if bitExtract w 25 3 ≠ 0 then (0, a1)
            else
              seiScan rbsp sz
                { a1 with
                  alpha_transparent_value := bitExtract w 16 9
                  alpha_opaque_value := bitExtract w 7 9
                  alpha_channel_incr_flag := bitExtract w 6 1
                  alpha_channel_clip_flag := bitExtract w 5 1 }
                (pos + 2 + c + psize)
          else seiScan rbsp sz alpha (pos + 2 + c + psize)
  else (1, alpha)
  termination_by sz - pos
  decreasing_by all_goals omega

/-- `Decoder::DecodeSupplementalEnhancementInformation`: scan the SEI
messages of the RBSP starting at byte 2. -/
def decodeSEI (alpha : AlphaChannelInformation) (rbsp : List Nat)
    (sz : Nat) : Nat × AlphaChannelInformation :=
  seiScan rbsp sz alpha 2

/-- `Decoder::DecodeSliceHeader`: read the NAL type from the 2 bytes at
offset 4, then parse the slice-header prefix and return the picture
order count. -/
def decodeSliceHeader (st : DecoderState) (packet : List Nat)
    (psize : Nat) : Nat :=
  let nalType := bitExtract (loadUINT16BE packet 4) 9 6
  let r0 := BitStreamReader.setup packet 6
  let gf := r0.getBit packet
  let r1 := if isIRAP nalType then gf.2.skipBits packet 1 else gf.2
  let gp := r1.getGolomb packet
  let pps := st.pps (gp.1 % 256)
  let sps := st.sps pps.pps_seq_parameter_set_id
  if gf.1 = 0 then 0
  else
    let r2 := gp.2.skipBits packet pps.num_extra_slice_header_bits
    let r3 := r2.skipGolomb packet
    let r4 :=
      if pps.output_flag_present_flag ≠ 0 then r3.skipBits packet 1 else r3
    let r5 :=
      if sps.separate_colour_plane_flag ≠ 0 then r4.skipBits packet 2 else r4
    if isIDR nalType then 0
    else (r5.getBits packet sps.log2_max_pic_order_cnt_lsb).1

/-! ### `Decoder::ExtractRBSP` (64-bit scalar path)

The function copies a NAL payload while deleting every byte that is at
most `0x03` and preceded by two zero bytes, using a word-parallel mask
computation over 64-bit little-endian chunks with a carried mask from
the previous chunk.  The output is modelled as the list of emitted
bytes. -/

/-- The low `k` bytes of a 64-bit word, in memory order (the bytes a
`StoreUINT64LE` followed by advancing the output cursor by `k`
contributes to the output). -/
def wordBytes (w : Nat) : Nat → List Nat
  | 0 => []
  | k + 1 => (w % 256) :: wordBytes (w >>> 8) k

/-- The removal loop of `ExtractRBSP` (the inner do-while): emit the
bytes before the lowest flagged byte, drop the flagged byte, shift word
and mask down past it, and repeat while the mask is nonzero; then emit
the remaining `ds` bytes. -/
def rbspRemoveLoopF : Nat → Nat → Nat → Nat → List Nat
  | 0, _, _, _ => []
  | fl + 1, word, mask, ds =>
    if (mask >>> ((ctz64 mask >>> 3) <<< 3)) >>> 8 = 0 then
      wordBytes word (ctz64 mask >>> 3) ++
        (if ds - (ctz64 mask >>> 3 + 1) > 0 then
          wordBytes ((word >>> ((ctz64 mask >>> 3) <<< 3)) >>> 8)
            (ds - (ctz64 mask >>> 3 + 1))
        else [])
    else
      wordBytes word (ctz64 mask >>> 3) ++
        rbspRemoveLoopF fl ((word >>> ((ctz64 mask >>> 3) <<< 3)) >>> 8)
          ((mask >>> ((ctz64 mask >>> 3) <<< 3)) >>> 8)
          (ds - (ctz64 mask >>> 3 + 1))

/-- The removal loop with the fuel a 64-bit mask can need: the mask
flags whole bytes (it is `&&& 0x0101010101010101`), so at most eight
iterations run, one per flagged byte. -/
def rbspRemoveLoop (word mask ds : Nat) : List Nat :=
  rbspRemoveLoopF 8 word mask ds

/-- One chunk of `ExtractRBSP`: copy the whole chunk when the mask is
empty, otherwise run the removal loop with the byte budget reset to the
full word size 8 (as the source does, even for a final chunk shorter
than a word). -/
def extractChunk (word mask ds : Nat) : List Nat :=
  if mask = 0 then wordBytes word ds else rbspRemoveLoop word mask 8

/-- `0x0101010101010101`. -/
def lowBitsMask : Nat := 0x0101010101010101

/-- `mask00` of the source: bit `i` set when bit `i` or `i + 1` of the
word is set. -/
def m00a (w : Nat) : Nat := w ||| (w >>> 1)

/-- The same accumulator with the low bit of every byte cleared, the
first step of the `mask_le_03` computation. -/
def m03a (w : Nat) : Nat := m00a w &&& not64 lowBitsMask

/-- The finished one-or-two-or-four cascade: bit `8 k` is the OR of all
bits of byte `k`. -/
def m00c (w : Nat) : Nat :=
  (m00a w ||| (m00a w >>> 2)) ||| ((m00a w ||| (m00a w >>> 2)) >>> 4)

/-- The cascade over the low-bit-cleared accumulator: bit `8 k` is the
OR of bits 2..7 of byte `k`. -/
def m03c (w : Nat) : Nat :=
  (m03a w ||| (m03a w >>> 2)) ||| ((m03a w ||| (m03a w >>> 2)) >>> 4)

/-- `mask_eq_00`: bit `8 k` set when byte `k` of the word is zero. -/
def maskEq00 (w : Nat) : Nat := not64 (m00c w)

/-- `mask_le_03`: bit `8 k` set when byte `k` of the word is at most
3. -/
def maskLe03 (w : Nat) : Nat := not64 (m03c w)

/-- The per-chunk mask of bytes to delete: byte `k` is flagged when the
bytes at `k-2` and `k-1` (carried from the previous chunk for
`k < 2`) are zero and byte `k` is at most 3.  Returns the flag mask and
the zero-byte mask to carry into the next chunk. -/
def rbspChunkMask (word lastMask dsize : Nat) : Nat × Nat :=
  let maskEq00xxxx :=
    ((maskEq00 word <<< 16) % 2 ^ 64) ||| (lastMask >>> 48)
  let maskEq00xx := ((maskEq00 word <<< 8) % 2 ^ 64) ||| (lastMask >>> 56)
  let mask0 := maskEq00xxxx &&& maskEq00xx &&& maskLe03 word &&& lowBitsMask
  (if dsize < 8 then mask0 &&& ((1 <<< (dsize <<< 3)) - 1) else mask0,
   maskEq00 word)

/-- The chunk loop of `ExtractRBSP` (a do-while; one pass runs even for
`size = 0`), carrying the zero-byte mask of the previous chunk. -/
def extractLoop (data : List Nat) : Nat → Nat → Nat → Nat → List Nat
  | 0, pos, size, lastMask =>
    extractChunk (loadUINT64LE data pos)
      (rbspChunkMask (loadUINT64LE data pos) lastMask size).1 size
  | fl + 1, pos, size, lastMask =>
    if 8 < size then
      extractChunk (loadUINT64LE data pos)
          (rbspChunkMask (loadUINT64LE data pos) lastMask 8).1 8 ++
        extractLoop data fl (pos + 8) (size - 8)
          (rbspChunkMask (loadUINT64LE data pos) lastMask 8).2
    else
      extractChunk (loadUINT64LE data pos)
        (rbspChunkMask (loadUINT64LE data pos) lastMask size).1 size

/-- `Decoder::ExtractRBSP` on the byte range starting at `pos` of
length `size`; returns the emitted RBSP bytes (the source returns their
count and writes them to its scratch buffer). -/
def extractRBSP (data : List Nat) (pos size : Nat) : List Nat :=
  extractLoop data size pos size 0

/-! ### `Decoder::DecodeHEVCDecoderConfiguration` -/

/-- The inner NAL-unit loop of `DecodeHEVCDecoderConfiguration` for one
array: validates the 2-byte length and the unit extent, extracts and
dispatches RBSPs of the four decoded NAL types (failing when a unit of
a decoded type is at least the 256-byte scratch size), and skips any
other type by advancing the byte offset.  Returns the position after
the last unit and the updated state, or `none` for `return 0`.  An SEI
decode result is discarded by the source, so an SEI failure does not
produce `none`. -/
def hvccNalLoop (buf : List Nat) (fin : Nat) (decodeFlag : Bool)
    (nalType : Nat) :
    Nat → Nat → DecoderState → Option (Nat × DecoderState)
  | 0, pos, st => some (pos, st)
  | i + 1, pos, st =>
    if fin - pos < 2 then none
    else
      if fin - pos < loadUINT16BE buf pos then none
      else
        if decodeFlag then
          if 256 ≤ loadUINT16BE buf pos then none
          else
            match
              (if nalType = NAL_VPS then
                match decodeVideoParameterSet st.vps
                    (extractRBSP buf (pos + 2) (loadUINT16BE buf pos))
                    (extractRBSP buf (pos + 2) (loadUINT16BE buf pos)).length
                  with
                | none => none
                | some v => some { st with vps := v }
              else if nalType = NAL_SPS then
                decodeSequenceParameterSet st
                  (extractRBSP buf (pos + 2) (loadUINT16BE buf pos))
                  (extractRBSP buf (pos + 2) (loadUINT16BE buf pos)).length
              else if nalType = NAL_PPS then
                decodePictureParameterSet st
                  (extractRBSP buf (pos + 2) (loadUINT16BE buf pos))
                  (extractRBSP buf (pos + 2) (loadUINT16BE buf pos)).length
              else
                some { st with
                  alpha := (decodeSEI st.alpha
                    (extractRBSP buf (pos + 2) (loadUINT16BE buf pos))
                    (extractRBSP buf (pos + 2)
                      (loadUINT16BE buf pos)).length).2 }) with
            | none => none
            | some st2 =>
              hvccNalLoop buf fin decodeFlag nalType i
                (pos + 2 + loadUINT16BE buf pos) st2
        else
          hvccNalLoop buf fin decodeFlag nalType i
            (pos + 2 + loadUINT16BE buf pos) st

/-- The NAL-unit-array loop of `DecodeHEVCDecoderConfiguration`
(a do-while running `numberOfArrays` times): reads the 3-byte array
header and processes its NAL units. -/
def hvccArrayLoop (buf : List Nat) (fin : Nat) :
    Nat → Nat → DecoderState → Option DecoderState
  | 0, _, st => some st
  | na + 1, arrayStart, st =>
    if fin - arrayStart < 1 + 2 then none
    else
      match
        hvccNalLoop buf fin
          (byteAt buf arrayStart &&& 0x3f = NAL_VPS ∨
            byteAt buf arrayStart &&& 0x3f = NAL_SPS ∨
            byteAt buf arrayStart &&& 0x3f = NAL_PPS ∨
            byteAt buf arrayStart &&& 0x3f = NAL_SEI_PFX : Bool)
          (byteAt buf arrayStart &&& 0x3f)
          (loadUINT16BE buf (arrayStart + 1)) (arrayStart + 3) st with
      | none => none
      | some (pos2, st2) => hvccArrayLoop buf fin na pos2 st2

/-- `Decoder::DecodeHEVCDecoderConfiguration` over the `hvcC` payload
`[hvccStart, hvccEnd)` of `buf`: requires at least 22 payload bytes,
reads `numberOfArrays` from the byte at offset 22 (which is read even
when the payload is exactly 22 bytes long), requires it to be at least
3, and runs the array loop from offset 23. -/
def decodeHEVCDecoderConfiguration (buf : List Nat) (hvccStart hvccEnd : Nat)
    (st : DecoderState) : Option DecoderState :=
  if hvccEnd - hvccStart < 21 + 1 then none
  else
    if byteAt buf (hvccStart + 21 + 1) < 3 then none
    else
      hvccArrayLoop buf hvccEnd (byteAt buf (hvccStart + 21 + 1))
        (hvccStart + 21 + 1 + 1) st

/-! ### The atom walker (`mov/atom_collection.cc`)

The box accessors live in `mov/atom.h`, which is not part of the
sources provided; they are modelled from the spec.  The walker itself
is embedded from `AtomCollection::EnumerateChildAtoms`; because its C
loop advances by the atom-declared size, which may be zero, the
embedding carries explicit fuel and returns `none` when the fuel runs
out before the loop finishes (the C loop would still be running). -/

/-- Modelled from the spec: a box header is 8 bytes, a 32-bit size then
a 4-byte type code (`Atom::GetSize`, from `mov/atom.h`, absent from the
sources). -/
def atomSize (data : List Nat) (off : Nat) : Nat := loadUINT32BE data off

/-- Modelled from the spec: the 4-byte type code of a box
(`Atom::GetType`, from `mov/atom.h`, absent from the sources). -/
def atomType (data : List Nat) (off : Nat) : Nat := loadUINT32BE data (off + 4)

def TYPE_FTYP : Nat := 0x66747970
def TYPE_MDAT : Nat := 0x6d646174
def TYPE_MOOV : Nat := 0x6d6f6f76
def TYPE_TRAK : Nat := 0x7472616b
def TYPE_MDIA : Nat := 0x6d646961
def TYPE_MINF : Nat := 0x6d696e66
def TYPE_STBL : Nat := 0x7374626c
def TYPE_MDHD : Nat := 0x6d646864
def TYPE_STSD : Nat := 0x73747364
def TYPE_STTS : Nat := 0x73747473
def TYPE_STSS : Nat := 0x73747373
def TYPE_STSC : Nat := 0x73747363
def TYPE_STSZ : Nat := 0x7374737a
def TYPE_STCO : Nat := 0x7374636f

/-- `AtomCollection::AtomID` bit positions (the uncommented enumerators
of `atom_collection.h`). -/
def ID_FTYP : Nat := 0
def ID_MDAT : Nat := 1
def ID_MDHD : Nat := 2
def ID_STSD : Nat := 3
def ID_STTS : Nat := 4
def ID_STSS : Nat := 5
def ID_STSC : Nat := 6
def ID_STSZ : Nat := 7
def ID_STCO : Nat := 8
def ID_ERROR : Nat := 9

/-- The recorded atom table `atoms_[]`: atom ID to the byte offset of
the first (for guarded IDs) or last (for `ftyp`/`mdat`) recorded
atom. -/
def AtomsState : Type := Nat → Option Nat

/-- Record an atom unconditionally (the `ftyp`/`mdat` cases). -/
def atomsPut (a : AtomsState) (id off : Nat) : AtomsState :=
  fun j => if j = id then some off else a j

/-- One step of the leaf-atom bookkeeping: the guarded
`if (!atoms_[ID]) { atoms_[ID] = atom; atom_mask |= 1 << ID; }`
pattern.  Returns the new table and the mask contribution. -/
def atomsPutGuarded (a : AtomsState) (id off : Nat) : AtomsState × Nat :=
  match a id with
  | some _ => (a, 0)
  | none => (atomsPut a id off, 1 <<< id)

/-- `AtomCollection::EnumerateChildAtoms`, as a fuelled loop over the
byte range `[start, endPos)`: returns the accumulated atom mask and the
updated table, or `none` when the fuel is exhausted before the C loop
would have finished (in particular, an atom of declared size 0 makes
the C loop spin forever, so every fuel value returns `none` there). -/
def enumChildAtoms (data : List Nat) :
    Nat → Nat → Nat → AtomsState → Option (Nat × AtomsState)
  | 0, _, _, _ => none
  | f + 1, start, endPos, a =>
    if endPos ≤ start then some (0, a)
    else
      if endPos < start + atomSize data start then some (1 <<< ID_ERROR, a)
      else
        match
          (if atomType data start = TYPE_FTYP then
            some (1 <<< ID_FTYP, atomsPut a ID_FTYP start)
          else if atomType data start = TYPE_MDAT then
            some (1 <<< ID_MDAT, atomsPut a ID_MDAT start)
          else if atomType data start = TYPE_MOOV ∨
              atomType data start = TYPE_TRAK ∨
              atomType data start = TYPE_MDIA ∨
              atomType data start = TYPE_MINF ∨
              atomType data start = TYPE_STBL then
            enumChildAtoms data f (start + 8) (start + atomSize data start) a
          else if atomType data start = TYPE_MDHD then
            some ((atomsPutGuarded a ID_MDHD start).2,
              (atomsPutGuarded a ID_MDHD start).1)
          else if atomType data start = TYPE_STSD then
            some ((atomsPutGuarded a ID_STSD start).2,
              (atomsPutGuarded a ID_STSD start).1)
          else if atomType data start = TYPE_STTS then
            some ((atomsPutGuarded a ID_STTS start).2,
              (atomsPutGuarded a ID_STTS start).1)
          else if atomType data start = TYPE_STSS then
            some ((atomsPutGuarded a ID_STSS start).2,
              (atomsPutGuarded a ID_STSS start).1)
          else if atomType data start = TYPE_STSC then
            some ((atomsPutGuarded a ID_STSC start).2,
              (atomsPutGuarded a ID_STSC start).1)
          else if atomType data start = TYPE_STSZ then
            some ((atomsPutGuarded a ID_STSZ start).2,
              (atomsPutGuarded a ID_STSZ start).1)
          else if atomType data start = TYPE_STCO then
            some ((atomsPutGuarded a ID_STCO start).2,
              (atomsPutGuarded a ID_STCO start).1)
          else some (0, a)) with
        | none => none
        | some (m1, a1) =>
          match enumChildAtoms data f (start + atomSize data start) endPos a1
            with
          | none => none
          | some (m2, a2) => some (m1 ||| m2, a2)

/-- The mask of mandatory atoms of `AtomCollection::Enumerate`. -/
def REQUIRED_ATOMS : Nat :=
  (1 <<< ID_FTYP) ||| (1 <<< ID_MDAT) ||| (1 <<< ID_STSD) |||
    (1 <<< ID_STSC) ||| (1 <<< ID_STSZ) ||| (1 <<< ID_STCO)

/-- `AtomCollection::Enumerate` with explicit fuel: scan the whole
buffer from a fresh table and succeed exactly when the mandatory atoms
were all found and the error bit is clear. -/
def enumerate (data : List Nat) (size fuel : Nat) : Option Bool :=
  match enumChildAtoms data fuel 0 size (fun _ => none) with
  | none => none
  | some (mask, _) =>
    some (mask &&& (REQUIRED_ATOMS ||| (1 <<< ID_ERROR)) = REQUIRED_ATOMS)

/-! ### `Decoder::InitializeSamples` and the duration fill of
`Decoder::Create`

The `stsc`/`stco`/`stsz`/`stts` accessors live in the absent
`mov/atom.h`; the tables are modelled from the spec as lists of entries
(`stsc`: `(first_chunk, samples_per_chunk)` pairs, 1-based first-chunk
indices; `stco`: chunk byte offsets; `stsz`: a fixed CBR size or 0, a
declared sample count, and a per-sample size map; `stts`:
`(sample_count, duration)` runs).  All counters in the source are
`uint32_t`; additions that can wrap are reduced modulo `2 ^ 32`. -/

/-- `Decoder::Sample`. -/
structure Sample where
  offset : Nat
  size : Nat
  duration : Nat
  picture_order_count : Nat
  deriving Repr, DecidableEq

/-- The backwards `stsc`-entry seek of the first `InitializeSamples`
loop: while the chunk index `i` is below the entry's first chunk, step
to the previous entry, failing at the first entry (`goto free_chunks`).
Arguments: the entry index and its first-chunk value. -/
def stscSeek (stsc : List (Nat × Nat)) (i : Nat) :
    Nat → Nat → Option (Nat × Nat)
  | 0, fc => if i < fc then none else some (0, fc)
  | e + 1, fc =>
    if i < fc then stscSeek stsc i e (stsc.getD e (0, 0)).1
    else some (e + 1, fc)

/-- The first `InitializeSamples` loop, walking chunk indices from
`number_of_chunks` down to 1: assigns each chunk the sample count of
its `stsc` entry and accumulates the total sample count (a `uint32_t`
sum). -/
def chunkCounts (stsc : List (Nat × Nat)) :
    Nat → Nat → Nat → Nat → (Nat → Nat) → Option (Nat × (Nat → Nat))
  | 0, _, _, acc, cnts => some (acc, cnts)
  | i + 1, e, fc, acc, cnts =>
    match stscSeek stsc (i + 1) e fc with
    | none => none
    | some (e2, fc2) =>
      chunkCounts stsc i e2 fc2 ((acc + (stsc.getD e2 (0, 0)).2) % 2 ^ 32)
        (updFn cnts i (stsc.getD e2 (0, 0)).2)

/-- The cumulative 1-based first-sample index of each chunk (the
second `InitializeSamples` loop; `uint32_t` accumulation). -/
def chunkFirsts (cnts : Nat → Nat) : Nat → Nat
  | 0 => 1
  | i + 1 => (chunkFirsts cnts i + cnts i) % 2 ^ 32

/-- The chunk-advance of the third `InitializeSamples` loop: while
sample `i` lies past the current chunk, step to the next chunk
(failing at the last chunk) and reset the running in-chunk offset. -/
def chunkSeekF (firsts cnts : Nat → Nat) (nChunks i : Nat) :
    Nat → Nat → Nat → Option (Nat × Nat)
  | 0, _, _ => none
  | fl + 1, c, so =>
    if (firsts c + cnts c) % 2 ^ 32 ≤ i then
      if nChunks ≤ c + 1 then none
      else chunkSeekF firsts cnts nChunks i fl (c + 1) 0
    else some (c, so)

/-- The chunk seek with the fuel its `while` loop can need: the chunk
index rises by one per iteration and stops before `nChunks`, so
`nChunks - c + 1` iterations always reach the answer (the zero-fuel
case is unreachable). -/
def chunkSeek (firsts cnts : Nat → Nat) (nChunks i c so : Nat) :
    Option (Nat × Nat) :=
  chunkSeekF firsts cnts nChunks i (nChunks - c + 1) c so

/-- The third `InitializeSamples` loop: for each 1-based sample index,
resolve its chunk, compute its byte offset as the chunk offset plus the
running sum of the preceding sample sizes in the chunk (`uint32_t`
arithmetic), and decode its slice header for the picture order count.
The first argument counts the remaining samples. -/
def sampleBuild (stD : DecoderState) (buf : List Nat) (szFixed : Nat)
    (sizes : Nat → Nat) (firsts cnts offs : Nat → Nat) (nChunks : Nat) :
    Nat → Nat → Nat → Nat → List Sample → Option (List Sample)
  | 0, _, _, _, acc => some acc.reverse
  | rem + 1, i, c, so, acc =>
    match chunkSeek firsts cnts nChunks i c so with
    | none => none
    | some (c2, so2) =>
      sampleBuild stD buf szFixed sizes firsts cnts offs nChunks rem (i + 1)
        c2
        ((so2 + (if szFixed ≠ 0 then szFixed else sizes (i - 1))) % 2 ^ 32)
        ({ offset := (offs c2 + so2) % 2 ^ 32
           size := if szFixed ≠ 0 then szFixed else sizes (i - 1)
           duration := 0
           picture_order_count :=
             decodeSliceHeader stD (buf.drop ((offs c2 + so2) % 2 ^ 32))
               (if szFixed ≠ 0 then szFixed else sizes (i - 1)) } :: acc)

/-- `Decoder::InitializeSamples`: merge `stsc` and `stco` into chunks,
verify the `stsz` count for VBR streams, and build the sample table. -/
def initializeSamples (stD : DecoderState) (buf : List Nat)
    (stsc : List (Nat × Nat)) (stco : List Nat)
    (sampleSize stszCount : Nat) (sizes : Nat → Nat) :
    Option (List Sample) :=
  if stsc.length = 0 ∨ stco.length = 0 then none
  else
    match chunkCounts stsc stco.length (stsc.length - 1)
        (stsc.getD (stsc.length - 1) (0, 0)).1 0 (fun _ => 0) with
    | none => none
    | some (total, cnts) =>
      if sampleSize = 0 ∧ total ≠ stszCount then none
      else
        sampleBuild stD buf sampleSize sizes (chunkFirsts cnts) cnts
          (fun c => stco.getD c 0) stco.length total 1 0 0 []

/-- The `stts` duration back-fill of `Decoder::Create`: expand each
`(count, duration)` run over the corresponding sample index range,
failing when a run extends past the total sample count. -/
def sttsFill (samples : List Sample) :
    List (Nat × Nat) → Nat → Option (List Sample)
  | [], _ => some samples
  | (cnt, dur) :: rest, estart =>
    if samples.length < (estart + cnt) % 2 ^ 32 then none
    else
      match sttsFill (samples.mapIdx (fun j s =>
          if estart ≤ j ∧ j < (estart + cnt) % 2 ^ 32 then
            { s with duration := dur }
          else s)) rest
        (if estart < (estart + cnt) % 2 ^ 32 then (estart + cnt) % 2 ^ 32
         else estart) with
      | none => none
      | some out => some out

/-- The sample-table construction as performed by `Decoder::Create`:
`InitializeSamples` followed, when `stts` and `mdhd` are present, by
the duration back-fill. -/
def buildSampleTable (stD : DecoderState) (buf : List Nat)
    (stsc : List (Nat × Nat)) (stco : List Nat)
    (sampleSize stszCount : Nat) (sizes : Nat → Nat)
    (stts : Option (List (Nat × Nat))) : Option (List Sample) :=
  match initializeSamples stD buf stsc stco sampleSize stszCount sizes with
  | none => none
  | some smp =>
    match stts with
    | none => some smp
    | some entries => sttsFill smp entries 0

/-! ### Specification-side helpers for the claim statements -/

/-- Whether the atom walk of `[start, endPos)` (with the given fuel,
mirroring the traversal of `enumChildAtoms`, whose control flow does
not depend on the atom table) encounters an atom whose declared size
extends past the end of its enclosing range. -/
def hasViolation (data : List Nat) : Nat → Nat → Nat → Bool
  | 0, _, _ => false
  | f + 1, start, endPos =>
    if endPos ≤ start then false
    else
      if endPos < start + atomSize data start then true
      else
        (if atomType data start = TYPE_MOOV ∨
            atomType data start = TYPE_TRAK ∨
            atomType data start = TYPE_MDIA ∨
            atomType data start = TYPE_MINF ∨
            atomType data start = TYPE_STBL then
          hasViolation data f (start + 8) (start + atomSize data start)
        else false) ||
          hasViolation data f (start + atomSize data start) endPos

/-- `f 0 + f 1 + ⋯ + f (n-1)`. -/
def natSum (f : Nat → Nat) : Nat → Nat
  | 0 => 0
  | n + 1 => natSum f n + f n

/-- The size of the 1-based sample `j` (`stsz`: a fixed CBR size or the
per-sample entry). -/
def sampleSizeOf (szFixed : Nat) (sizes : Nat → Nat) (j : Nat) : Nat :=
  if szFixed ≠ 0 then szFixed else sizes (j - 1)

/-- The sum of the sizes of the `n` samples starting at 1-based index
`a`. -/
def sumSizes (szFixed : Nat) (sizes : Nat → Nat) (a : Nat) : Nat → Nat
  | 0 => 0
  | n + 1 => sumSizes szFixed sizes a n + sampleSizeOf szFixed sizes (a + n)

/-- The byte filter a chunk's removal pass implements: keep the low
`ds` bytes of `word`, dropping byte `k` when bit `8 k` of `mask` is
set. -/
def byteFilter (word mask ds : Nat) : List Nat :=
  (List.range ds).filterMap (fun k =>
    if Nat.testBit mask (8 * k) then none
    else some ((word >>> (8 * k)) % 256))

/-- The emulation-prevention removal as the (amended) claim describes
it, byte by byte over the region `[pos, pos + size)`: byte `k` is
dropped when the two preceding region bytes are zero and it is at most
3; `z2`/`z1` state whether the two bytes just before the region are
zero (both `false` at the region start, where no byte is ever
dropped). -/
def specRBSPAux (data : List Nat) (pos size : Nat) (z2 z1 : Bool) :
    List Nat :=
  (List.range size).filterMap (fun k =>
    if ((2 ≤ k ∧ byteAt data (pos + k - 2) = 0) ∨ (k = 0 ∧ z2 = true) ∨
          (k = 1 ∧ z1 = true)) ∧
        ((1 ≤ k ∧ byteAt data (pos + k - 1) = 0) ∨ (k = 0 ∧ z1 = true)) ∧
        byteAt data (pos + k) ≤ 3
    then none else some (byteAt data (pos + k)))

/-- The emulation-prevention removal over `[pos, pos + size)` with no
zero-history before the region. -/
def specRBSP (data : List Nat) (pos size : Nat) : List Nat :=
  specRBSPAux data pos size false false

/-- The claim's offset property of the 1-based sample `j`: it belongs
to a chunk `c` and its byte offset is that chunk's `stco` offset plus
the sizes of the samples of chunk `c` preceding it (all `uint32_t`
arithmetic). -/
def SampleProp (szFixed : Nat) (sizes firsts cnts offs : Nat → Nat)
    (nChunks j : Nat) (s : Sample) : Prop :=
  ∃ c, c < nChunks ∧ firsts c ≤ j ∧ j < firsts c + cnts c ∧
    s.offset =
      (offs c + sumSizes szFixed sizes (firsts c) (j - firsts c)) % 2 ^ 32 ∧
    s.size = sampleSizeOf szFixed sizes j

/-! ### Concrete fixtures used by the witnesses -/

/-- A zero `ProfileTierLevel`. -/
def ptl0 : ProfileTierLevel := ⟨0, 0, 0, 0, 0, 0, 0, 0, 0, 0⟩

/-- The all-zero VPS (the state `Decoder::Initialize` leaves). -/
def vps0 : VideoParameterSet :=
  { profile_tier_level := ptl0
    extension := ⟨fun _ => 0, fun _ _ => 0, 0⟩
    vps_video_parameter_set_id := 0
    vps_max_layers_minus1 := 0
    vps_max_sub_layers_minus1 := 0
    vps_sub_layer_ordering_info_present_flag := 0
    vps_max_layer_id := 0
    vps_num_layer_sets_minus1 := 0
    vps_timing_info_present_flag := 0
    vps_extension_flag := 0 }

/-- An SPS fixture with a 4-bit picture-order-count width. -/
def spsPoc4 : SequenceParameterSet :=
  { profile_tier_level := ptl0
    pic_width_in_luma_samples := 0
    pic_height_in_luma_samples := 0
    sps_video_parameter_set_id := 0
    sps_max_sub_layers_minus1 := 0
    sps_seq_parameter_set_id := 0
    chroma_format_idc := 0
    separate_colour_plane_flag := 0
    bit_depth_luma := 8
    bit_depth_chroma := 8
    log2_max_pic_order_cnt_lsb := 4 }

/-- A zero PPS. -/
def pps0 : PictureParameterSet := ⟨0, 0, 0, 0, 0⟩

/-- A zero alpha record. -/
def alpha0 : AlphaChannelInformation := ⟨0, 0, 0, 0, 0, 0, 0⟩

/-- A decoder-state fixture. -/
def st0 : DecoderState :=
  { vps := vps0
    sps := fun _ => spsPoc4
    pps := fun _ => pps0
    alpha := alpha0 }

/-- The VPS RBSP worked out in the source comments of
`Decoder::DecodeVideoParameterSet` (an alpha-layer VPS whose
variable-length tail is `11 C0 BF 78 08 00 08 30 28 52 00 00 00 00 65
20`), preceded by a 2-byte NAL header, the fixed VPS fields
(`vps_max_layers_minus1 = 1`, `vps_max_sub_layers_minus1 = 0`) and a
zero PTL. -/
def vpsRbspExample : List Nat :=
  [0x40, 0x01, 0x0C, 0x11, 0xFF, 0xFF] ++
  [0, 0, 0, 0, 0, 0, 0, 0, 0, 0, 0, 0] ++
  [0x11, 0xC0, 0xBF, 0x78, 0x08, 0x00, 0x08, 0x30, 0x28, 0x52,
   0, 0, 0, 0, 0x65, 0x20]

theorem streamBits_lt (d : List Nat) (p n : Nat) : streamBits d p n < 2 ^ n := by
  induction n with
  | zero => simp [streamBits]
  | succ n ih =>
    simp only [streamBits, pow_succ]
    have := Bool.toNat_le (streamBit d (p + n))
    omega

theorem streamBits_add (d : List Nat) (p m n : Nat) :
    streamBits d p (m + n) = streamBits d p m * 2 ^ n + streamBits d (p + m) n := by
  induction n with
  | zero => simp [streamBits]
  | succ n ih =>
    have h : m + (n + 1) = (m + n) + 1 := rfl
    rw [h]
    simp only [streamBits, ih, pow_succ, ← Nat.add_assoc]
    ring

theorem streamBits_shiftRight (d : List Nat) (p n k : Nat) (h : k ≤ n) :
    streamBits d p n >>> k = streamBits d p (n - k) := by
  have h2 := streamBits_add d p (n - k) k
  rw [Nat.sub_add_cancel h] at h2
  rw [h2, Nat.shiftRight_eq_div_pow, Nat.mul_comm,
    Nat.mul_add_div (Nat.two_pow_pos k),
    Nat.div_eq_of_lt (streamBits_lt d (p + (n - k)) k), Nat.add_zero]

theorem streamBits_mod (d : List Nat) (p n k : Nat) (h : k ≤ n) :
    streamBits d p n % 2 ^ k = streamBits d (p + (n - k)) k := by
  have h2 := streamBits_add d p (n - k) k
  rw [Nat.sub_add_cancel h] at h2
  rw [h2, Nat.add_comm, Nat.add_mul_mod_self_right,
    Nat.mod_eq_of_lt (streamBits_lt d (p + (n - k)) k)]

theorem dropHigh_eq_mod (c l : Nat) : dropHigh c l = c % 2 ^ l := by
  apply Nat.eq_of_testBit_eq
  intro i
  simp only [dropHigh, Nat.testBit_xor, Nat.testBit_shiftLeft, Nat.testBit_shiftRight,
    Nat.testBit_mod_two_pow]
  by_cases h : l ≤ i
  · have h2 : l + (i - l) = i := by omega
    simp [h, h2, show ¬ i < l by omega]
  · simp [h, show i < l by omega]

theorem byteAt_lt (d : List Nat) (i : Nat) : byteAt d i < 256 :=
  Nat.mod_lt _ (by norm_num)

theorem streamBit_in_byte (d : List Nat) (i j : Nat) (h : j < 8) :
    streamBit d (8 * i + j) = Nat.testBit (byteAt d i) (7 - j) := by
  unfold streamBit
  have h1 : (8 * i + j) / 8 = i := by omega
  have h2 : (8 * i + j) % 8 = j := by omega
  rw [h1, h2]

theorem streamBit_in_byte0 (d : List Nat) (i : Nat) :
    streamBit d (8 * i) = Nat.testBit (byteAt d i) 7 := by
  have := streamBit_in_byte d i 0 (by norm_num)
  simpa using this

set_option maxRecDepth 20000 in
theorem byte_horner : ∀ b < 256,
    ((((((((Nat.testBit b 7).toNat * 2 + (Nat.testBit b 6).toNat) * 2
      + (Nat.testBit b 5).toNat) * 2 + (Nat.testBit b 4).toNat) * 2
      + (Nat.testBit b 3).toNat) * 2 + (Nat.testBit b 2).toNat) * 2
      + (Nat.testBit b 1).toNat) * 2 + (Nat.testBit b 0).toNat) = b := by
  decide

theorem streamBits_byte (d : List Nat) (i : Nat) :
    streamBits d (8 * i) 8 = byteAt d i := by
  have h := byte_horner (byteAt d i) (byteAt_lt d i)
  simp only [streamBits, streamBit_in_byte d i 7 (by norm_num),
    streamBit_in_byte d i 6 (by norm_num), streamBit_in_byte d i 5 (by norm_num),
    streamBit_in_byte d i 4 (by norm_num), streamBit_in_byte d i 3 (by norm_num),
    streamBit_in_byte d i 2 (by norm_num), streamBit_in_byte d i 1 (by norm_num),
    Nat.add_zero, streamBit_in_byte0 d i, Nat.zero_mul, Nat.zero_add]
  norm_num at h ⊢
  omega

theorem loadUINT32BE_eq (d : List Nat) (i : Nat) :
    loadUINT32BE d i = streamBits d (8 * i) 32 := by
  rw [show (32 : Nat) = 8 + 24 from rfl, streamBits_add,
    show (24 : Nat) = 8 + 16 from rfl, streamBits_add,
    show (16 : Nat) = 8 + 8 from rfl, streamBits_add]
  rw [show 8 * i + 8 = 8 * (i + 1) by ring, show 8 * (i + 1) + 8 = 8 * (i + 2) by ring,
    show 8 * (i + 2) + 8 = 8 * (i + 3) by ring]
  simp only [streamBits_byte]
  unfold loadUINT32BE
  ring

theorem loadUINT64BE_eq (d : List Nat) (i : Nat) :
    loadUINT64BE d i = streamBits d (8 * i) 64 := by
  rw [show (64 : Nat) = 32 + 32 from rfl, streamBits_add,
    show 8 * i + 32 = 8 * (i + 4) by ring]
  unfold loadUINT64BE
  rw [loadUINT32BE_eq, loadUINT32BE_eq]

theorem loadUINT32BE_lt (d : List Nat) (i : Nat) : loadUINT32BE d i < 2 ^ 32 := by
  rw [loadUINT32BE_eq]; exact streamBits_lt d (8 * i) 32

theorem rep_loadCache (d : List Nat) (s : BitStreamReader) :
    Rep d (s.loadCache d) (8 * s.top) := by
  refine ⟨le_refl 64, by simp [BitStreamReader.loadCache]; ring, ?_⟩
  simp [BitStreamReader.loadCache, loadUINT64BE_eq]

theorem rep_setup (d : List Nat) (t : Nat) :
    Rep d (BitStreamReader.setup d t) (8 * t) :=
  rep_loadCache d { top := t, cache := 0, length := 0 }

theorem extractBits_correct (d : List Nat) (s : BitStreamReader) (p n : Nat)
    (hr : Rep d s p) (hn : n ≤ s.length) :
    (BitStreamReader.extractBits s n).1 = streamBits d p n ∧
    Rep d (BitStreamReader.extractBits s n).2 (p + n) := by
  obtain ⟨h64, htop, hcache⟩ := hr
  have hcode : s.cache >>> (s.length - n) = streamBits d p n := by
    rw [hcache, streamBits_shiftRight d p s.length (s.length - n) (by omega)]
    congr 1; omega
  refine ⟨hcode, by show s.length - n ≤ 64; omega,
    by show 8 * s.top = p + n + (s.length - n); omega, ?_⟩
  show s.cache ^^^ ((s.cache >>> (s.length - n)) <<< (s.length - n)) = _
  rw [show s.cache ^^^ ((s.cache >>> (s.length - n)) <<< (s.length - n)) =
      dropHigh s.cache (s.length - n) from rfl, dropHigh_eq_mod, hcache,
    streamBits_mod d p s.length (s.length - n) (by omega)]
  congr 2
  omega

theorem fillCache_correct (d : List Nat) (s : BitStreamReader) (p : Nat)
    (hr : Rep d s p) (h32 : s.length ≤ 32) :
    Rep d (s.fillCache d) p := by
  obtain ⟨h64, htop, hcache⟩ := hr
  have hlt : s.cache < 2 ^ s.length := hcache ▸ streamBits_lt d p s.length
  refine ⟨by simp [BitStreamReader.fillCache]; omega,
    by simp [BitStreamReader.fillCache]; omega, ?_⟩
  show ((s.cache <<< 32) % 2 ^ 64) ||| loadUINT32BE d s.top = _
  have hsh : s.cache <<< 32 = s.cache * 2 ^ 32 := Nat.shiftLeft_eq _ _
  have hmod : (s.cache <<< 32) % 2 ^ 64 = s.cache <<< 32 := by
    apply Nat.mod_eq_of_lt
    rw [hsh]
    calc s.cache * 2 ^ 32 < 2 ^ s.length * 2 ^ 32 :=
          (Nat.mul_lt_mul_right (by norm_num)).mpr hlt
      _ ≤ 2 ^ 64 := by
          rw [← pow_add]; exact Nat.pow_le_pow_right (by norm_num) (by omega)
  rw [hmod, hsh, Nat.mul_comm,
    ← Nat.mul_add_lt_is_or (loadUINT32BE_lt d s.top) s.cache, loadUINT32BE_eq]
  show 2 ^ 32 * s.cache + streamBits d (8 * s.top) 32 = streamBits d p (s.length + 32)
  rw [streamBits_add d p s.length 32, hcache, htop]
  ring

theorem getBit_correct (d : List Nat) (s : BitStreamReader) (p : Nat)
    (hr : Rep d s p) :
    (s.getBit d).1 = (streamBit d p).toNat ∧ Rep d (s.getBit d).2 (p + 1) := by
  have hbit1 : streamBits d p 1 = (streamBit d p).toNat := by
    simp [streamBits]
  by_cases h0 : s.length = 0
  · have hp : 8 * s.top = p := by
      have := hr.2.1; omega
    have hr2 : Rep d (s.loadCache d) p := hp ▸ rep_loadCache d s
    have h := extractBits_correct d (s.loadCache d) p 1 hr2 (by
      show (1 : Nat) ≤ 64; norm_num)
    unfold BitStreamReader.getBit
    rw [if_pos h0]
    exact ⟨h.1.trans hbit1, h.2⟩
  · have h := extractBits_correct d s p 1 hr (by omega)
    unfold BitStreamReader.getBit
    rw [if_neg h0]
    exact ⟨h.1.trans hbit1, h.2⟩

theorem getBits_correct (d : List Nat) (s : BitStreamReader) (p n : Nat)
    (hr : Rep d s p) (hn : n ≤ 32) :
    (s.getBits d n).1 = streamBits d p n ∧ Rep d (s.getBits d n).2 (p + n) := by
  by_cases h0 : s.length < n
  · have hr2 : Rep d (s.fillCache d) p := fillCache_correct d s p hr (by omega)
    have hlen : (s.fillCache d).length = s.length + 32 := rfl
    have h := extractBits_correct d (s.fillCache d) p n hr2 (by
      show n ≤ s.length + 32; omega)
    unfold BitStreamReader.getBits
    rw [if_pos h0]
    exact ⟨h.1, h.2⟩
  · have h := extractBits_correct d s p n hr (by omega)
    unfold BitStreamReader.getBits
    rw [if_neg h0]
    exact ⟨h.1, h.2⟩

theorem streamBits_zeros (d : List Nat) (p k : Nat)
    (hzero : ∀ j < k, streamBit d (p + j) = false) :
    streamBits d p k = 0 := by
  induction k with
  | zero => rfl
  | succ k ih =>
    simp only [streamBits, ih (fun j hj => hzero j (by omega)),
      hzero k (by omega), Bool.toNat_false]

theorem bitLenFuel_zero : ∀ f, bitLenFuel f 0 = 0 := by
  intro f
  cases f <;> simp [bitLenFuel]

theorem bitLenFuel_eq : ∀ f m n, m < f → 2 ^ m ≤ n → n < 2 ^ (m + 1) →
    bitLenFuel f n = m + 1 := by
  intro f
  induction f with
  | zero => intro m n hm _ _; omega
  | succ f ih =>
    intro m n hm h1 h2
    have hn : n ≠ 0 := by
      have := Nat.two_pow_pos m
      omega
    rw [bitLenFuel, if_neg hn]
    cases m with
    | zero =>
      have hone : n = 1 := by
        have : n < 2 := by simpa using h2
        omega
      rw [hone]
      norm_num [bitLenFuel_zero]
    | succ m =>
      have hp1 : (2 : Nat) ^ (m + 1) = 2 ^ m * 2 := by ring
      have hp2 : (2 : Nat) ^ (m + 1 + 1) = 2 ^ (m + 1) * 2 := by ring
      have h1e : 2 ^ m ≤ n / 2 := by
        rw [Nat.le_div_iff_mul_le (by norm_num)]
        omega
      have h2e : n / 2 < 2 ^ (m + 1) := by
        rw [Nat.div_lt_iff_lt_mul (by norm_num)]
        omega
      rw [ih m (n / 2) (by omega) h1e h2e]

theorem clz64_of_bounds (x k : Nat) (h1 : 2 ^ (63 - k) ≤ x)
    (h2 : x < 2 ^ (64 - k)) (hk : k ≤ 63) : clz64 x = k := by
  unfold clz64 bitLen
  rw [bitLenFuel_eq 64 (63 - k) x (by omega) h1 (by
    have h : 63 - k + 1 = 64 - k := by omega
    rw [h]; exact h2)]
  omega

theorem readGolomb_correct (d : List Nat) (s : BitStreamReader) (p k : Nat)
    (hr : Rep d s p) (hk : k ≤ 15)
    (hzero : ∀ j < k, streamBit d (p + j) = false)
    (hone : streamBit d (p + k) = true) :
    (s.readGolomb d).1 = streamBits d p (2 * k + 1) - 1 ∧
    Rep d (s.readGolomb d).2 (p + (2 * k + 1)) := by
  -- After the conditional refill the cache holds at least 32 bits.
  have key : ∀ s2 : BitStreamReader, Rep d s2 p → 32 ≤ s2.length →
      clz64 ((s2.cache <<< (64 - s2.length)) % 2 ^ 64) = k := by
    intro s2 hr2 h32
    obtain ⟨h64, htop, hcache⟩ := hr2
    set L := s2.length with hL
    have hsplit : streamBits d p L =
        streamBits d p (k + 1) * 2 ^ (L - (k + 1)) +
          streamBits d (p + (k + 1)) (L - (k + 1)) := by
      have := streamBits_add d p (k + 1) (L - (k + 1))
      rwa [show k + 1 + (L - (k + 1)) = L by omega] at this
    have hlead : streamBits d p (k + 1) = 1 := by
      simp only [streamBits, streamBits_zeros d p k hzero, hone]
      rfl
    have hrlt := streamBits_lt d (p + (k + 1)) (L - (k + 1))
    have hclt : s2.cache < 2 ^ L := hcache ▸ streamBits_lt d p L
    have hshift : s2.cache <<< (64 - L) = s2.cache * 2 ^ (64 - L) :=
      Nat.shiftLeft_eq _ _
    have hlt64 : s2.cache * 2 ^ (64 - L) < 2 ^ 64 := by
      calc s2.cache * 2 ^ (64 - L) < 2 ^ L * 2 ^ (64 - L) :=
            (Nat.mul_lt_mul_right (Nat.two_pow_pos _)).mpr hclt
        _ = 2 ^ 64 := by rw [← pow_add]; congr 1; omega
    have hmod : (s2.cache <<< (64 - L)) % 2 ^ 64 = s2.cache * 2 ^ (64 - L) := by
      rw [hshift]; exact Nat.mod_eq_of_lt hlt64
    rw [hmod]
    apply clz64_of_bounds
    · rw [hcache, hsplit, hlead, Nat.one_mul, Nat.add_mul, ← pow_add,
        show L - (k + 1) + (64 - L) = 63 - k by omega]
      omega
    · rw [hcache, hsplit, hlead, Nat.one_mul, Nat.add_mul, ← pow_add,
        show L - (k + 1) + (64 - L) = 63 - k by omega]
      have : streamBits d (p + (k + 1)) (L - (k + 1)) * 2 ^ (64 - L) <
          2 ^ (63 - k) := by
        calc streamBits d (p + (k + 1)) (L - (k + 1)) * 2 ^ (64 - L)
            < 2 ^ (L - (k + 1)) * 2 ^ (64 - L) :=
              (Nat.mul_lt_mul_right (Nat.two_pow_pos _)).mpr hrlt
          _ = 2 ^ (63 - k) := by rw [← pow_add]; congr 1; omega
      have h63 : 2 ^ (63 - k) + 2 ^ (63 - k) = 2 ^ (64 - k) := by
        rw [← Nat.two_mul, ← pow_succ']
        congr 1; omega
      omega
    · omega
  have main : ∀ s2 : BitStreamReader, Rep d s2 p → 32 ≤ s2.length →
      (BitStreamReader.golombExtract s2).1 = streamBits d p (2 * k + 1) - 1 ∧
      Rep d (BitStreamReader.golombExtract s2).2 (p + (2 * k + 1)) := by
    intro s2 hr2 h32
    have hclz := key s2 hr2 h32
    have h := extractBits_correct d s2 p (2 * k + 1) hr2 (by omega)
    unfold BitStreamReader.golombExtract
    rw [hclz, Nat.mul_comm k 2]
    exact ⟨by rw [h.1], h.2⟩
  by_cases h0 : s.length < 32
  · have hr2 : Rep d (s.fillCache d) p := fillCache_correct d s p hr (by omega)
    have h32 : 32 ≤ (s.fillCache d).length := by
      show 32 ≤ s.length + 32; omega
    have h := main (s.fillCache d) hr2 h32
    unfold BitStreamReader.readGolomb
    rw [if_pos h0]
    exact h
  · have h := main s hr (by omega)
    unfold BitStreamReader.readGolomb
    rw [if_neg h0]
    exact h

theorem skipBits_correct (d : List Nat) (s : BitStreamReader) (p n : Nat)
    (hr : Rep d s p) : Rep d (s.skipBits d n) (p + n) := by
  obtain ⟨h64, htop, hcache⟩ := hr
  unfold BitStreamReader.skipBits
  by_cases h : s.length ≤ n
  · rw [if_pos h]
    have hdiv : (n - s.length) >>> 3 = (n - s.length) / 8 :=
      Nat.shiftRight_eq_div_pow _ 3
    have hrl := rep_loadCache d { s with top := s.top + ((n - s.length) >>> 3) }
    have h2 := extractBits_correct d _ _ ((n - s.length) % 8) hrl
      (by show (n - s.length) % 8 ≤ 64; omega)
    have h3 := h2.2
    have heq : 8 * ({ s with top := s.top + ((n - s.length) >>> 3) :
        BitStreamReader }).top + (n - s.length) % 8 = p + n := by
      show 8 * (s.top + ((n - s.length) >>> 3)) + (n - s.length) % 8 = p + n
      rw [hdiv]
      omega
    rwa [heq] at h3
  · rw [if_neg h]
    exact (extractBits_correct d s p n ⟨h64, htop, hcache⟩ (by omega)).2

theorem skipToByteBoundary_correct (d : List Nat) (s : BitStreamReader) (p : Nat)
    (hr : Rep d s p) : Rep d s.skipToByteBoundary (p + s.length % 8) := by
  exact (extractBits_correct d s p (s.length % 8) hr (by omega)).2

theorem ctzFuel_spec : ∀ (f n : Nat), n ≠ 0 → n < 2 ^ f →
    (∀ j, j < ctzFuel f n → Nat.testBit n j = false) ∧
    Nat.testBit n (ctzFuel f n) = true := by
  intro f
  induction f with
  | zero =>
    intro n hn hlt
    interval_cases n
    exact absurd rfl hn
  | succ f ih =>
    intro n hn hlt
    rw [ctzFuel]
    split
    · rename_i hodd
      refine ⟨fun j hj => absurd hj (by omega), ?_⟩
      rw [Nat.testBit_zero]
      exact decide_eq_true (by assumption)
    · rename_i heven
      have hn2 : n / 2 ≠ 0 := by omega
      have hl2 : n / 2 < 2 ^ f := by
        rw [Nat.pow_succ] at hlt
        omega
      obtain ⟨hz, ho⟩ := ih (n / 2) hn2 hl2
      constructor
      · intro j hj
        match j with
        | 0 =>
          rw [Nat.testBit_zero]
          simp
          omega
        | j + 1 =>
          rw [Nat.testBit_succ]
          exact hz j (by omega)
      · rw [Nat.testBit_succ]
        exact ho

theorem ctz64_spec (n : Nat) (hn : n ≠ 0) (hlt : n < 2 ^ 64) :
    (∀ j, j < ctz64 n → Nat.testBit n j = false) ∧
    Nat.testBit n (ctz64 n) = true := by
  rw [ctz64, if_neg hn]
  exact ctzFuel_spec 64 n hn hlt

theorem ctz64_lt (n : Nat) (hn : n ≠ 0) (hlt : n < 2 ^ 64) :
    ctz64 n < 64 := by
  by_contra hge
  have := (ctz64_spec n hn hlt).2
  rw [Nat.testBit_eq_false_of_lt] at this
  · cases this
  · calc n < 2 ^ 64 := hlt
    _ ≤ 2 ^ ctz64 n := Nat.pow_le_pow_right (by norm_num) (by omega)

theorem wordBytes_map : ∀ (k w : Nat), wordBytes w k =
    (List.range k).map (fun j => (w >>> (8 * j)) % 256) := by
  intro k
  induction k with
  | zero => intro w; rfl
  | succ k ih =>
    intro w
    rw [wordBytes, ih (w >>> 8), List.range_succ_eq_map, List.map_cons,
      List.map_map]
    congr 1
    apply List.map_congr_left
    intro a ha
    show w >>> 8 >>> (8 * a) % 256 = w >>> (8 * (a + 1)) % 256
    rw [← Nat.shiftRight_add,
      show (8 : Nat) + 8 * a = 8 * (a + 1) from by omega]

theorem filterMap_range_all_some {α : Type} (f : Nat → Option α)
    (g : Nat → α) : ∀ n, (∀ j, j < n → f j = some (g j)) →
    (List.range n).filterMap f = (List.range n).map g := by
  intro n
  induction n with
  | zero => intro _; rfl
  | succ n ih =>
    intro h
    rw [List.range_succ, List.filterMap_append, List.map_append,
      ih (fun j hj => h j (by omega))]
    congr 1
    rw [List.filterMap_cons, h n (by omega)]
    rfl

theorem filterMap_range_congr {α : Type} (f g : Nat → Option α) :
    ∀ n, (∀ j, j < n → f j = g j) →
    (List.range n).filterMap f = (List.range n).filterMap g := by
  intro n
  induction n with
  | zero => intro _; rfl
  | succ n ih =>
    intro h
    rw [List.range_succ, List.filterMap_append, List.filterMap_append,
      ih (fun j hj => h j (by omega)), List.filterMap_cons,
      List.filterMap_cons, h n (by omega)]
    rfl

theorem byteFilter_split (word mask ds idx : Nat) (hidx : idx < ds)
    (hlow : ∀ j, j < idx → Nat.testBit mask (8 * j) = false)
    (hflag : Nat.testBit mask (8 * idx) = true) :
    byteFilter word mask ds =
      wordBytes word idx ++
        byteFilter (word >>> (8 * (idx + 1))) (mask >>> (8 * (idx + 1)))
          (ds - idx - 1) := by
  unfold byteFilter
  conv_lhs => rw [show ds = (idx + 1) + (ds - idx - 1) from by omega]
  rw [List.range_add, List.filterMap_append]
  congr 1
  · rw [List.range_succ, List.filterMap_append]
    have h1 : (List.range idx).filterMap
        (fun k => if Nat.testBit mask (8 * k) then none
          else some ((word >>> (8 * k)) % 256)) =
        (List.range idx).map (fun j => (word >>> (8 * j)) % 256) := by
      apply filterMap_range_all_some
      intro j hj
      rw [if_neg (by simp [hlow j hj])]
    rw [h1, List.filterMap_cons, if_pos hflag, wordBytes_map]
    simp
  · rw [List.filterMap_map]
    apply filterMap_range_congr
    intro j hj
    show (if Nat.testBit mask (8 * (idx + 1 + j)) then none
      else some ((word >>> (8 * (idx + 1 + j))) % 256)) = _
    rw [show 8 * (idx + 1 + j) = 8 * (idx + 1) + 8 * j from by omega,
      ← Nat.testBit_shiftRight, Nat.shiftRight_add]

theorem byteFilter_zero_mask (word ds : Nat) :
    byteFilter word 0 ds = wordBytes word ds := by
  unfold byteFilter
  rw [wordBytes_map]
  apply filterMap_range_all_some
  intro j hj
  rw [if_neg (by simp)]

set_option maxHeartbeats 800000 in
theorem rbspRemoveLoopF_filter :
    ∀ (fl word mask ds : Nat), mask ≠ 0 → mask < 2 ^ 64 →
      mask < 2 ^ (8 * fl) →
      (∀ i, Nat.testBit mask i = true → i % 8 = 0 ∧ i < 8 * ds) →
      rbspRemoveLoopF fl word mask ds = byteFilter word mask ds := by
  intro fl
  induction fl with
  | zero =>
    intro word mask ds hm hm64 hlt _
    norm_num at hlt
    exact absurd (by omega) hm
  | succ fl ih =>
    intro word mask ds hm hm64 hlt hal
    obtain ⟨hzl, hbit⟩ := ctz64_spec mask hm hm64
    have hctz8 : ctz64 mask % 8 = 0 := (hal (ctz64 mask) hbit).1
    have hctzlt : ctz64 mask < 8 * ds := (hal (ctz64 mask) hbit).2
    have hidx : ctz64 mask = 8 * (ctz64 mask >>> 3) := by
      rw [Nat.shiftRight_eq_div_pow, show (2 : Nat) ^ 3 = 8 from by
        norm_num]
      omega
    have hshl : (ctz64 mask >>> 3) <<< 3 = ctz64 mask := by
      rw [Nat.shiftLeft_eq, Nat.shiftRight_eq_div_pow,
        show (2 : Nat) ^ 3 = 8 from by norm_num]
      omega
    rw [rbspRemoveLoopF]
    have hsplit := byteFilter_split word mask ds (ctz64 mask >>> 3)
      (by omega) (fun j hj => hzl (8 * j) (by omega)) (by rw [← hidx]; exact
        hbit)
    split
    · rename_i hdone
      rw [hsplit]
      congr 1
      have hmz : mask >>> (8 * (ctz64 mask >>> 3 + 1)) = 0 := by
        rw [hshl, ← Nat.shiftRight_add] at hdone
        rw [show 8 * (ctz64 mask >>> 3 + 1) = ctz64 mask + 8 from by omega]
        exact hdone
      rw [hmz, byteFilter_zero_mask, hshl, ← Nat.shiftRight_add]
      rw [show ctz64 mask + 8 = 8 * (ctz64 mask >>> 3 + 1) from by omega]
      split
      · rfl
      · rename_i hds0
        rw [show ds - ctz64 mask >>> 3 - 1 = 0 from by omega]
        rfl
    · rename_i hmore
      rw [hsplit]
      congr 1
      rw [hshl, ← Nat.shiftRight_add,
        show ctz64 mask + 8 = 8 * (ctz64 mask >>> 3 + 1) from by omega]
        at hmore
      rw [hshl, ← Nat.shiftRight_add, ← Nat.shiftRight_add,
        show ctz64 mask + 8 = 8 * (ctz64 mask >>> 3 + 1) from by omega]
      refine ih (word >>> (8 * (ctz64 mask >>> 3 + 1)))
        (mask >>> (8 * (ctz64 mask >>> 3 + 1))) (ds - (ctz64 mask >>> 3 + 1))
        hmore (lt_of_le_of_lt (by
          rw [Nat.shiftRight_eq_div_pow]
          exact Nat.div_le_self _ _) hm64) ?_ ?_
      · rw [Nat.shiftRight_eq_div_pow]
        have h1 : mask / 2 ^ (8 * (ctz64 mask >>> 3 + 1)) ≤ mask / 2 ^ 8 :=
          Nat.div_le_div_left (Nat.pow_le_pow_right (by norm_num) (by omega))
            (Nat.two_pow_pos 8)
        have h2 : mask / 2 ^ 8 < 2 ^ (8 * fl) := by
          rw [Nat.div_lt_iff_lt_mul (Nat.two_pow_pos 8), ← Nat.pow_add]
          calc mask < 2 ^ (8 * (fl + 1)) := hlt
          _ ≤ 2 ^ (8 * fl + 8) := Nat.pow_le_pow_right (by norm_num)
            (by omega)
        omega
      · intro i hi
        rw [Nat.testBit_shiftRight] at hi
        have := hal (8 * (ctz64 mask >>> 3 + 1) + i) hi
        omega

set_option maxRecDepth 20000 in
theorem byte_or_zero : ∀ m, m < 256 →
    (!(m.testBit 0 || m.testBit 1 || m.testBit 2 || m.testBit 3 ||
       m.testBit 4 || m.testBit 5 || m.testBit 6 || m.testBit 7)) =
      decide (m = 0) := by decide

set_option maxRecDepth 20000 in
theorem byte_or_le3 : ∀ m, m < 256 →
    (!(m.testBit 2 || m.testBit 3 || m.testBit 4 || m.testBit 5 ||
       m.testBit 6 || m.testBit 7)) = decide (m ≤ 3) := by decide

theorem byte_testBit (w s j : Nat) (hj : j < 8) :
    Nat.testBit ((w >>> s) % 256) j = Nat.testBit w (s + j) := by
  rw [show (256 : Nat) = 2 ^ 8 from by norm_num, Nat.testBit_mod_two_pow,
    Nat.testBit_shiftRight]
  simp [hj]

theorem byte_zero_bit (w s : Nat) :
    decide ((w >>> s) % 256 = 0) =
      (!(Nat.testBit w (s + 0) || Nat.testBit w (s + 1) ||
         Nat.testBit w (s + 2) || Nat.testBit w (s + 3) ||
         Nat.testBit w (s + 4) || Nat.testBit w (s + 5) ||
         Nat.testBit w (s + 6) || Nat.testBit w (s + 7))) := by
  have h := byte_or_zero ((w >>> s) % 256) (Nat.mod_lt _ (by norm_num))
  rw [byte_testBit w s 0 (by norm_num), byte_testBit w s 1 (by norm_num),
    byte_testBit w s 2 (by norm_num), byte_testBit w s 3 (by norm_num),
    byte_testBit w s 4 (by norm_num), byte_testBit w s 5 (by norm_num),
    byte_testBit w s 6 (by norm_num), byte_testBit w s 7 (by norm_num)]
    at h
  exact h.symm

theorem byte_le3_bit (w s : Nat) :
    decide ((w >>> s) % 256 ≤ 3) =
      (!(Nat.testBit w (s + 2) || Nat.testBit w (s + 3) ||
         Nat.testBit w (s + 4) || Nat.testBit w (s + 5) ||
         Nat.testBit w (s + 6) || Nat.testBit w (s + 7))) := by
  have h := byte_or_le3 ((w >>> s) % 256) (Nat.mod_lt _ (by norm_num))
  rw [byte_testBit w s 2 (by norm_num), byte_testBit w s 3 (by norm_num),
    byte_testBit w s 4 (by norm_num), byte_testBit w s 5 (by norm_num),
    byte_testBit w s 6 (by norm_num), byte_testBit w s 7 (by norm_num)]
    at h
  exact h.symm

set_option maxRecDepth 20000 in
theorem notLow_bit : ∀ i < 64, Nat.testBit (not64 lowBitsMask) i = decide (i % 8 ≠ 0) := by decide

theorem maskEq00_bit (word j : Nat) (hj : j < 8) :
    Nat.testBit (maskEq00 word) (8 * j) = decide ((word >>> (8 * j)) % 256 = 0) := by
  rw [byte_zero_bit word (8 * j)]
  rw [maskEq00, not64, Nat.testBit_xor, Nat.testBit_two_pow_sub_one]
  rw [decide_eq_true (show 8 * j < 64 from by omega)]
  simp only [m00c, m00a, Nat.testBit_lor, Nat.testBit_shiftRight, Bool.xor_true]
  congr 1
  interval_cases j <;>
    norm_num <;>
    simp [Bool.or_assoc, Bool.or_comm, Bool.or_left_comm]

theorem maskLe03_bit (word j : Nat) (hj : j < 8) :
    Nat.testBit (maskLe03 word) (8 * j) = decide ((word >>> (8 * j)) % 256 ≤ 3) := by
  rw [byte_le3_bit word (8 * j)]
  rw [maskLe03, not64, Nat.testBit_xor, Nat.testBit_two_pow_sub_one]
  rw [decide_eq_true (show 8 * j < 64 from by omega)]
  simp only [m03c, m03a, m00a, Nat.testBit_lor, Nat.testBit_land,
    Nat.testBit_shiftRight, Bool.xor_true]
  congr 1
  interval_cases j
  · rw [show Nat.testBit (not64 lowBitsMask) (8 * 0) = false from by decide,
      show Nat.testBit (not64 lowBitsMask) (2 + 8 * 0) = true from by decide,
      show Nat.testBit (not64 lowBitsMask) (4 + 8 * 0) = true from by decide,
      show Nat.testBit (not64 lowBitsMask) (2 + (4 + 8 * 0)) = true from by decide]
    norm_num <;> simp [Bool.or_assoc, Bool.or_comm, Bool.or_left_comm]
  · rw [show Nat.testBit (not64 lowBitsMask) (8 * 1) = false from by decide,
      show Nat.testBit (not64 lowBitsMask) (2 + 8 * 1) = true from by decide,
      show Nat.testBit (not64 lowBitsMask) (4 + 8 * 1) = true from by decide,
      show Nat.testBit (not64 lowBitsMask) (2 + (4 + 8 * 1)) = true from by decide]
    norm_num <;> simp [Bool.or_assoc, Bool.or_comm, Bool.or_left_comm]
  · rw [show Nat.testBit (not64 lowBitsMask) (8 * 2) = false from by decide,
      show Nat.testBit (not64 lowBitsMask) (2 + 8 * 2) = true from by decide,
      show Nat.testBit (not64 lowBitsMask) (4 + 8 * 2) = true from by decide,
      show Nat.testBit (not64 lowBitsMask) (2 + (4 + 8 * 2)) = true from by decide]
    norm_num <;> simp [Bool.or_assoc, Bool.or_comm, Bool.or_left_comm]
  · rw [show Nat.testBit (not64 lowBitsMask) (8 * 3) = false from by decide,
      show Nat.testBit (not64 lowBitsMask) (2 + 8 * 3) = true from by decide,
      show Nat.testBit (not64 lowBitsMask) (4 + 8 * 3) = true from by decide,
      show Nat.testBit (not64 lowBitsMask) (2 + (4 + 8 * 3)) = true from by decide]
    norm_num <;> simp [Bool.or_assoc, Bool.or_comm, Bool.or_left_comm]
  · rw [show Nat.testBit (not64 lowBitsMask) (8 * 4) = false from by decide,
      show Nat.testBit (not64 lowBitsMask) (2 + 8 * 4) = true from by decide,
      show Nat.testBit (not64 lowBitsMask) (4 + 8 * 4) = true from by decide,
      show Nat.testBit (not64 lowBitsMask) (2 + (4 + 8 * 4)) = true from by decide]
    norm_num <;> simp [Bool.or_assoc, Bool.or_comm, Bool.or_left_comm]
  · rw [show Nat.testBit (not64 lowBitsMask) (8 * 5) = false from by decide,
      show Nat.testBit (not64 lowBitsMask) (2 + 8 * 5) = true from by decide,
      show Nat.testBit (not64 lowBitsMask) (4 + 8 * 5) = true from by decide,
      show Nat.testBit (not64 lowBitsMask) (2 + (4 + 8 * 5)) = true from by decide]
    norm_num <;> simp [Bool.or_assoc, Bool.or_comm, Bool.or_left_comm]
  · rw [show Nat.testBit (not64 lowBitsMask) (8 * 6) = false from by decide,
      show Nat.testBit (not64 lowBitsMask) (2 + 8 * 6) = true from by decide,
      show Nat.testBit (not64 lowBitsMask) (4 + 8 * 6) = true from by decide,
      show Nat.testBit (not64 lowBitsMask) (2 + (4 + 8 * 6)) = true from by decide]
    norm_num <;> simp [Bool.or_assoc, Bool.or_comm, Bool.or_left_comm]
  · rw [show Nat.testBit (not64 lowBitsMask) (8 * 7) = false from by decide,
      show Nat.testBit (not64 lowBitsMask) (2 + 8 * 7) = true from by decide,
      show Nat.testBit (not64 lowBitsMask) (4 + 8 * 7) = true from by decide,
      show Nat.testBit (not64 lowBitsMask) (2 + (4 + 8 * 7)) = true from by decide]
    norm_num <;> simp [Bool.or_assoc, Bool.or_comm, Bool.or_left_comm]

theorem rbspChunkMask_snd_bit (word lastMask dsize j : Nat) (hj : j < 8) :
    Nat.testBit (rbspChunkMask word lastMask dsize).2 (8 * j) =
      decide ((word >>> (8 * j)) % 256 = 0) := by
  show Nat.testBit (maskEq00 word) (8 * j) = _
  exact maskEq00_bit word j hj

theorem rbspChunkMask_fst_bit (word lastMask dsize k : Nat) (hk : k < 8)
    (hl : lastMask < 2 ^ 64) :
    Nat.testBit (rbspChunkMask word lastMask dsize).1 (8 * k) =
      (decide (k < dsize ∨ 8 ≤ dsize) &&
        ((if 2 ≤ k then decide ((word >>> (8 * (k - 2))) % 256 = 0)
          else if k = 0 then Nat.testBit lastMask 48
          else Nat.testBit lastMask 56) &&
         ((if 1 ≤ k then decide ((word >>> (8 * (k - 1))) % 256 = 0)
           else Nat.testBit lastMask 56) &&
          decide ((word >>> (8 * k)) % 256 ≤ 3)))) := by
  have hcore : Nat.testBit ((((maskEq00 word <<< 16) % 2 ^ 64) ||| (lastMask >>> 48)) &&&
        (((maskEq00 word <<< 8) % 2 ^ 64) ||| (lastMask >>> 56)) &&&
        maskLe03 word &&& lowBitsMask) (8 * k) =
      ((if 2 ≤ k then decide ((word >>> (8 * (k - 2))) % 256 = 0)
        else if k = 0 then Nat.testBit lastMask 48
        else Nat.testBit lastMask 56) &&
       ((if 1 ≤ k then decide ((word >>> (8 * (k - 1))) % 256 = 0)
         else Nat.testBit lastMask 56) &&
        decide ((word >>> (8 * k)) % 256 ≤ 3))) := by
    interval_cases k
    · rw [Nat.testBit_land, Nat.testBit_land, Nat.testBit_land,
        Nat.testBit_lor, Nat.testBit_lor,
        Nat.testBit_mod_two_pow, Nat.testBit_mod_two_pow,
        Nat.testBit_shiftLeft, Nat.testBit_shiftLeft,
        Nat.testBit_shiftRight, Nat.testBit_shiftRight]
      rw [show (decide (8 * 0 < 64) : Bool) = true from by decide]
      rw [show (decide (8 * 0 ≥ 16) : Bool) = false from by decide]
      rw [show (decide (8 * 0 ≥ 8) : Bool) = false from by decide]
      rw [show (48 + 8 * 0 : Nat) = 48 from by norm_num]
      rw [show (56 + 8 * 0 : Nat) = 56 from by norm_num]
      rw [show Nat.testBit (maskLe03 word) (8 * 0) =
          decide ((word >>> (8 * 0)) % 256 ≤ 3) from maskLe03_bit word 0 (by norm_num)]
      rw [show Nat.testBit lowBitsMask (8 * 0) = true from by decide]
      rw [if_neg (show ¬ (2 : Nat) ≤ 0 from by norm_num)]
      rw [if_pos (show (0 : Nat) = 0 from rfl)]
      rw [if_neg (show ¬ (1 : Nat) ≤ 0 from by norm_num)]
      simp [Bool.and_assoc, Bool.and_comm, Bool.and_left_comm]
    · rw [Nat.testBit_land, Nat.testBit_land, Nat.testBit_land,
        Nat.testBit_lor, Nat.testBit_lor,
        Nat.testBit_mod_two_pow, Nat.testBit_mod_two_pow,
        Nat.testBit_shiftLeft, Nat.testBit_shiftLeft,
        Nat.testBit_shiftRight, Nat.testBit_shiftRight]
      rw [show (decide (8 * 1 < 64) : Bool) = true from by decide]
      rw [show (decide (8 * 1 ≥ 16) : Bool) = false from by decide]
      rw [show (decide (8 * 1 ≥ 8) : Bool) = true from by decide]
      rw [show (48 + 8 * 1 : Nat) = 56 from by norm_num]
      rw [show (56 + 8 * 1 : Nat) = 64 from by norm_num]
      rw [show Nat.testBit lastMask 64 = false from
        Nat.testBit_eq_false_of_lt (lt_of_lt_of_le hl (by norm_num))]
      rw [show Nat.testBit (maskEq00 word) (8 * 1 - 8) =
          decide ((word >>> (8 * (1 - 1))) % 256 = 0) from
        maskEq00_bit word 0 (by norm_num)]
      rw [show Nat.testBit (maskLe03 word) (8 * 1) =
          decide ((word >>> (8 * 1)) % 256 ≤ 3) from maskLe03_bit word 1 (by norm_num)]
      rw [show Nat.testBit lowBitsMask (8 * 1) = true from by decide]
      rw [if_neg (show ¬ (2 : Nat) ≤ 1 from by norm_num)]
      rw [if_neg (show ¬ (1 : Nat) = 0 from by norm_num)]
      rw [if_pos (show (1 : Nat) ≤ 1 from by norm_num)]
      simp [Bool.and_assoc, Bool.and_comm, Bool.and_left_comm]
    · rw [Nat.testBit_land, Nat.testBit_land, Nat.testBit_land,
        Nat.testBit_lor, Nat.testBit_lor,
        Nat.testBit_mod_two_pow, Nat.testBit_mod_two_pow,
        Nat.testBit_shiftLeft, Nat.testBit_shiftLeft,
        Nat.testBit_shiftRight, Nat.testBit_shiftRight]
      rw [show (decide (8 * 2 < 64) : Bool) = true from by decide]
      rw [show (decide (8 * 2 ≥ 16) : Bool) = true from by decide]
      rw [show (decide (8 * 2 ≥ 8) : Bool) = true from by decide]
      rw [show (48 + 8 * 2 : Nat) = 64 from by norm_num]
      rw [show Nat.testBit lastMask 64 = false from
        Nat.testBit_eq_false_of_lt (lt_of_lt_of_le hl (by norm_num))]
      rw [show (56 + 8 * 2 : Nat) = 72 from by norm_num]
      rw [show Nat.testBit lastMask 72 = false from
        Nat.testBit_eq_false_of_lt (lt_of_lt_of_le hl (by norm_num))]
      rw [show Nat.testBit (maskEq00 word) (8 * 2 - 16) =
          decide ((word >>> (8 * (2 - 2))) % 256 = 0) from
        maskEq00_bit word 0 (by norm_num)]
      rw [show Nat.testBit (maskEq00 word) (8 * 2 - 8) =
          decide ((word >>> (8 * (2 - 1))) % 256 = 0) from
        maskEq00_bit word 1 (by norm_num)]
      rw [show Nat.testBit (maskLe03 word) (8 * 2) =
          decide ((word >>> (8 * 2)) % 256 ≤ 3) from maskLe03_bit word 2 (by norm_num)]
      rw [show Nat.testBit lowBitsMask (8 * 2) = true from by decide]
      rw [if_pos (show (2 : Nat) ≤ 2 from by norm_num)]
      rw [if_pos (show (1 : Nat) ≤ 2 from by norm_num)]
      simp [Bool.and_assoc, Bool.and_comm, Bool.and_left_comm]
    · rw [Nat.testBit_land, Nat.testBit_land, Nat.testBit_land,
        Nat.testBit_lor, Nat.testBit_lor,
        Nat.testBit_mod_two_pow, Nat.testBit_mod_two_pow,
        Nat.testBit_shiftLeft, Nat.testBit_shiftLeft,
        Nat.testBit_shiftRight, Nat.testBit_shiftRight]
      rw [show (decide (8 * 3 < 64) : Bool) = true from by decide]
      rw [show (decide (8 * 3 ≥ 16) : Bool) = true from by decide]
      rw [show (decide (8 * 3 ≥ 8) : Bool) = true from by decide]
      rw [show (48 + 8 * 3 : Nat) = 72 from by norm_num]
      rw [show Nat.testBit lastMask 72 = false from
        Nat.testBit_eq_false_of_lt (lt_of_lt_of_le hl (by norm_num))]
      rw [show (56 + 8 * 3 : Nat) = 80 from by norm_num]
      rw [show Nat.testBit lastMask 80 = false from
        Nat.testBit_eq_false_of_lt (lt_of_lt_of_le hl (by norm_num))]
      rw [show Nat.testBit (maskEq00 word) (8 * 3 - 16) =
          decide ((word >>> (8 * (3 - 2))) % 256 = 0) from
        maskEq00_bit word 1 (by norm_num)]
      rw [show Nat.testBit (maskEq00 word) (8 * 3 - 8) =
          decide ((word >>> (8 * (3 - 1))) % 256 = 0) from
        maskEq00_bit word 2 (by norm_num)]
      rw [show Nat.testBit (maskLe03 word) (8 * 3) =
          decide ((word >>> (8 * 3)) % 256 ≤ 3) from maskLe03_bit word 3 (by norm_num)]
      rw [show Nat.testBit lowBitsMask (8 * 3) = true from by decide]
      rw [if_pos (show (2 : Nat) ≤ 3 from by norm_num)]
      rw [if_pos (show (1 : Nat) ≤ 3 from by norm_num)]
      simp [Bool.and_assoc, Bool.and_comm, Bool.and_left_comm]
    · rw [Nat.testBit_land, Nat.testBit_land, Nat.testBit_land,
        Nat.testBit_lor, Nat.testBit_lor,
        Nat.testBit_mod_two_pow, Nat.testBit_mod_two_pow,
        Nat.testBit_shiftLeft, Nat.testBit_shiftLeft,
        Nat.testBit_shiftRight, Nat.testBit_shiftRight]
      rw [show (decide (8 * 4 < 64) : Bool) = true from by decide]
      rw [show (decide (8 * 4 ≥ 16) : Bool) = true from by decide]
      rw [show (decide (8 * 4 ≥ 8) : Bool) = true from by decide]
      rw [show (48 + 8 * 4 : Nat) = 80 from by norm_num]
      rw [show Nat.testBit lastMask 80 = false from
        Nat.testBit_eq_false_of_lt (lt_of_lt_of_le hl (by norm_num))]
      rw [show (56 + 8 * 4 : Nat) = 88 from by norm_num]
      rw [show Nat.testBit lastMask 88 = false from
        Nat.testBit_eq_false_of_lt (lt_of_lt_of_le hl (by norm_num))]
      rw [show Nat.testBit (maskEq00 word) (8 * 4 - 16) =
          decide ((word >>> (8 * (4 - 2))) % 256 = 0) from
        maskEq00_bit word 2 (by norm_num)]
      rw [show Nat.testBit (maskEq00 word) (8 * 4 - 8) =
          decide ((word >>> (8 * (4 - 1))) % 256 = 0) from
        maskEq00_bit word 3 (by norm_num)]
      rw [show Nat.testBit (maskLe03 word) (8 * 4) =
          decide ((word >>> (8 * 4)) % 256 ≤ 3) from maskLe03_bit word 4 (by norm_num)]
      rw [show Nat.testBit lowBitsMask (8 * 4) = true from by decide]
      rw [if_pos (show (2 : Nat) ≤ 4 from by norm_num)]
      rw [if_pos (show (1 : Nat) ≤ 4 from by norm_num)]
      simp [Bool.and_assoc, Bool.and_comm, Bool.and_left_comm]
    · rw [Nat.testBit_land, Nat.testBit_land, Nat.testBit_land,
        Nat.testBit_lor, Nat.testBit_lor,
        Nat.testBit_mod_two_pow, Nat.testBit_mod_two_pow,
        Nat.testBit_shiftLeft, Nat.testBit_shiftLeft,
        Nat.testBit_shiftRight, Nat.testBit_shiftRight]
      rw [show (decide (8 * 5 < 64) : Bool) = true from by decide]
      rw [show (decide (8 * 5 ≥ 16) : Bool) = true from by decide]
      rw [show (decide (8 * 5 ≥ 8) : Bool) = true from by decide]
      rw [show (48 + 8 * 5 : Nat) = 88 from by norm_num]
      rw [show Nat.testBit lastMask 88 = false from
        Nat.testBit_eq_false_of_lt (lt_of_lt_of_le hl (by norm_num))]
      rw [show (56 + 8 * 5 : Nat) = 96 from by norm_num]
      rw [show Nat.testBit lastMask 96 = false from
        Nat.testBit_eq_false_of_lt (lt_of_lt_of_le hl (by norm_num))]
      rw [show Nat.testBit (maskEq00 word) (8 * 5 - 16) =
          decide ((word >>> (8 * (5 - 2))) % 256 = 0) from
        maskEq00_bit word 3 (by norm_num)]
      rw [show Nat.testBit (maskEq00 word) (8 * 5 - 8) =
          decide ((word >>> (8 * (5 - 1))) % 256 = 0) from
        maskEq00_bit word 4 (by norm_num)]
      rw [show Nat.testBit (maskLe03 word) (8 * 5) =
          decide ((word >>> (8 * 5)) % 256 ≤ 3) from maskLe03_bit word 5 (by norm_num)]
      rw [show Nat.testBit lowBitsMask (8 * 5) = true from by decide]
      rw [if_pos (show (2 : Nat) ≤ 5 from by norm_num)]
      rw [if_pos (show (1 : Nat) ≤ 5 from by norm_num)]
      simp [Bool.and_assoc, Bool.and_comm, Bool.and_left_comm]
    · rw [Nat.testBit_land, Nat.testBit_land, Nat.testBit_land,
        Nat.testBit_lor, Nat.testBit_lor,
        Nat.testBit_mod_two_pow, Nat.testBit_mod_two_pow,
        Nat.testBit_shiftLeft, Nat.testBit_shiftLeft,
        Nat.testBit_shiftRight, Nat.testBit_shiftRight]
      rw [show (decide (8 * 6 < 64) : Bool) = true from by decide]
      rw [show (decide (8 * 6 ≥ 16) : Bool) = true from by decide]
      rw [show (decide (8 * 6 ≥ 8) : Bool) = true from by decide]
      rw [show (48 + 8 * 6 : Nat) = 96 from by norm_num]
      rw [show Nat.testBit lastMask 96 = false from
        Nat.testBit_eq_false_of_lt (lt_of_lt_of_le hl (by norm_num))]
      rw [show (56 + 8 * 6 : Nat) = 104 from by norm_num]
      rw [show Nat.testBit lastMask 104 = false from
        Nat.testBit_eq_false_of_lt (lt_of_lt_of_le hl (by norm_num))]
      rw [show Nat.testBit (maskEq00 word) (8 * 6 - 16) =
          decide ((word >>> (8 * (6 - 2))) % 256 = 0) from
        maskEq00_bit word 4 (by norm_num)]
      rw [show Nat.testBit (maskEq00 word) (8 * 6 - 8) =
          decide ((word >>> (8 * (6 - 1))) % 256 = 0) from
        maskEq00_bit word 5 (by norm_num)]
      rw [show Nat.testBit (maskLe03 word) (8 * 6) =
          decide ((word >>> (8 * 6)) % 256 ≤ 3) from maskLe03_bit word 6 (by norm_num)]
      rw [show Nat.testBit lowBitsMask (8 * 6) = true from by decide]
      rw [if_pos (show (2 : Nat) ≤ 6 from by norm_num)]
      rw [if_pos (show (1 : Nat) ≤ 6 from by norm_num)]
      simp [Bool.and_assoc, Bool.and_comm, Bool.and_left_comm]
    · rw [Nat.testBit_land, Nat.testBit_land, Nat.testBit_land,
        Nat.testBit_lor, Nat.testBit_lor,
        Nat.testBit_mod_two_pow, Nat.testBit_mod_two_pow,
        Nat.testBit_shiftLeft, Nat.testBit_shiftLeft,
        Nat.testBit_shiftRight, Nat.testBit_shiftRight]
      rw [show (decide (8 * 7 < 64) : Bool) = true from by decide]
      rw [show (decide (8 * 7 ≥ 16) : Bool) = true from by decide]
      rw [show (decide (8 * 7 ≥ 8) : Bool) = true from by decide]
      rw [show (48 + 8 * 7 : Nat) = 104 from by norm_num]
      rw [show Nat.testBit lastMask 104 = false from
        Nat.testBit_eq_false_of_lt (lt_of_lt_of_le hl (by norm_num))]
      rw [show (56 + 8 * 7 : Nat) = 112 from by norm_num]
      rw [show Nat.testBit lastMask 112 = false from
        Nat.testBit_eq_false_of_lt (lt_of_lt_of_le hl (by norm_num))]
      rw [show Nat.testBit (maskEq00 word) (8 * 7 - 16) =
          decide ((word >>> (8 * (7 - 2))) % 256 = 0) from
        maskEq00_bit word 5 (by norm_num)]
      rw [show Nat.testBit (maskEq00 word) (8 * 7 - 8) =
          decide ((word >>> (8 * (7 - 1))) % 256 = 0) from
        maskEq00_bit word 6 (by norm_num)]
      rw [show Nat.testBit (maskLe03 word) (8 * 7) =
          decide ((word >>> (8 * 7)) % 256 ≤ 3) from maskLe03_bit word 7 (by norm_num)]
      rw [show Nat.testBit lowBitsMask (8 * 7) = true from by decide]
      rw [if_pos (show (2 : Nat) ≤ 7 from by norm_num)]
      rw [if_pos (show (1 : Nat) ≤ 7 from by norm_num)]
      simp [Bool.and_assoc, Bool.and_comm, Bool.and_left_comm]
  simp only [rbspChunkMask]
  by_cases hds : dsize < 8
  · rw [if_pos hds, Nat.testBit_land, hcore, Nat.one_shiftLeft,
      Nat.testBit_two_pow_sub_one]
    rw [show dsize <<< 3 = 8 * dsize from by
      rw [Nat.shiftLeft_eq, show (2 : Nat) ^ 3 = 8 from by norm_num]; omega]
    rw [show (decide (8 * k < 8 * dsize) : Bool) =
        decide (k < dsize ∨ 8 ≤ dsize) from by rw [decide_eq_decide]; omega]
    rw [Bool.and_comm]
  · rw [if_neg hds, hcore,
      show (decide (k < dsize ∨ 8 ≤ dsize) : Bool) = true from
        decide_eq_true (Or.inr (by omega)),
      Bool.true_and]

theorem shiftRight_le_self (x k : Nat) : x >>> k ≤ x := by
  rw [Nat.shiftRight_eq_div_pow]
  exact Nat.div_le_self _ _

theorem loadUINT64LE_lt (data : List Nat) (i : Nat) :
    loadUINT64LE data i < 2 ^ 64 := by
  have h0 := byteAt_lt data i
  have h1 := byteAt_lt data (i + 1)
  have h2 := byteAt_lt data (i + 2)
  have h3 := byteAt_lt data (i + 3)
  have h4 := byteAt_lt data (i + 4)
  have h5 := byteAt_lt data (i + 5)
  have h6 := byteAt_lt data (i + 6)
  have h7 := byteAt_lt data (i + 7)
  simp only [loadUINT64LE]
  rw [show (2 : Nat) ^ 8 = 256 from by norm_num,
    show (2 : Nat) ^ 16 = 65536 from by norm_num,
    show (2 : Nat) ^ 24 = 16777216 from by norm_num,
    show (2 : Nat) ^ 32 = 4294967296 from by norm_num,
    show (2 : Nat) ^ 40 = 1099511627776 from by norm_num,
    show (2 : Nat) ^ 48 = 281474976710656 from by norm_num,
    show (2 : Nat) ^ 56 = 72057594037927936 from by norm_num,
    show (2 : Nat) ^ 64 = 18446744073709551616 from by norm_num]
  omega

theorem byteLow_load (data : List Nat) (pos k : Nat) (hk : k < 8) :
    (loadUINT64LE data pos >>> (8 * k)) % 256 = byteAt data (pos + k) := by
  have h0 := byteAt_lt data pos
  have h1 := byteAt_lt data (pos + 1)
  have h2 := byteAt_lt data (pos + 2)
  have h3 := byteAt_lt data (pos + 3)
  have h4 := byteAt_lt data (pos + 4)
  have h5 := byteAt_lt data (pos + 5)
  have h6 := byteAt_lt data (pos + 6)
  have h7 := byteAt_lt data (pos + 7)
  interval_cases k
  · simp only [loadUINT64LE, Nat.add_zero]
    rw [Nat.shiftRight_eq_div_pow]
    simp only [show (2 : Nat) ^ (8 * 0) = 1 from by norm_num,
      show (2 : Nat) ^ 8 = 256 from by norm_num,
      show (2 : Nat) ^ 16 = 65536 from by norm_num,
      show (2 : Nat) ^ 24 = 16777216 from by norm_num,
      show (2 : Nat) ^ 32 = 4294967296 from by norm_num,
      show (2 : Nat) ^ 40 = 1099511627776 from by norm_num,
      show (2 : Nat) ^ 48 = 281474976710656 from by norm_num,
      show (2 : Nat) ^ 56 = 72057594037927936 from by norm_num]
    omega
  · simp only [loadUINT64LE, Nat.add_zero]
    rw [Nat.shiftRight_eq_div_pow]
    simp only [show (2 : Nat) ^ (8 * 1) = 256 from by norm_num,
      show (2 : Nat) ^ 8 = 256 from by norm_num,
      show (2 : Nat) ^ 16 = 65536 from by norm_num,
      show (2 : Nat) ^ 24 = 16777216 from by norm_num,
      show (2 : Nat) ^ 32 = 4294967296 from by norm_num,
      show (2 : Nat) ^ 40 = 1099511627776 from by norm_num,
      show (2 : Nat) ^ 48 = 281474976710656 from by norm_num,
      show (2 : Nat) ^ 56 = 72057594037927936 from by norm_num]
    omega
  · simp only [loadUINT64LE, Nat.add_zero]
    rw [Nat.shiftRight_eq_div_pow]
    simp only [show (2 : Nat) ^ (8 * 2) = 65536 from by norm_num,
      show (2 : Nat) ^ 8 = 256 from by norm_num,
      show (2 : Nat) ^ 16 = 65536 from by norm_num,
      show (2 : Nat) ^ 24 = 16777216 from by norm_num,
      show (2 : Nat) ^ 32 = 4294967296 from by norm_num,
      show (2 : Nat) ^ 40 = 1099511627776 from by norm_num,
      show (2 : Nat) ^ 48 = 281474976710656 from by norm_num,
      show (2 : Nat) ^ 56 = 72057594037927936 from by norm_num]
    omega
  · simp only [loadUINT64LE, Nat.add_zero]
    rw [Nat.shiftRight_eq_div_pow]
    simp only [show (2 : Nat) ^ (8 * 3) = 16777216 from by norm_num,
      show (2 : Nat) ^ 8 = 256 from by norm_num,
      show (2 : Nat) ^ 16 = 65536 from by norm_num,
      show (2 : Nat) ^ 24 = 16777216 from by norm_num,
      show (2 : Nat) ^ 32 = 4294967296 from by norm_num,
      show (2 : Nat) ^ 40 = 1099511627776 from by norm_num,
      show (2 : Nat) ^ 48 = 281474976710656 from by norm_num,
      show (2 : Nat) ^ 56 = 72057594037927936 from by norm_num]
    omega
  · simp only [loadUINT64LE, Nat.add_zero]
    rw [Nat.shiftRight_eq_div_pow]
    simp only [show (2 : Nat) ^ (8 * 4) = 4294967296 from by norm_num,
      show (2 : Nat) ^ 8 = 256 from by norm_num,
      show (2 : Nat) ^ 16 = 65536 from by norm_num,
      show (2 : Nat) ^ 24 = 16777216 from by norm_num,
      show (2 : Nat) ^ 32 = 4294967296 from by norm_num,
      show (2 : Nat) ^ 40 = 1099511627776 from by norm_num,
      show (2 : Nat) ^ 48 = 281474976710656 from by norm_num,
      show (2 : Nat) ^ 56 = 72057594037927936 from by norm_num]
    omega
  · simp only [loadUINT64LE, Nat.add_zero]
    rw [Nat.shiftRight_eq_div_pow]
    simp only [show (2 : Nat) ^ (8 * 5) = 1099511627776 from by norm_num,
      show (2 : Nat) ^ 8 = 256 from by norm_num,
      show (2 : Nat) ^ 16 = 65536 from by norm_num,
      show (2 : Nat) ^ 24 = 16777216 from by norm_num,
      show (2 : Nat) ^ 32 = 4294967296 from by norm_num,
      show (2 : Nat) ^ 40 = 1099511627776 from by norm_num,
      show (2 : Nat) ^ 48 = 281474976710656 from by norm_num,
      show (2 : Nat) ^ 56 = 72057594037927936 from by norm_num]
    omega
  · simp only [loadUINT64LE, Nat.add_zero]
    rw [Nat.shiftRight_eq_div_pow]
    simp only [show (2 : Nat) ^ (8 * 6) = 281474976710656 from by norm_num,
      show (2 : Nat) ^ 8 = 256 from by norm_num,
      show (2 : Nat) ^ 16 = 65536 from by norm_num,
      show (2 : Nat) ^ 24 = 16777216 from by norm_num,
      show (2 : Nat) ^ 32 = 4294967296 from by norm_num,
      show (2 : Nat) ^ 40 = 1099511627776 from by norm_num,
      show (2 : Nat) ^ 48 = 281474976710656 from by norm_num,
      show (2 : Nat) ^ 56 = 72057594037927936 from by norm_num]
    omega
  · simp only [loadUINT64LE, Nat.add_zero]
    rw [Nat.shiftRight_eq_div_pow]
    simp only [show (2 : Nat) ^ (8 * 7) = 72057594037927936 from by norm_num,
      show (2 : Nat) ^ 8 = 256 from by norm_num,
      show (2 : Nat) ^ 16 = 65536 from by norm_num,
      show (2 : Nat) ^ 24 = 16777216 from by norm_num,
      show (2 : Nat) ^ 32 = 4294967296 from by norm_num,
      show (2 : Nat) ^ 40 = 1099511627776 from by norm_num,
      show (2 : Nat) ^ 48 = 281474976710656 from by norm_num,
      show (2 : Nat) ^ 56 = 72057594037927936 from by norm_num]
    omega

theorem rbspChunkMask_fst_lt (word lastMask dsize : Nat) :
    (rbspChunkMask word lastMask dsize).1 < 2 ^ 64 := by
  simp only [rbspChunkMask]
  split
  · exact lt_of_le_of_lt (le_trans Nat.and_le_left Nat.and_le_right)
      (by norm_num [lowBitsMask])
  · exact lt_of_le_of_lt Nat.and_le_right (by norm_num [lowBitsMask])

set_option maxRecDepth 20000 in
theorem lowBits_bit : ∀ i < 64, Nat.testBit lowBitsMask i = decide (i % 8 = 0) := by
  decide

theorem rbspChunkMask_fst_align (word lastMask dsize : Nat) :
    ∀ i, Nat.testBit (rbspChunkMask word lastMask dsize).1 i = true →
      i % 8 = 0 ∧ i < 64 := by
  intro i h
  have hlow : Nat.testBit lowBitsMask i = true := by
    simp only [rbspChunkMask] at h
    split at h
    · rw [Nat.testBit_land, Bool.and_eq_true] at h
      obtain ⟨h1, h2⟩ := h
      rw [Nat.testBit_land, Bool.and_eq_true] at h1
      exact h1.2
    · rw [Nat.testBit_land, Bool.and_eq_true] at h
      exact h.2
  have hi : i < 64 := by
    by_contra hge
    rw [Nat.testBit_eq_false_of_lt (lt_of_lt_of_le
      (show lowBitsMask < 2 ^ 64 from by norm_num [lowBitsMask])
      (Nat.pow_le_pow_right (by norm_num) (by omega)))] at hlow
    exact Bool.false_ne_true hlow
  refine ⟨?_, hi⟩
  rw [lowBits_bit i hi] at hlow
  exact of_decide_eq_true hlow

theorem maskEq00_lt (w : Nat) (hw : w < 2 ^ 64) : maskEq00 w < 2 ^ 64 := by
  have ha : m00a w < 2 ^ 64 :=
    Nat.or_lt_two_pow hw (lt_of_le_of_lt (shiftRight_le_self w 1) hw)
  have hb : m00a w ||| (m00a w >>> 2) < 2 ^ 64 :=
    Nat.or_lt_two_pow ha (lt_of_le_of_lt (shiftRight_le_self _ 2) ha)
  have hc : m00c w < 2 ^ 64 :=
    Nat.or_lt_two_pow hb (lt_of_le_of_lt (shiftRight_le_self _ 4) hb)
  exact Nat.xor_lt_two_pow hc (by norm_num)

theorem byteFilter_eq_spec (data : List Nat) (pos lastMask : Nat) (z2 z1 : Bool)
    (hl : lastMask < 2 ^ 64)
    (h48 : Nat.testBit lastMask 48 = z2)
    (h56 : Nat.testBit lastMask 56 = z1) :
    byteFilter (loadUINT64LE data pos)
        (rbspChunkMask (loadUINT64LE data pos) lastMask 8).1 8 =
      specRBSPAux data pos 8 z2 z1 := by
  unfold byteFilter specRBSPAux
  apply filterMap_range_congr
  intro j hj
  rw [rbspChunkMask_fst_bit (loadUINT64LE data pos) lastMask 8 j hj hl]
  rw [byteLow_load data pos j hj]
  rw [show (decide (j < 8 ∨ 8 ≤ 8) : Bool) = true from decide_eq_true (Or.inr le_rfl),
    Bool.true_and]
  match j, hj with
  | 0, _ =>
    rw [if_neg (show ¬ (2 : Nat) ≤ 0 from by norm_num),
      if_pos (show (0 : Nat) = 0 from rfl),
      if_neg (show ¬ (1 : Nat) ≤ 0 from by norm_num), h48, h56]
    by_cases hb : byteAt data (pos + 0) ≤ 3 <;>
      cases z2 <;> cases z1 <;> simp [hb]
  | 1, _ =>
    rw [if_neg (show ¬ (2 : Nat) ≤ 1 from by norm_num),
      if_neg (show ¬ (1 : Nat) = 0 from by norm_num),
      if_pos (show (1 : Nat) ≤ 1 from le_rfl), h56]
    rw [show (loadUINT64LE data pos >>> (8 * (1 - 1))) % 256 =
        byteAt data (pos + 0) from byteLow_load data pos 0 (by norm_num)]
    by_cases hb : byteAt data (pos + 1) ≤ 3 <;>
      by_cases h0 : byteAt data (pos + 0) = 0 <;>
      cases z1 <;>
      simp [hb, h0, show pos + 1 - 1 = pos + 0 from by omega]
  | j + 2, hj =>
    rw [if_pos (show (2 : Nat) ≤ j + 2 from by omega),
      if_pos (show (1 : Nat) ≤ j + 2 from by omega)]
    rw [show (loadUINT64LE data pos >>> (8 * (j + 2 - 2))) % 256 =
        byteAt data (pos + j) from byteLow_load data pos j (by omega)]
    rw [show (loadUINT64LE data pos >>> (8 * (j + 2 - 1))) % 256 =
        byteAt data (pos + (j + 1)) from byteLow_load data pos (j + 1) (by omega)]
    by_cases hb : byteAt data (pos + (j + 2)) ≤ 3 <;>
      by_cases h2 : byteAt data (pos + j) = 0 <;>
      by_cases h1 : byteAt data (pos + (j + 1)) = 0 <;>
      simp [hb, h2, h1, show pos + (j + 2) - 2 = pos + j from by omega,
        show pos + (j + 2) - 1 = pos + (j + 1) from by omega,
        show ¬ (j + 2 = 0) from by omega, show ¬ (j + 2 = 1) from by omega]

theorem extractChunk_spec (data : List Nat) (pos lastMask : Nat) (z2 z1 : Bool)
    (hl : lastMask < 2 ^ 64)
    (h48 : Nat.testBit lastMask 48 = z2)
    (h56 : Nat.testBit lastMask 56 = z1) :
    extractChunk (loadUINT64LE data pos)
        (rbspChunkMask (loadUINT64LE data pos) lastMask 8).1 8 =
      specRBSPAux data pos 8 z2 z1 := by
  unfold extractChunk
  by_cases hm : (rbspChunkMask (loadUINT64LE data pos) lastMask 8).1 = 0
  · rw [if_pos hm, ← byteFilter_zero_mask, ← hm]
    exact byteFilter_eq_spec data pos lastMask z2 z1 hl h48 h56
  · rw [if_neg hm]
    rw [show rbspRemoveLoop (loadUINT64LE data pos)
        (rbspChunkMask (loadUINT64LE data pos) lastMask 8).1 8 =
        byteFilter (loadUINT64LE data pos)
          (rbspChunkMask (loadUINT64LE data pos) lastMask 8).1 8 from
      rbspRemoveLoopF_filter 8 _ _ 8 hm (rbspChunkMask_fst_lt _ _ _)
        (by rw [show (8 * 8 : Nat) = 64 from by norm_num]
            exact rbspChunkMask_fst_lt _ _ _)
        (fun i hi => by
          have h := rbspChunkMask_fst_align (loadUINT64LE data pos) lastMask 8 i hi
          omega)]
    exact byteFilter_eq_spec data pos lastMask z2 z1 hl h48 h56

theorem filterMap_range_shift {α : Type} (g : Nat → Option α) (a n : Nat) :
    ((List.range n).map (a + ·)).filterMap g =
      (List.range n).filterMap (fun j => g (a + j)) := by
  rw [List.filterMap_map]
  rfl

theorem specRBSPAux_split (data : List Nat) (pos size : Nat) (z2 z1 : Bool)
    (h : 8 ≤ size) :
    specRBSPAux data pos size z2 z1 =
      specRBSPAux data pos 8 z2 z1 ++
        specRBSPAux data (pos + 8) (size - 8)
          (decide (byteAt data (pos + 6) = 0))
          (decide (byteAt data (pos + 7) = 0)) := by
  unfold specRBSPAux
  conv_lhs => rw [show size = 8 + (size - 8) from by omega]
  rw [List.range_add, List.filterMap_append]
  congr 1
  rw [filterMap_range_shift]
  apply filterMap_range_congr
  intro j hj
  match j, hj with
  | 0, _ =>
    by_cases h6 : byteAt data (pos + 6) = 0 <;>
      by_cases h7 : byteAt data (pos + 7) = 0 <;>
      by_cases hb : byteAt data (pos + 8) ≤ 3 <;>
      simp [h6, h7, hb, show pos + 8 - 2 = pos + 6 from by omega,
        show pos + 8 - 1 = pos + 7 from by omega]
  | 1, _ =>
    by_cases h7 : byteAt data (pos + 7) = 0 <;>
      by_cases h8 : byteAt data (pos + 8) = 0 <;>
      by_cases hb : byteAt data (pos + 9) ≤ 3 <;>
      simp [h7, h8, hb, show pos + 9 - 2 = pos + 7 from by omega,
        show pos + 9 - 1 = pos + 8 from by omega,
        show pos + 8 + 1 = pos + 9 from by omega]
  | j + 2, hj =>
    by_cases ha : byteAt data (pos + 8 + j) = 0 <;>
      by_cases hb : byteAt data (pos + 8 + (j + 1)) = 0 <;>
      by_cases hc : byteAt data (pos + 8 + (j + 2)) ≤ 3 <;>
      simp [ha, hb, hc,
        show pos + (8 + (j + 2)) - 2 = pos + 8 + j from by omega,
        show pos + 8 + (j + 2) - 2 = pos + 8 + j from by omega,
        show pos + (8 + (j + 2)) - 1 = pos + 8 + (j + 1) from by omega,
        show pos + 8 + (j + 2) - 1 = pos + 8 + (j + 1) from by omega,
        show pos + (8 + (j + 2)) = pos + 8 + (j + 2) from by omega,
        show 2 ≤ 8 + (j + 2) from by omega,
        show 1 ≤ 8 + (j + 2) from by omega,
        show ¬ (8 + (j + 2) = 0) from by omega,
        show ¬ (8 + (j + 2) = 1) from by omega,
        show 2 ≤ j + 2 from by omega,
        show 1 ≤ j + 2 from by omega,
        show ¬ (j + 2 = 0) from by omega,
        show ¬ (j + 2 = 1) from by omega]

theorem extractLoop_terminal (data : List Nat) (pos size lastMask : Nat)
    (z2 z1 : Bool) (hsz : size = 0 ∨ size = 8) (hl : lastMask < 2 ^ 64)
    (h48 : Nat.testBit lastMask 48 = z2)
    (h56 : Nat.testBit lastMask 56 = z1) :
    extractChunk (loadUINT64LE data pos)
        (rbspChunkMask (loadUINT64LE data pos) lastMask size).1 size =
      specRBSPAux data pos size z2 z1 := by
  rcases hsz with h | h <;> subst h
  · have hm : (rbspChunkMask (loadUINT64LE data pos) lastMask 0).1 = 0 := by
      simp only [rbspChunkMask]
      rw [if_pos (by norm_num)]
      rw [show ((1 <<< (0 <<< 3)) - 1 : Nat) = 0 from by decide]
      exact Nat.and_zero _
    rw [hm]
    unfold extractChunk
    rw [if_pos rfl]
    rfl
  · exact extractChunk_spec data pos lastMask z2 z1 hl h48 h56

theorem extractLoop_spec (data : List Nat) :
    ∀ (fl pos size lastMask : Nat) (z2 z1 : Bool),
      size % 8 = 0 → size ≤ 8 * fl + 8 → lastMask < 2 ^ 64 →
      Nat.testBit lastMask 48 = z2 → Nat.testBit lastMask 56 = z1 →
      extractLoop data fl pos size lastMask = specRBSPAux data pos size z2 z1 := by
  intro fl
  induction fl with
  | zero =>
    intro pos size lastMask z2 z1 hm hle hl h48 h56
    simp only [extractLoop]
    exact extractLoop_terminal data pos size lastMask z2 z1 (by omega) hl h48 h56
  | succ fl ih =>
    intro pos size lastMask z2 z1 hm hle hl h48 h56
    simp only [extractLoop]
    by_cases hs : 8 < size
    · rw [if_pos hs]
      have new48 : Nat.testBit (rbspChunkMask (loadUINT64LE data pos) lastMask 8).2 48 =
          decide (byteAt data (pos + 6) = 0) := by
        show Nat.testBit (maskEq00 (loadUINT64LE data pos)) 48 = _
        rw [show (48 : Nat) = 8 * 6 from by norm_num,
          maskEq00_bit (loadUINT64LE data pos) 6 (by norm_num),
          byteLow_load data pos 6 (by norm_num)]
      have new56 : Nat.testBit (rbspChunkMask (loadUINT64LE data pos) lastMask 8).2 56 =
          decide (byteAt data (pos + 7) = 0) := by
        show Nat.testBit (maskEq00 (loadUINT64LE data pos)) 56 = _
        rw [show (56 : Nat) = 8 * 7 from by norm_num,
          maskEq00_bit (loadUINT64LE data pos) 7 (by norm_num),
          byteLow_load data pos 7 (by norm_num)]
      have newlt : (rbspChunkMask (loadUINT64LE data pos) lastMask 8).2 < 2 ^ 64 := by
        show maskEq00 (loadUINT64LE data pos) < 2 ^ 64
        exact maskEq00_lt _ (loadUINT64LE_lt data pos)
      rw [extractChunk_spec data pos lastMask z2 z1 hl h48 h56]
      rw [ih (pos + 8) (size - 8) _ _ _ (by omega) (by omega) newlt new48 new56]
      rw [← specRBSPAux_split data pos size z2 z1 (by omega)]
    · rw [if_neg hs]
      exact extractLoop_terminal data pos size lastMask z2 z1 (by omega) hl h48 h56


/-! ### Claim C3: ExtractRBSP emulation-prevention removal -/

/-- C3: for input sizes that are a multiple of the 8-byte processing
chunk (so the final-chunk byte-budget reset never fires), `ExtractRBSP`
removes exactly the bytes of value at most `0x03` that are preceded by
two zero bytes — including triplets that straddle the 64-bit chunks,
via the carried zero-byte mask — and the output is never longer than
the input.  (The claim's exact-`0x03` form and its unconditional length
bound are refuted by `C3_extract_rbsp_counterexample`.) -/
theorem C3_extract_rbsp (data : List Nat) (pos size : Nat)
    (h8 : size % 8 = 0) :
    extractRBSP data pos size = specRBSP data pos size ∧
      (extractRBSP data pos size).length ≤ size := by
  have he : extractRBSP data pos size = specRBSP data pos size := by
    unfold extractRBSP specRBSP
    exact extractLoop_spec data size pos size 0 false false h8 (by omega)
      (by norm_num) (by simp [Nat.zero_testBit]) (by simp [Nat.zero_testBit])
  refine ⟨he, ?_⟩
  rw [he]
  unfold specRBSP specRBSPAux
  exact le_of_le_of_eq (List.length_filterMap_le _ _) (List.length_range size)

/-- The input `00 00 02` contains no `00 00 03` triplet, so the claim
says `ExtractRBSP` returns it unchanged; the code instead flags the
`02` (any byte ≤ 3 after two zeros is removed), and the removal loop of
the final 3-byte chunk resets its byte budget to 8, emitting seven
bytes — more than the input holds. -/
theorem C3_extract_rbsp_counterexample :
    extractRBSP [0, 0, 2] 0 3 = [0, 0, 0, 0, 0, 0, 0] ∧
      extractRBSP [0, 0, 2] 0 3 ≠ [0, 0, 2] ∧
      3 < (extractRBSP [0, 0, 2] 0 3).length := by decide

theorem C3_extract_rbsp_witness :
    extractRBSP [1, 2, 3, 4, 5, 6, 0, 0, 3, 9, 0, 0, 2, 7, 0, 0] 0 16 =
        specRBSP [1, 2, 3, 4, 5, 6, 0, 0, 3, 9, 0, 0, 2, 7, 0, 0] 0 16 ∧
      (extractRBSP [1, 2, 3, 4, 5, 6, 0, 0, 3, 9, 0, 0, 2, 7, 0, 0] 0 16).length ≤ 16 :=
  C3_extract_rbsp [1, 2, 3, 4, 5, 6, 0, 0, 3, 9, 0, 0, 2, 7, 0, 0] 0 16 (by decide)
/-! ### Claim C2: Exp-Golomb round trip -/

/-- C2: for every integer `v` in `[0, 65534]`, initializing the
`BitStreamReader` on a buffer whose leading bits are the canonical
Exp-Golomb codeword of `v` (`log2 (v+1)` zero bits, a one bit, then
`log2 (v+1)` suffix bits with `v = 2 ^ log2 (v+1) - 1 + suffix`) and
calling `GetGolomb` returns `v`, and the number of bits consumed equals
`2 * ⌊log2 (v+1)⌋ + 1`. -/
theorem C2_golomb_roundtrip (v : Nat) (data : List Nat) (hv : v ≤ 65534)
    (hzero : ∀ j < Nat.log2 (v + 1), streamBit data j = false)
    (hone : streamBit data (Nat.log2 (v + 1)) = true)
    (hsuffix : streamBits data (Nat.log2 (v + 1) + 1) (Nat.log2 (v + 1))
      = v + 1 - 2 ^ Nat.log2 (v + 1)) :
    ((BitStreamReader.setup data 0).getGolomb data).1 = v ∧
    8 * ((BitStreamReader.setup data 0).getGolomb data).2.top -
      ((BitStreamReader.setup data 0).getGolomb data).2.length =
      2 * Nat.log2 (v + 1) + 1 := by
  set k := Nat.log2 (v + 1) with hkdef
  have hlog : k = Nat.log 2 (v + 1) := Nat.log2_eq_log_two
  have hpowle : 2 ^ k ≤ v + 1 := by
    rw [hlog]; exact Nat.pow_log_le_self 2 (Nat.succ_ne_zero v)
  have hltpow : v + 1 < 2 ^ (k + 1) := by
    rw [hlog]; exact Nat.lt_pow_succ_log_self (by norm_num) (v + 1)
  have hk : k ≤ 15 := by
    by_contra hgt
    have h16 : (2 : Nat) ^ 16 ≤ 2 ^ k :=
      Nat.pow_le_pow_right (by norm_num) (by omega)
    have : (2 : Nat) ^ 16 = 65536 := by norm_num
    omega
  have hrep : Rep data (BitStreamReader.setup data 0) 0 := by
    have := rep_setup data 0
    simpa using this
  have h := readGolomb_correct data (BitStreamReader.setup data 0) 0 k hrep hk
    (by intro j hj; simpa using hzero j hj) (by simpa using hone)
  have hval : streamBits data 0 (2 * k + 1) = v + 1 := by
    have hsplit := streamBits_add data 0 (k + 1) k
    rw [show k + 1 + k = 2 * k + 1 by omega] at hsplit
    have hlead : streamBits data 0 (k + 1) = 1 := by
      simp only [streamBits, streamBits_zeros data 0 k
        (by intro j hj; simpa using hzero j hj), Nat.zero_add]
      rw [hone]
      rfl
    rw [hsplit, hlead, Nat.one_mul, show (0 : Nat) + (k + 1) = k + 1 by omega,
      hsuffix]
    omega
  constructor
  · show ((BitStreamReader.setup data 0).readGolomb data).1 = v
    rw [h.1, hval]
    omega
  · have hrep2 := h.2
    obtain ⟨h64, htop, hcache⟩ := hrep2
    show 8 * ((BitStreamReader.setup data 0).readGolomb data).2.top -
      ((BitStreamReader.setup data 0).readGolomb data).2.length = 2 * k + 1
    omega

theorem log2_five : Nat.log2 5 = 2 := by
  rw [Nat.log2]
  norm_num
  rw [Nat.log2]
  norm_num
  rw [Nat.log2]
  norm_num

/-- Witness for C2 at `v = 4` with buffer `[0x28]`: codeword `00101`. -/
theorem C2_golomb_roundtrip_witness :
    (4 ≤ 65534) ∧
    (((BitStreamReader.setup [40] 0).getGolomb [40]).1 = 4 ∧
     8 * ((BitStreamReader.setup [40] 0).getGolomb [40]).2.top -
       ((BitStreamReader.setup [40] 0).getGolomb [40]).2.length =
       2 * Nat.log2 (4 + 1) + 1) :=
  ⟨by norm_num,
   C2_golomb_roundtrip 4 [40] (by norm_num)
     (by simp only [show (4 : Nat) + 1 = 5 from rfl, log2_five]; decide)
     (by simp only [show (4 : Nat) + 1 = 5 from rfl, log2_five]; decide)
     (by simp only [show (4 : Nat) + 1 = 5 from rfl, log2_five]; decide)⟩


/-! ### Claim C8: ParseProfileTierLevel failure conditions -/

/-- C8 (amended): `ParseProfileTierLevel` returns failure (NULL)
exactly when fewer than 12 bytes remain in `[top, fin)`; the
`maxSubLayersMinus1` argument is ignored, so a call with
`maxSubLayersMinus1 > 0` is not rejected by the parser itself (the
multi-sublayer rejection happens in the VPS caller before the call). -/
theorem C8_ptl_failure_iff :
    ∀ (data : List Nat) (top fin msl : Nat),
      (parseProfileTierLevel data top fin msl = none ↔ fin - top < 12) ∧
      parseProfileTierLevel data top fin msl =
        parseProfileTierLevel data top fin 0 := by
  intro data top fin msl
  refine ⟨?_, rfl⟩
  unfold parseProfileTierLevel
  by_cases h : fin - top < 12
  · simp [h]
  · simp [h]

/-- C8 counterexample: a call with `maxSubLayersMinus1 = 1` and exactly
12 available bytes succeeds, refuting the claim that every call with
`maxSubLayersMinus1 > 0` fails. -/
theorem C8_ptl_counterexample :
    (parseProfileTierLevel [] 0 12 1).isSome = true := by decide

/-! ### Claim C9: the atom walk does not terminate on a size-0 atom -/

/-- C9: on a buffer holding a single atom whose declared size is 0
(`00 00 00 00 66 72 65 65`, a `free` box of size 0), the C loop of
`AtomCollection::EnumerateChildAtoms` makes no progress
(`start += atom_size` leaves `start` unchanged); in the fuelled
embedding, every fuel value is exhausted without the loop finishing,
so `Enumerate` never returns. -/
theorem C9_size_zero_divergence :
    ∀ fuel, enumerate [0, 0, 0, 0, 0x66, 0x72, 0x65, 0x65] 8 fuel = none := by
  have key : ∀ f a,
      enumChildAtoms [0, 0, 0, 0, 0x66, 0x72, 0x65, 0x65] f 0 8 a = none := by
    intro f
    induction f with
    | zero => intro a; rfl
    | succ f ih =>
      intro a
      have hstep : enumChildAtoms [0, 0, 0, 0, 0x66, 0x72, 0x65, 0x65]
          (f + 1) 0 8 a =
          match enumChildAtoms [0, 0, 0, 0, 0x66, 0x72, 0x65, 0x65] f 0 8 a
            with
          | none => none
          | some (m2, a2) => some (0 ||| m2, a2) := rfl
      rw [hstep, ih a]
  intro fuel
  unfold enumerate
  rw [key fuel (fun _ => none)]

/-! ### Claim C10: SEI scan early success on a truncating payload -/

set_option maxRecDepth 4000 in
/-- C10: when the SEI scan reaches a message whose computed payload end
`pos + 2 + c + psize` is at or beyond the end of the RBSP (where `c`
counts the `0xFF` size-extension bytes, 0 for a one-byte size), it
returns success (1) immediately with the stored alpha-channel record
unchanged — in particular an `ALPHA_CHANNEL_INFO` (type 165) message
extending to the RBSP end leaves every field untouched, since the
return happens before the payload-type dispatch. -/
theorem C10_sei_truncated_message_returns_one :
    ∀ (rbsp : List Nat) (sz : Nat) (alpha : AlphaChannelInformation)
      (pos psize c : Nat),
      pos + 2 ≤ sz →
      byteAt rbsp pos ≠ 255 →
      (if byteAt rbsp (pos + 1) = 255 then seiSizeScan rbsp sz (pos + 2) 255
        else some (byteAt rbsp (pos + 1), 0)) = some (psize, c) →
      sz ≤ pos + 2 + c + psize →
      seiScan rbsp sz alpha pos = (1, alpha) := by
  intro rbsp sz alpha pos psize c h2 ht hsc hend
  rw [seiScan]
  rw [dif_pos h2, if_neg ht]
  split
  · rename_i heq
    rw [hsc] at heq
    cases heq
  · rename_i psize2 c2 heq
    rw [hsc] at heq
    cases heq
    rw [dif_pos hend]

/-- Witness for C10: a type-165 message with declared length 200 in a
7-byte RBSP returns 1 and leaves a nonzero alpha record unchanged. -/
theorem C10_sei_truncated_witness :
    seiScan [0, 0, 165, 200, 1, 2, 3] 7 ⟨9, 9, 9, 9, 9, 9, 9⟩ 2 =
      (1, ⟨9, 9, 9, 9, 9, 9, 9⟩) :=
  C10_sei_truncated_message_returns_one [0, 0, 165, 200, 1, 2, 3] 7
    ⟨9, 9, 9, 9, 9, 9, 9⟩ 2 200 0 (by norm_num) (by decide) (by decide)
    (by norm_num)


/-! ### Claim C1: VPS alpha-stream validity -/

/-- The extension block returns a state only when the recorded alpha
layer passes the validity check, and it never changes the recorded
`vps_extension_flag`. -/
theorem decodeVPSExtension_alpha (rbsp : List Nat) (r : BitStreamReader)
    (w v : VideoParameterSet) (h : decodeVPSExtension rbsp r w = some v) :
    (v.extension.layer_id_in_nuh 1 ≤ 1 ∧
      v.extension.dimension_id (v.extension.layer_id_in_nuh 1) AUX_ID =
        AUX_ALPHA) ∧
    v.vps_extension_flag = w.vps_extension_flag := by
  unfold decodeVPSExtension at h
  split at h
  split at h
  split at h
  · cases h
  · split at h
    split at h
    split at h
    split at h
    split at h
    · cases h
    · rename_i hcheck
      cases h
      push_neg at hcheck
      exact ⟨⟨hcheck.1, hcheck.2⟩, rfl⟩

set_option maxHeartbeats 2000000 in
/-- C1: for every VPS RBSP whose parse records `vps_extension_flag = 1`,
`DecodeVideoParameterSet` succeeds only if the recorded
`layer_id_in_nuh[1]` is at most 1 and the `dimension_id` entry at index
`AUX_ID` of the row selected by that value equals `AUX_ALPHA`; and for
every VPS RBSP it fails (returns 0) whenever the
`vps_max_sub_layers_minus1` field (bits 1..3 of the 16-bit word at byte
offset 2) is nonzero, whenever the `vps_sub_layer_ordering_info_present`
bit (stream bit 144, the first bit after the fixed 18-byte prefix) is
set, and — for the extension block entered at any reader position —
whenever the splitting-flag bit (the bit after byte alignment and the
8-bit extension PTL) is set. -/
theorem C1_vps_alpha_validity :
    (∀ (w : VideoParameterSet) (rbsp : List Nat) (sz : Nat)
        (v : VideoParameterSet),
      decodeVideoParameterSet w rbsp sz = some v →
      v.vps_extension_flag = 1 →
      v.extension.layer_id_in_nuh 1 ≤ 1 ∧
        v.extension.dimension_id (v.extension.layer_id_in_nuh 1) AUX_ID =
          AUX_ALPHA) ∧
    (∀ (w : VideoParameterSet) (rbsp : List Nat) (sz : Nat),
      0 < bitExtract (loadUINT16BE rbsp 2) 1 3 →
      decodeVideoParameterSet w rbsp sz = none) ∧
    (∀ (w : VideoParameterSet) (rbsp : List Nat) (sz : Nat),
      streamBit rbsp 144 = true →
      decodeVideoParameterSet w rbsp sz = none) ∧
    (∀ (rbsp : List Nat) (r : BitStreamReader) (w : VideoParameterSet)
        (p : Nat),
      Rep rbsp r p →
      streamBit rbsp (p + r.length % 8 + 8) = true →
      decodeVPSExtension rbsp r w = none) := by
  refine ⟨?_, ?_, ?_, ?_⟩
  · intro w rbsp sz v hv hext
    unfold decodeVideoParameterSet at hv
    split at hv
    · cases hv
    · split at hv
      · cases hv
      · split at hv
        · cases hv
        · split at hv
          split at hv
          · cases hv
          · split at hv
            split at hv
            split at hv
            split at hv
            · cases hv
            · split at hv
              split at hv
              · exact (decodeVPSExtension_alpha _ _ _ _ hv).1
              · rename_i hge
                cases hv
                simp only [Decidable.not_not] at hge
                simp only [hge] at hext
                cases hext
  · intro w rbsp sz hms
    unfold decodeVideoParameterSet
    split
    · rfl
    · rfl
  · intro w rbsp sz hbit
    unfold decodeVideoParameterSet
    split
    · rfl
    · rename_i hsz
      split
      · rfl
      rename_i hms
      split
      · rfl
      · rename_i ptl rtop heq
        unfold parseProfileTierLevel at heq
        rw [if_neg (by omega)] at heq
        rw [Option.some.injEq, Prod.mk.injEq] at heq
        have hrtop : rtop = 18 := heq.2.symm
        subst hrtop
        have hrep : Rep rbsp (BitStreamReader.setup rbsp 18) 144 := by
          have := rep_setup rbsp 18
          norm_num at this
          exact this
        have hg := getBit_correct rbsp (BitStreamReader.setup rbsp 18) 144
          hrep
        have hval : ((BitStreamReader.setup rbsp 18).getBit rbsp).1 = 1 := by
          rw [hg.1, hbit]
          rfl
        split
        rename_i subFlag ra heqg
        rw [heqg] at hval
        have hsf : subFlag = 1 := hval
        rw [if_pos (by omega)]
  · intro rbsp r w p hrep hbit
    have h0 := skipToByteBoundary_correct rbsp r p hrep
    have h1 := getBits_correct rbsp r.skipToByteBoundary (p + r.length % 8) 8
      h0 (by norm_num)
    have h2 := getBit_correct rbsp (r.skipToByteBoundary.getBits rbsp 8).2
      (p + r.length % 8 + 8) h1.2
    have hval : ((r.skipToByteBoundary.getBits rbsp 8).2.getBit rbsp).1 = 1 := by
      rw [h2.1, hbit]
      rfl
    unfold decodeVPSExtension
    split
    rename_i extPTL r1 heq1
    have hr1 : (r.skipToByteBoundary.getBits rbsp 8).2 = r1 := by rw [heq1]
    rw [hr1] at hval
    split
    rename_i splitFlag r2 heq2
    rw [heq2] at hval
    have hsf : splitFlag = 1 := hval
    rw [if_pos (by omega)]

/-- Witness for C1: the documented example VPS RBSP decodes with
`vps_extension_flag = 1` and a valid alpha layer, a VPS with nonzero
`vps_max_sub_layers_minus1` is rejected, and a VPS whose bit 144 is set
is rejected. -/
theorem C1_vps_alpha_validity_witness :
    ((decodeVideoParameterSet vps0 vpsRbspExample 34).elim 99
        (fun v => v.extension.layer_id_in_nuh 1) ≤ 1 ∧
      (decodeVideoParameterSet vps0 vpsRbspExample 34).elim 99
        (fun v => v.extension.dimension_id (v.extension.layer_id_in_nuh 1)
          AUX_ID) = AUX_ALPHA) ∧
    decodeVideoParameterSet vps0 [0, 0, 0, 2] 34 = none ∧
    decodeVideoParameterSet vps0
      [0, 0, 0, 0, 0, 0, 0, 0, 0, 0, 0, 0, 0, 0, 0, 0, 0, 0, 0x80] 34 =
        none := by
  refine ⟨?_, ?_, ?_⟩
  · obtain ⟨v, hv⟩ : ∃ v, decodeVideoParameterSet vps0 vpsRbspExample 34 =
        some v := Option.isSome_iff_exists.mp (by decide)
    have hflag : (decodeVideoParameterSet vps0 vpsRbspExample 34).elim 0
        (fun v => v.vps_extension_flag) = 1 := by decide
    rw [hv] at hflag
    have hmain := C1_vps_alpha_validity.1 vps0 vpsRbspExample 34 v hv hflag
    rw [hv]
    exact ⟨hmain.1, hmain.2⟩
  · exact C1_vps_alpha_validity.2.1 vps0 [0, 0, 0, 2] 34 (by decide)
  · exact C1_vps_alpha_validity.2.2.1 vps0
      [0, 0, 0, 0, 0, 0, 0, 0, 0, 0, 0, 0, 0, 0, 0, 0, 0, 0, 0x80] 34
      (by decide)

/-! ### Claim C4: atom enumeration success and structural errors -/

theorem mask_required_iff (m : Nat) :
    (m &&& (REQUIRED_ATOMS ||| (1 <<< ID_ERROR)) = REQUIRED_ATOMS) ↔
      (m.testBit ID_FTYP = true ∧ m.testBit ID_MDAT = true ∧
        m.testBit ID_STSD = true ∧ m.testBit ID_STSC = true ∧
        m.testBit ID_STSZ = true ∧ m.testBit ID_STCO = true ∧
        m.testBit ID_ERROR = false) := by
  have hc : REQUIRED_ATOMS ||| (1 <<< ID_ERROR) = 971 := by decide
  have hr : REQUIRED_ATOMS = 459 := by decide
  rw [hc, hr]
  constructor
  · intro h
    have hb : ∀ i, (m &&& 971).testBit i = Nat.testBit 459 i := fun i => by
      rw [h]
    refine ⟨?_, ?_, ?_, ?_, ?_, ?_, ?_⟩
    · have h0 := hb 0
      rw [Nat.testBit_land] at h0
      rw [show Nat.testBit 971 0 = true from by decide, Bool.and_true] at h0
      exact h0
    · have h1 := hb 1
      rw [Nat.testBit_land] at h1
      rw [show Nat.testBit 971 1 = true from by decide, Bool.and_true] at h1
      exact h1
    · have h3 := hb 3
      rw [Nat.testBit_land] at h3
      rw [show Nat.testBit 971 3 = true from by decide, Bool.and_true] at h3
      exact h3
    · have h6 := hb 6
      rw [Nat.testBit_land] at h6
      rw [show Nat.testBit 971 6 = true from by decide, Bool.and_true] at h6
      exact h6
    · have h7 := hb 7
      rw [Nat.testBit_land] at h7
      rw [show Nat.testBit 971 7 = true from by decide, Bool.and_true] at h7
      exact h7
    · have h8 := hb 8
      rw [Nat.testBit_land] at h8
      rw [show Nat.testBit 971 8 = true from by decide, Bool.and_true] at h8
      exact h8
    · have h9 := hb 9
      rw [Nat.testBit_land] at h9
      rw [show Nat.testBit 971 9 = true from by decide, Bool.and_true,
        show Nat.testBit 459 9 = false from by decide] at h9
      exact h9
  · rintro ⟨h0, h1, h3, h6, h7, h8, h9⟩
    refine Nat.eq_of_testBit_eq fun i => ?_
    rw [Nat.testBit_land]
    by_cases hi : i < 10
    · interval_cases i
      · rw [show m.testBit 0 = true from h0]; decide
      · rw [show m.testBit 1 = true from h1]; decide
      · cases hmi : m.testBit 2 <;> decide
      · rw [show m.testBit 3 = true from h3]; decide
      · cases hmi : m.testBit 4 <;> decide
      · cases hmi : m.testBit 5 <;> decide
      · rw [show m.testBit 6 = true from h6]; decide
      · rw [show m.testBit 7 = true from h7]; decide
      · rw [show m.testBit 8 = true from h8]; decide
      · rw [show m.testBit 9 = false from h9]; decide
    · have hp : (2 : Nat) ^ 10 ≤ 2 ^ i :=
        Nat.pow_le_pow_right (by decide) (by omega)
      have e1 : Nat.testBit 971 i = false :=
        Nat.testBit_eq_false_of_lt (lt_of_lt_of_le (by decide) hp)
      have e2 : Nat.testBit 459 i = false :=
        Nat.testBit_eq_false_of_lt (lt_of_lt_of_le (by decide) hp)
      rw [e1, e2, Bool.and_false]

theorem putGuarded_snd_testBit (a : AtomsState) (id off k : Nat)
    (h : id ≠ k) : ((atomsPutGuarded a id off).2).testBit k = false := by
  unfold atomsPutGuarded
  split
  · exact Nat.zero_testBit k
  · rw [Nat.one_shiftLeft]
    exact Nat.testBit_two_pow_of_ne h

/-- Inversion of the mask-accumulation step of `enumChildAtoms`: a step
that produced a result decomposes into the dispatch result and a
successful sibling walk whose masks are ORed. -/
theorem enumMatch_inv (data : List Nat) (f sib endPos : Nat)
    (o1 : Option (Nat × AtomsState)) (m : Nat) (a2 : AtomsState)
    (h : (match o1 with
          | none => none
          | some (m1, a1) =>
            match enumChildAtoms data f sib endPos a1 with
            | none => none
            | some (m2, b2) => some (m1 ||| m2, b2)) = some (m, a2)) :
    ∃ m1 a1 m2, o1 = some (m1, a1) ∧
      enumChildAtoms data f sib endPos a1 = some (m2, a2) ∧
      m = m1 ||| m2 := by
  cases o1 with
  | none => exact Option.noConfusion h
  | some p =>
    obtain ⟨m1, a1⟩ := p
    replace h : (match enumChildAtoms data f sib endPos a1 with
        | none => none
        | some (m2, b2) => some (m1 ||| m2, b2)) = some (m, a2) := h
    cases hsib : enumChildAtoms data f sib endPos a1 with
    | none =>
      rw [hsib] at h
      exact Option.noConfusion h
    | some q =>
      obtain ⟨m2, b2⟩ := q
      rw [hsib] at h
      replace h : some (m1 ||| m2, b2) = some (m, a2) := h
      rw [Option.some.injEq, Prod.mk.injEq] at h
      refine ⟨m1, a1, m2, rfl, ?_, h.1.symm⟩
      rw [hsib, h.2]

theorem enum_error_bit (data : List Nat) :
    ∀ (fuel start endPos : Nat) (a : AtomsState) (m : Nat)
      (a2 : AtomsState),
      enumChildAtoms data fuel start endPos a = some (m, a2) →
      m.testBit ID_ERROR = hasViolation data fuel start endPos := by
  intro fuel
  induction fuel with
  | zero =>
    intro start endPos a m a2 h
    exact Option.noConfusion h
  | succ f ih =>
    intro start endPos a m a2 h
    rw [enumChildAtoms] at h
    rw [hasViolation]
    by_cases hse : endPos ≤ start
    · rw [if_pos hse] at h ⊢
      rw [Option.some.injEq, Prod.mk.injEq] at h
      rw [← h.1]
      exact Nat.zero_testBit _
    · rw [if_neg hse] at h ⊢
      by_cases hov : endPos < start + atomSize data start
      · rw [if_pos hov] at h ⊢
        rw [Option.some.injEq, Prod.mk.injEq] at h
        rw [← h.1]
        decide
      · rw [if_neg hov] at h ⊢
        by_cases ht0 : atomType data start = TYPE_FTYP
        · rw [if_pos ht0] at h
          obtain ⟨m1, a1, m2, ho1, hsib, hm⟩ :=
            enumMatch_inv data f (start + atomSize data start) endPos
              (some (1 <<< ID_FTYP, atomsPut a ID_FTYP start)) m a2 h
          rw [Option.some.injEq, Prod.mk.injEq] at ho1
          have hb1 : m1.testBit ID_ERROR = false := by
            rw [← ho1.1]
            decide
          rw [hm, Nat.testBit_lor, hb1, ih _ _ _ _ _ hsib,
            if_neg (fun hc => by
              rcases hc with hc | hc | hc | hc | hc <;>
                (rw [ht0] at hc; exact absurd hc (by decide))),
            Bool.false_or]
        · rw [if_neg ht0] at h
          by_cases ht1 : atomType data start = TYPE_MDAT
          · rw [if_pos ht1] at h
            obtain ⟨m1, a1, m2, ho1, hsib, hm⟩ :=
              enumMatch_inv data f (start + atomSize data start) endPos
                (some (1 <<< ID_MDAT, atomsPut a ID_MDAT start)) m a2 h
            rw [Option.some.injEq, Prod.mk.injEq] at ho1
            have hb1 : m1.testBit ID_ERROR = false := by
              rw [← ho1.1]
              decide
            rw [hm, Nat.testBit_lor, hb1, ih _ _ _ _ _ hsib,
              if_neg (fun hc => by
                rcases hc with hc | hc | hc | hc | hc <;>
                  (rw [ht1] at hc; exact absurd hc (by decide))),
              Bool.false_or]
          · rw [if_neg ht1] at h
            by_cases htc : atomType data start = TYPE_MOOV ∨ atomType data start = TYPE_TRAK ∨ atomType data start = TYPE_MDIA ∨ atomType data start = TYPE_MINF ∨ atomType data start = TYPE_STBL
            · rw [if_pos htc] at h
              obtain ⟨m1, a1, m2, ho1, hsib, hm⟩ :=
                enumMatch_inv data f (start + atomSize data start) endPos
                  (enumChildAtoms data f (start + 8) (start + atomSize data start) a) m a2 h
              have hb1 : m1.testBit ID_ERROR =
                  hasViolation data f (start + 8)
                    (start + atomSize data start) :=
                ih (start + 8) (start + atomSize data start) a m1 a1 ho1
              rw [hm, Nat.testBit_lor, hb1, ih _ _ _ _ _ hsib,
                if_pos htc]
            · rw [if_neg htc] at h
              by_cases ht3 : atomType data start = TYPE_MDHD
              · rw [if_pos ht3] at h
                obtain ⟨m1, a1, m2, ho1, hsib, hm⟩ :=
                  enumMatch_inv data f (start + atomSize data start) endPos
                    (some ((atomsPutGuarded a ID_MDHD start).2, (atomsPutGuarded a ID_MDHD start).1)) m a2 h
                rw [Option.some.injEq, Prod.mk.injEq] at ho1
                have hb1 : m1.testBit ID_ERROR = false := by
                  rw [← ho1.1]
                  exact putGuarded_snd_testBit a ID_MDHD start ID_ERROR
                    (by decide)
                rw [hm, Nat.testBit_lor, hb1, ih _ _ _ _ _ hsib,
                  if_neg htc, Bool.false_or]
              · rw [if_neg ht3] at h
                by_cases ht4 : atomType data start = TYPE_STSD
                · rw [if_pos ht4] at h
                  obtain ⟨m1, a1, m2, ho1, hsib, hm⟩ :=
                    enumMatch_inv data f (start + atomSize data start) endPos
                      (some ((atomsPutGuarded a ID_STSD start).2, (atomsPutGuarded a ID_STSD start).1)) m a2 h
                  rw [Option.some.injEq, Prod.mk.injEq] at ho1
                  have hb1 : m1.testBit ID_ERROR = false := by
                    rw [← ho1.1]
                    exact putGuarded_snd_testBit a ID_STSD start ID_ERROR
                      (by decide)
                  rw [hm, Nat.testBit_lor, hb1, ih _ _ _ _ _ hsib,
                    if_neg htc, Bool.false_or]
                · rw [if_neg ht4] at h
                  by_cases ht5 : atomType data start = TYPE_STTS
                  · rw [if_pos ht5] at h
                    obtain ⟨m1, a1, m2, ho1, hsib, hm⟩ :=
                      enumMatch_inv data f (start + atomSize data start) endPos
                        (some ((atomsPutGuarded a ID_STTS start).2, (atomsPutGuarded a ID_STTS start).1)) m a2 h
                    rw [Option.some.injEq, Prod.mk.injEq] at ho1
                    have hb1 : m1.testBit ID_ERROR = false := by
                      rw [← ho1.1]
                      exact putGuarded_snd_testBit a ID_STTS start ID_ERROR
                        (by decide)
                    rw [hm, Nat.testBit_lor, hb1, ih _ _ _ _ _ hsib,
                      if_neg htc, Bool.false_or]
                  · rw [if_neg ht5] at h
                    by_cases ht6 : atomType data start = TYPE_STSS
                    · rw [if_pos ht6] at h
                      obtain ⟨m1, a1, m2, ho1, hsib, hm⟩ :=
                        enumMatch_inv data f (start + atomSize data start) endPos
                          (some ((atomsPutGuarded a ID_STSS start).2, (atomsPutGuarded a ID_STSS start).1)) m a2 h
                      rw [Option.some.injEq, Prod.mk.injEq] at ho1
                      have hb1 : m1.testBit ID_ERROR = false := by
                        rw [← ho1.1]
                        exact putGuarded_snd_testBit a ID_STSS start ID_ERROR
                          (by decide)
                      rw [hm, Nat.testBit_lor, hb1, ih _ _ _ _ _ hsib,
                        if_neg htc, Bool.false_or]
                    · rw [if_neg ht6] at h
                      by_cases ht7 : atomType data start = TYPE_STSC
                      · rw [if_pos ht7] at h
                        obtain ⟨m1, a1, m2, ho1, hsib, hm⟩ :=
                          enumMatch_inv data f (start + atomSize data start) endPos
                            (some ((atomsPutGuarded a ID_STSC start).2, (atomsPutGuarded a ID_STSC start).1)) m a2 h
                        rw [Option.some.injEq, Prod.mk.injEq] at ho1
                        have hb1 : m1.testBit ID_ERROR = false := by
                          rw [← ho1.1]
                          exact putGuarded_snd_testBit a ID_STSC start ID_ERROR
                            (by decide)
                        rw [hm, Nat.testBit_lor, hb1, ih _ _ _ _ _ hsib,
                          if_neg htc, Bool.false_or]
                      · rw [if_neg ht7] at h
                        by_cases ht8 : atomType data start = TYPE_STSZ
                        · rw [if_pos ht8] at h
                          obtain ⟨m1, a1, m2, ho1, hsib, hm⟩ :=
                            enumMatch_inv data f (start + atomSize data start) endPos
                              (some ((atomsPutGuarded a ID_STSZ start).2, (atomsPutGuarded a ID_STSZ start).1)) m a2 h
                          rw [Option.some.injEq, Prod.mk.injEq] at ho1
                          have hb1 : m1.testBit ID_ERROR = false := by
                            rw [← ho1.1]
                            exact putGuarded_snd_testBit a ID_STSZ start ID_ERROR
                              (by decide)
                          rw [hm, Nat.testBit_lor, hb1, ih _ _ _ _ _ hsib,
                            if_neg htc, Bool.false_or]
                        · rw [if_neg ht8] at h
                          by_cases ht9 : atomType data start = TYPE_STCO
                          · rw [if_pos ht9] at h
                            obtain ⟨m1, a1, m2, ho1, hsib, hm⟩ :=
                              enumMatch_inv data f (start + atomSize data start) endPos
                                (some ((atomsPutGuarded a ID_STCO start).2, (atomsPutGuarded a ID_STCO start).1)) m a2 h
                            rw [Option.some.injEq, Prod.mk.injEq] at ho1
                            have hb1 : m1.testBit ID_ERROR = false := by
                              rw [← ho1.1]
                              exact putGuarded_snd_testBit a ID_STCO start ID_ERROR
                                (by decide)
                            rw [hm, Nat.testBit_lor, hb1, ih _ _ _ _ _ hsib,
                              if_neg htc, Bool.false_or]
                          · rw [if_neg ht9] at h
                            obtain ⟨m1, a1, m2, ho1, hsib, hm⟩ :=
                              enumMatch_inv data f (start + atomSize data start) endPos
                                (some (0, a)) m a2 h
                            rw [Option.some.injEq, Prod.mk.injEq] at ho1
                            have hb1 : m1.testBit ID_ERROR = false := by
                              rw [← ho1.1]
                              decide
                            rw [hm, Nat.testBit_lor, hb1, ih _ _ _ _ _ hsib,
                              if_neg htc, Bool.false_or]

set_option maxHeartbeats 1000000 in
/-- C4: `AtomCollection::Enumerate` succeeds exactly when the six
mandatory atoms (`ftyp`, `mdat`, `stsd`, `stsc`, `stsz`, `stco`) were
all found and no structural violation occurred; and whenever some atom
at any nesting depth declares a size running past the end of its
enclosing range, `Enumerate` does not succeed. -/
theorem C4_enumerate_success_characterisation :
    (∀ (data : List Nat) (size fuel mask : Nat),
      (enumChildAtoms data fuel 0 size (fun _ => none)).map Prod.fst =
        some mask →
      (enumerate data size fuel = some true ↔
        ((mask.testBit ID_FTYP = true ∧ mask.testBit ID_MDAT = true ∧
          mask.testBit ID_STSD = true ∧ mask.testBit ID_STSC = true ∧
          mask.testBit ID_STSZ = true ∧ mask.testBit ID_STCO = true) ∧
          hasViolation data fuel 0 size = false))) ∧
    (∀ (data : List Nat) (size fuel : Nat),
      hasViolation data fuel 0 size = true →
      enumerate data size fuel ≠ some true) := by
  have main : ∀ (data : List Nat) (size fuel mask : Nat),
      (enumChildAtoms data fuel 0 size (fun _ => none)).map Prod.fst =
        some mask →
      (enumerate data size fuel = some true ↔
        ((mask.testBit ID_FTYP = true ∧ mask.testBit ID_MDAT = true ∧
          mask.testBit ID_STSD = true ∧ mask.testBit ID_STSC = true ∧
          mask.testBit ID_STSZ = true ∧ mask.testBit ID_STCO = true) ∧
          hasViolation data fuel 0 size = false)) := by
    intro data size fuel mask hm
    cases henum : enumChildAtoms data fuel 0 size (fun _ => none) with
    | none =>
      rw [henum] at hm
      exact absurd hm (by simp)
    | some p =>
      obtain ⟨m, a2⟩ := p
      rw [henum] at hm
      replace hm : m = mask := by simpa using hm
      subst hm
      have herr := enum_error_bit data fuel 0 size _ m a2 henum
      unfold enumerate
      rw [henum]
      constructor
      · intro hs
        have hp : m &&& (REQUIRED_ATOMS ||| (1 <<< ID_ERROR)) =
            REQUIRED_ATOMS := of_decide_eq_true (Option.some.inj hs)
        obtain ⟨b0, b1, b3, b6, b7, b8, b9⟩ := (mask_required_iff m).mp hp
        refine ⟨⟨b0, b1, b3, b6, b7, b8⟩, ?_⟩
        rw [← herr, b9]
      · rintro ⟨⟨b0, b1, b3, b6, b7, b8⟩, hv⟩
        have b9 : m.testBit ID_ERROR = false := by rw [herr, hv]
        have hp := (mask_required_iff m).mpr ⟨b0, b1, b3, b6, b7, b8, b9⟩
        simp [hp]
  refine ⟨main, ?_⟩
  intro data size fuel hv
  cases henum : enumChildAtoms data fuel 0 size (fun _ => none) with
  | none =>
    unfold enumerate
    rw [henum]
    simp
  | some p =>
    obtain ⟨m, a2⟩ := p
    have herr := enum_error_bit data fuel 0 size _ m a2 henum
    intro hc
    unfold enumerate at hc
    rw [henum] at hc
    have hp : m &&& (REQUIRED_ATOMS ||| (1 <<< ID_ERROR)) =
        REQUIRED_ATOMS := of_decide_eq_true (Option.some.inj hc)
    have b9 := ((mask_required_iff m).mp hp).2.2.2.2.2.2
    rw [herr, hv] at b9
    exact Bool.noConfusion b9

/-- Witness for C4: a 48-byte stream holding the six mandatory atoms
enumerates successfully, and an 8-byte stream whose single atom declares
size 9 does not. -/
theorem C4_enumerate_success_characterisation_witness :
    enumerate
      [0, 0, 0, 8, 0x66, 0x74, 0x79, 0x70,
       0, 0, 0, 8, 0x6d, 0x64, 0x61, 0x74,
       0, 0, 0, 8, 0x73, 0x74, 0x73, 0x64,
       0, 0, 0, 8, 0x73, 0x74, 0x73, 0x63,
       0, 0, 0, 8, 0x73, 0x74, 0x73, 0x7a,
       0, 0, 0, 8, 0x73, 0x74, 0x63, 0x6f] 48 7 = some true ∧
    enumerate [0, 0, 0, 9, 0x66, 0x72, 0x65, 0x65] 8 3 ≠ some true := by
  constructor
  · exact (C4_enumerate_success_characterisation.1
      [0, 0, 0, 8, 0x66, 0x74, 0x79, 0x70,
       0, 0, 0, 8, 0x6d, 0x64, 0x61, 0x74,
       0, 0, 0, 8, 0x73, 0x74, 0x73, 0x64,
       0, 0, 0, 8, 0x73, 0x74, 0x73, 0x63,
       0, 0, 0, 8, 0x73, 0x74, 0x73, 0x7a,
       0, 0, 0, 8, 0x73, 0x74, 0x63, 0x6f] 48 7 459 (by decide)).mpr
      ⟨⟨by decide, by decide, by decide, by decide, by decide, by decide⟩,
        by decide⟩
  · exact C4_enumerate_success_characterisation.2
      [0, 0, 0, 9, 0x66, 0x72, 0x65, 0x65] 8 3 (by decide)

/-! ### Claim C7: hvcC configuration failure modes -/

/-- C7 (corrected): `DecodeHEVCDecoderConfiguration` fails when the
payload is shorter than 22 bytes, when `numberOfArrays` is below 3, or
when the array loop fails; an array header shorter than 3 bytes or a
NAL-unit length running past the remaining payload fails the loops, as
does a VPS/SPS/PPS NAL of length at least 256 or whose decode fails.
NAL units whose type is not decoded only advance the position and leave
the state unchanged.  The length check compares the declared size
against the remaining bytes including the 2-byte length field, so a NAL
whose payload ends up to two bytes past the validated end is still
accepted (last conjunct).  The SEI decode result is discarded, so a
failing SEI decode cannot fail the configuration (see the
counterexample). -/
theorem C7_hvcc_failure_modes :
    (∀ (buf : List Nat) (s e : Nat) (st : DecoderState),
      e - s < 22 → decodeHEVCDecoderConfiguration buf s e st = none) ∧
    (∀ (buf : List Nat) (s e : Nat) (st : DecoderState),
      byteAt buf (s + 22) < 3 →
      decodeHEVCDecoderConfiguration buf s e st = none) ∧
    (∀ (buf : List Nat) (s e : Nat) (st : DecoderState),
      22 ≤ e - s → 3 ≤ byteAt buf (s + 22) →
      hvccArrayLoop buf e (byteAt buf (s + 22)) (s + 23) st = none →
      decodeHEVCDecoderConfiguration buf s e st = none) ∧
    (∀ (buf : List Nat) (fin na astart : Nat) (st : DecoderState),
      fin - astart < 3 → hvccArrayLoop buf fin (na + 1) astart st = none) ∧
    (∀ (buf : List Nat) (fin na astart : Nat) (st : DecoderState),
      3 ≤ fin - astart →
      hvccNalLoop buf fin
        (byteAt buf astart &&& 0x3f = NAL_VPS ∨
          byteAt buf astart &&& 0x3f = NAL_SPS ∨
          byteAt buf astart &&& 0x3f = NAL_PPS ∨
          byteAt buf astart &&& 0x3f = NAL_SEI_PFX : Bool)
        (byteAt buf astart &&& 0x3f)
        (loadUINT16BE buf (astart + 1)) (astart + 3) st = none →
      hvccArrayLoop buf fin (na + 1) astart st = none) ∧
    (∀ (buf : List Nat) (fin : Nat) (flag : Bool) (t i pos : Nat)
        (st : DecoderState),
      fin - pos < 2 ∨ fin - pos < loadUINT16BE buf pos →
      hvccNalLoop buf fin flag t (i + 1) pos st = none) ∧
    (∀ (buf : List Nat) (fin t i pos : Nat) (st : DecoderState),
      2 ≤ fin - pos → loadUINT16BE buf pos ≤ fin - pos →
      256 ≤ loadUINT16BE buf pos →
      hvccNalLoop buf fin true t (i + 1) pos st = none) ∧
    (∀ (buf : List Nat) (fin i pos : Nat) (st : DecoderState),
      2 ≤ fin - pos → loadUINT16BE buf pos ≤ fin - pos →
      loadUINT16BE buf pos < 256 →
      decodeVideoParameterSet st.vps
        (extractRBSP buf (pos + 2) (loadUINT16BE buf pos))
        (extractRBSP buf (pos + 2) (loadUINT16BE buf pos)).length = none →
      hvccNalLoop buf fin true NAL_VPS (i + 1) pos st = none) ∧
    (∀ (buf : List Nat) (fin i pos : Nat) (st : DecoderState),
      2 ≤ fin - pos → loadUINT16BE buf pos ≤ fin - pos →
      loadUINT16BE buf pos < 256 →
      decodeSequenceParameterSet st
        (extractRBSP buf (pos + 2) (loadUINT16BE buf pos))
        (extractRBSP buf (pos + 2) (loadUINT16BE buf pos)).length = none →
      hvccNalLoop buf fin true NAL_SPS (i + 1) pos st = none) ∧
    (∀ (buf : List Nat) (fin i pos : Nat) (st : DecoderState),
      2 ≤ fin - pos → loadUINT16BE buf pos ≤ fin - pos →
      loadUINT16BE buf pos < 256 →
      decodePictureParameterSet st
        (extractRBSP buf (pos + 2) (loadUINT16BE buf pos))
        (extractRBSP buf (pos + 2) (loadUINT16BE buf pos)).length = none →
      hvccNalLoop buf fin true NAL_PPS (i + 1) pos st = none) ∧
    (∀ (buf : List Nat) (fin t i pos : Nat) (st : DecoderState),
      hvccNalLoop buf fin false t i pos st = none ∨
      ∃ pos2, hvccNalLoop buf fin false t i pos st = some (pos2, st)) ∧
    (∀ (buf : List Nat) (fin t i pos : Nat) (st : DecoderState),
      2 ≤ fin - pos → fin - pos = loadUINT16BE buf pos →
      hvccNalLoop buf fin false t (i + 1) pos st =
        hvccNalLoop buf fin false t i
          (pos + 2 + loadUINT16BE buf pos) st ∧
      fin < pos + 2 + loadUINT16BE buf pos) := by
  refine ⟨?_, ?_, ?_, ?_, ?_, ?_, ?_, ?_, ?_, ?_, ?_, ?_⟩
  · intro buf s e st h
    unfold decodeHEVCDecoderConfiguration
    rw [if_pos (by omega)]
  · intro buf s e st h
    unfold decodeHEVCDecoderConfiguration
    split
    · rfl
    · rfl
  · intro buf s e st h1 h2 h3
    unfold decodeHEVCDecoderConfiguration
    rw [show s + 21 + 1 = s + 22 from by omega]
    rw [show s + 22 + 1 = s + 23 from by omega]
    rw [if_neg (by omega), if_neg (by omega)]
    exact h3
  · intro buf fin na astart st h
    rw [hvccArrayLoop]
    rw [if_pos (by omega)]
  · intro buf fin na astart st h1 h2
    rw [hvccArrayLoop]
    rw [if_neg (by omega), h2]
  · intro buf fin flag t i pos st h
    rw [hvccNalLoop]
    rcases h with h | h
    · rw [if_pos h]
    · split
      · rfl
      · rfl
  · intro buf fin t i pos st h1 h2 h3
    rw [hvccNalLoop]
    rw [if_neg (by omega), if_neg (by omega), if_pos rfl, if_pos h3]
  · intro buf fin i pos st h1 h2 h3 h4
    rw [hvccNalLoop]
    rw [if_neg (by omega), if_neg (by omega), if_pos rfl,
      if_neg (by omega), if_pos rfl, h4]
  · intro buf fin i pos st h1 h2 h3 h4
    rw [hvccNalLoop]
    rw [if_neg (by omega), if_neg (by omega), if_pos rfl,
      if_neg (by omega), if_neg (by decide), if_pos rfl, h4]
  · intro buf fin i pos st h1 h2 h3 h4
    rw [hvccNalLoop]
    rw [if_neg (by omega), if_neg (by omega), if_pos rfl,
      if_neg (by omega), if_neg (by decide), if_neg (by decide),
      if_pos rfl, h4]
  · intro buf fin t i pos st
    induction i generalizing pos with
    | zero => exact Or.inr ⟨pos, rfl⟩
    | succ j ih =>
      rw [hvccNalLoop]
      by_cases hb1 : fin - pos < 2
      · rw [if_pos hb1]
        exact Or.inl rfl
      · rw [if_neg hb1]
        by_cases hb2 : fin - pos < loadUINT16BE buf pos
        · rw [if_pos hb2]
          exact Or.inl rfl
        · rw [if_neg hb2, if_neg (by simp)]
          exact ih (pos + 2 + loadUINT16BE buf pos)
  · intro buf fin t i pos st h1 h2
    constructor
    · rw [hvccNalLoop]
      rw [if_neg (by omega), if_neg (by omega), if_neg (by simp)]
    · omega

/-- Counterexample for C7 as claimed: an `hvcC` payload whose SEI-prefix
NAL makes `DecodeSupplementalEnhancementInformation` fail (return 0),
while the whole `DecodeHEVCDecoderConfiguration` still succeeds,
because the dispatch discards the SEI decode result
(decoder.cc:473). -/
theorem C7_hvcc_sei_failure_counterexample :
    (decodeSEI st0.alpha
      (extractRBSP
        [0, 0, 0, 0, 0, 0, 0, 0, 0, 0, 0, 0, 0, 0, 0, 0, 0, 0, 0, 0, 0, 0,
         3, 0x27, 0, 1, 0, 4, 0x4E, 0x01, 0xFF, 0x00, 0, 0, 0, 0, 0, 0]
        28 4)
      (extractRBSP
        [0, 0, 0, 0, 0, 0, 0, 0, 0, 0, 0, 0, 0, 0, 0, 0, 0, 0, 0, 0, 0, 0,
         3, 0x27, 0, 1, 0, 4, 0x4E, 0x01, 0xFF, 0x00, 0, 0, 0, 0, 0, 0]
        28 4).length).1 = 0 ∧
    (decodeHEVCDecoderConfiguration
      [0, 0, 0, 0, 0, 0, 0, 0, 0, 0, 0, 0, 0, 0, 0, 0, 0, 0, 0, 0, 0, 0,
       3, 0x27, 0, 1, 0, 4, 0x4E, 0x01, 0xFF, 0x00, 0, 0, 0, 0, 0, 0]
      0 38 st0).isSome = true := by
  constructor
  · rw [show extractRBSP
        [0, 0, 0, 0, 0, 0, 0, 0, 0, 0, 0, 0, 0, 0, 0, 0, 0, 0, 0, 0, 0, 0,
         3, 0x27, 0, 1, 0, 4, 0x4E, 0x01, 0xFF, 0x00, 0, 0, 0, 0, 0, 0]
        28 4 = [0x4E, 0x01, 0xFF, 0x00] from by decide]
    unfold decodeSEI
    rw [seiScan]
    norm_num [byteAt]
  · unfold decodeHEVCDecoderConfiguration
    norm_num [hvccArrayLoop, hvccNalLoop, byteAt, loadUINT16BE,
      show (39 &&& 63 : Nat) = 39 from by decide, NAL_VPS, NAL_SPS, NAL_PPS,
      NAL_SEI_PFX, show (0 &&& 63 : Nat) = 0 from by decide]

/-- Witness for C7: a too-short payload fails, and a VPS NAL whose
parameter-set decode fails fails the NAL loop. -/
theorem C7_hvcc_failure_modes_witness :
    decodeHEVCDecoderConfiguration [] 0 0 st0 = none ∧
    hvccNalLoop [0, 3, 0, 0, 0] 5 true NAL_VPS 1 0 st0 = none := by
  constructor
  · exact C7_hvcc_failure_modes.1 [] 0 0 st0 (by decide)
  · exact C7_hvcc_failure_modes.2.2.2.2.2.2.2.1 [0, 3, 0, 0, 0] 5 0 0 st0
      (by decide) (by decide) (by decide)
      (by
        rw [show extractRBSP [0, 3, 0, 0, 0] (0 + 2)
            (loadUINT16BE [0, 3, 0, 0, 0] 0) = [0, 0, 0, 0, 0, 0, 0] from
          by decide]
        unfold decodeVideoParameterSet
        rw [if_pos (by norm_num)])

/-! ### Claim C5: slice-header picture order count -/

/-- Positional bookkeeping for an optional `SkipBits` wrapped in an
`if`, as the slice-header parser uses for the IRAP, output-flag and
colour-plane skips. -/
theorem rep_skipIf (d : List Nat) (s : BitStreamReader) (p n : Nat)
    (c : Prop) [Decidable c] (hr : Rep d s p) :
    Rep d (if c then s.skipBits d n else s) (p + (if c then n else 0)) := by
  by_cases hc : c
  · rw [if_pos hc, if_pos hc]
    exact skipBits_correct d s p n hr
  · rw [if_neg hc, if_neg hc, Nat.add_zero]
    exact hr

set_option maxHeartbeats 1000000 in
/-- C5: `DecodeSliceHeader` returns 0 when
`first_slice_segment_in_pic_flag` (stream bit 48) is clear and when the
NAL unit type is an IDR type; otherwise it returns exactly the
`picture_order_count_lsb` field: the `log2_max_pic_order_cnt_lsb`-bit
group (width from the SPS resolved through the slice PPS id) right
after the parsed slice-header prefix, whose layout is fixed by the two
Exp-Golomb codes (`slice_pic_parameter_set_id`, `slice_type`) and the
PPS/SPS-dependent skips. -/
theorem C5_slice_header_poc :
    (∀ (st : DecoderState) (packet : List Nat) (psize : Nat),
      streamBit packet 48 = false →
      decodeSliceHeader st packet psize = 0) ∧
    (∀ (st : DecoderState) (packet : List Nat) (psize : Nat),
      isIDR (bitExtract (loadUINT16BE packet 4) 9 6) = true →
      decodeSliceHeader st packet psize = 0) ∧
    (∀ (st : DecoderState) (packet : List Nat)
        (psize k1 k2 q0 q1 q2 width : Nat) (pps : PictureParameterSet)
        (sps : SequenceParameterSet),
      q0 = 49 +
        (if isIRAP (bitExtract (loadUINT16BE packet 4) 9 6) = true then 1
          else 0) →
      pps = st.pps ((streamBits packet q0 (2 * k1 + 1) - 1) % 256) →
      sps = st.sps pps.pps_seq_parameter_set_id →
      q1 = q0 + (2 * k1 + 1) + pps.num_extra_slice_header_bits →
      q2 = q1 + (2 * k2 + 1) +
        (if pps.output_flag_present_flag ≠ 0 then 1 else 0) +
        (if sps.separate_colour_plane_flag ≠ 0 then 2 else 0) →
      width = sps.log2_max_pic_order_cnt_lsb →
      streamBit packet 48 = true →
      isIDR (bitExtract (loadUINT16BE packet 4) 9 6) = false →
      k1 ≤ 15 → (∀ j, j < k1 → streamBit packet (q0 + j) = false) →
      streamBit packet (q0 + k1) = true →
      k2 ≤ 15 → (∀ j, j < k2 → streamBit packet (q1 + j) = false) →
      streamBit packet (q1 + k2) = true →
      width ≤ 32 →
      decodeSliceHeader st packet psize = streamBits packet q2 width) := by
  refine ⟨?_, ?_, ?_⟩
  · intro st packet psize hflag
    unfold decodeSliceHeader
    simp only []
    have hrep0 : Rep packet (BitStreamReader.setup packet 6) 48 := by
      have := rep_setup packet 6
      norm_num at this
      exact this
    have hg := getBit_correct packet (BitStreamReader.setup packet 6) 48 hrep0
    have hgf0 : ((BitStreamReader.setup packet 6).getBit packet).1 = 0 := by
      rw [hg.1, hflag]
      rfl
    rw [hgf0, if_pos rfl]
  · intro st packet psize hidr
    unfold decodeSliceHeader
    simp only []
    split
    · rfl
    · rfl
  · intro st packet psize k1 k2 q0 q1 q2 width pps sps hq0 hpps hsps hq1
      hq2 hwidth hflag hidr hk1 hz1 ho1 hk2 hz2 ho2 hwle
    unfold decodeSliceHeader
    simp only []
    have hrep0 : Rep packet (BitStreamReader.setup packet 6) 48 := by
      have := rep_setup packet 6
      norm_num at this
      exact this
    have hg := getBit_correct packet (BitStreamReader.setup packet 6) 48 hrep0
    have hgf1 : ((BitStreamReader.setup packet 6).getBit packet).1 = 1 := by
      rw [hg.1, hflag]
      rfl
    rw [hgf1, if_neg (by norm_num), hidr]
    rw [if_neg Bool.false_ne_true]
    have hrep1 := rep_skipIf packet
      ((BitStreamReader.setup packet 6).getBit packet).2 49 1
      (isIRAP (bitExtract (loadUINT16BE packet 4) 9 6) = true)
      (by simpa using hg.2)
    rw [show (49 : Nat) +
        (if isIRAP (bitExtract (loadUINT16BE packet 4) 9 6) = true then 1
          else 0) = q0 from hq0.symm] at hrep1
    have hgol1 := readGolomb_correct packet _ q0 k1 hrep1 hk1 hz1 ho1
    rw [show (BitStreamReader.getGolomb packet
        (if isIRAP (bitExtract (loadUINT16BE packet 4) 9 6) = true then
          BitStreamReader.skipBits packet
            ((BitStreamReader.setup packet 6).getBit packet).2 1
        else ((BitStreamReader.setup packet 6).getBit packet).2)).1 =
      streamBits packet q0 (2 * k1 + 1) - 1 from hgol1.1]
    rw [← hpps, ← hsps]
    have hrep2 := skipBits_correct packet _ (q0 + (2 * k1 + 1))
      pps.num_extra_slice_header_bits hgol1.2
    have hrep3 : Rep packet
        (BitStreamReader.skipGolomb packet
          (BitStreamReader.skipBits packet
            (BitStreamReader.getGolomb packet
              (if isIRAP (bitExtract (loadUINT16BE packet 4) 9 6) = true then
                BitStreamReader.skipBits packet
                  ((BitStreamReader.setup packet 6).getBit packet).2 1
              else ((BitStreamReader.setup packet 6).getBit packet).2)).2
            pps.num_extra_slice_header_bits))
        (q1 + (2 * k2 + 1)) := by
      have := (readGolomb_correct packet _ q1 k2 (by
        rw [show q1 = q0 + (2 * k1 + 1) + pps.num_extra_slice_header_bits
          from hq1]
        exact hrep2) hk2 hz2 ho2).2
      exact this
    have hrep4 := rep_skipIf packet _ (q1 + (2 * k2 + 1)) 1
      (pps.output_flag_present_flag ≠ 0) hrep3
    have hrep5 := rep_skipIf packet _
      (q1 + (2 * k2 + 1) + (if pps.output_flag_present_flag ≠ 0 then 1 else 0))
      2 (sps.separate_colour_plane_flag ≠ 0) hrep4
    have hfin := getBits_correct packet _
      (q1 + (2 * k2 + 1) + (if pps.output_flag_present_flag ≠ 0 then 1 else 0)
        + (if sps.separate_colour_plane_flag ≠ 0 then 2 else 0))
      width hrep5 hwle
    rw [← hwidth]
    rw [hfin.1]
    congr 1
    omega

/-- Witness for C5: a TRAIL_R packet whose slice header is `EA` after
the 6-byte prefix decodes to POC 5 with the fixture state (PPS 0, SPS
width 4); a packet with a clear first-slice flag returns 0; an
IDR_N_LP packet returns 0. -/
theorem C5_slice_header_poc_witness :
    decodeSliceHeader st0 [0, 0, 0, 0, 2, 0, 0xEA, 0] 8 = 5 ∧
    decodeSliceHeader st0 [0, 0, 0, 0, 2, 0, 0, 0] 8 = 0 ∧
    decodeSliceHeader st0 [0, 0, 0, 0, 0x28, 0, 0xEA, 0] 8 = 0 := by
  refine ⟨?_, ?_, ?_⟩
  · have h := C5_slice_header_poc.2.2 st0 [0, 0, 0, 0, 2, 0, 0xEA, 0] 8
      0 0 49 50 51 4 pps0 spsPoc4 (by decide) rfl rfl (by decide)
      (by decide) (by decide) (by decide) (by decide) (by decide)
      (fun j hj => absurd hj (by omega)) (by decide) (by decide)
      (fun j hj => absurd hj (by omega)) (by decide) (by decide)
    rw [h]
    decide
  · exact C5_slice_header_poc.1 st0 [0, 0, 0, 0, 2, 0, 0, 0] 8 (by decide)
  · exact C5_slice_header_poc.2.1 st0 [0, 0, 0, 0, 0x28, 0, 0xEA, 0] 8
      (by decide)

/-! ### Claim C6: sample-table construction -/

/-- `natSum` is monotone in the number of summands. -/
theorem natSum_mono (f : Nat → Nat) (a : Nat) :
    ∀ b, a ≤ b → natSum f a ≤ natSum f b := by
  intro b
  induction b with
  | zero =>
    intro h
    have ha : a = 0 := by omega
    rw [ha]
  | succ k ih =>
    intro h
    rcases Nat.lt_or_ge a (k + 1) with h1 | h1
    · have := ih (by omega)
      rw [natSum]
      omega
    · have : a = k + 1 := by omega
      rw [this]

/-- When the total sample count does not overflow `uint32_t`, the
cumulative first-sample indices are plain sums. -/
theorem chunkFirsts_nowrap (cnts : Nat → Nat) (n : Nat)
    (h : 1 + natSum cnts n < 2 ^ 32) :
    ∀ k, k ≤ n → chunkFirsts cnts k = 1 + natSum cnts k := by
  intro k hk
  induction k with
  | zero => rfl
  | succ j ih =>
    have hm := natSum_mono cnts (j + 1) n hk
    rw [chunkFirsts, ih (by omega), natSum]
    rw [Nat.mod_eq_of_lt (by rw [natSum] at hm; omega)]
    omega

/-- The chunk-advance loop, entered with sample `i` at or past the
current chunk's start and at most one past its end, lands on a chunk
containing `i`; the in-chunk byte offset is kept when the chunk is
unchanged and reset to zero exactly when the walk enters the chunk at
its first sample. -/
theorem chunkSeek_spec (firsts cnts : Nat → Nat) (nChunks i : Nat)
    (hnw : ∀ c, c < nChunks → firsts c + cnts c < 2 ^ 32)
    (hstep : ∀ c, c + 1 < nChunks → firsts (c + 1) = firsts c + cnts c) :
    ∀ fl c so c2 so2, c < nChunks → firsts c ≤ i →
      i ≤ firsts c + cnts c →
      chunkSeekF firsts cnts nChunks i fl c so = some (c2, so2) →
      c2 < nChunks ∧ firsts c2 ≤ i ∧ i < firsts c2 + cnts c2 ∧
        ((c2 = c ∧ so2 = so) ∨ (so2 = 0 ∧ i = firsts c2)) := by
  intro fl
  induction fl with
  | zero =>
    intro c so c2 so2 _ _ _ h
    exact Option.noConfusion h
  | succ m ih =>
    intro c so c2 so2 hc hlb hub h
    rw [chunkSeekF] at h
    split at h
    · rename_i hguard
      rw [Nat.mod_eq_of_lt (hnw c hc)] at hguard
      split at h
      · cases h
      · rename_i hlast
        have hc1 : c + 1 < nChunks := by omega
        have heq : i = firsts c + cnts c := by omega
        have hf1 : firsts (c + 1) = firsts c + cnts c := hstep c hc1
        have hres := ih (c + 1) 0 c2 so2 hc1 (by omega)
          (by have := hnw (c + 1) hc1; omega) h
        rcases hres.2.2.2 with ⟨hcc, hso⟩ | ⟨hso, hi⟩
        · exact ⟨hres.1, hres.2.1, hres.2.2.1,
            Or.inr ⟨hso, by rw [hcc, hf1, heq]⟩⟩
        · exact ⟨hres.1, hres.2.1, hres.2.2.1, Or.inr ⟨hso, hi⟩⟩
    · rename_i hguard
      rw [Option.some.injEq, Prod.mk.injEq] at h
      obtain ⟨hc2, hso2⟩ := h
      subst hc2
      subst hso2
      refine ⟨hc, hlb, ?_, Or.inl ⟨rfl, rfl⟩⟩
      have : (firsts c + cnts c) % 2 ^ 32 = firsts c + cnts c :=
        Nat.mod_eq_of_lt (hnw c hc)
      omega

set_option maxHeartbeats 1000000 in
/-- The invariant of the sample-building loop: if every accumulated
sample already satisfies the claim's offset property, so does every
sample of a successful result. -/
theorem sampleBuild_inv (stD : DecoderState) (buf : List Nat)
    (szFixed : Nat) (sizes firsts cnts offs : Nat → Nat) (nChunks : Nat)
    (hnw : ∀ c, c < nChunks → firsts c + cnts c < 2 ^ 32)
    (hstep : ∀ c, c + 1 < nChunks → firsts (c + 1) = firsts c + cnts c) :
    ∀ (rem i c so : Nat) (acc smp : List Sample),
      c < nChunks → firsts c ≤ i → i ≤ firsts c + cnts c → 1 ≤ i →
      so = sumSizes szFixed sizes (firsts c) (i - firsts c) % 2 ^ 32 →
      acc.length + 1 = i →
      (∀ j (hj : j < acc.length),
        SampleProp szFixed sizes firsts cnts offs nChunks (i - 1 - j)
          (acc.get ⟨j, hj⟩)) →
      sampleBuild stD buf szFixed sizes firsts cnts offs nChunks rem i c so
        acc = some smp →
      ∀ j (hj : j < smp.length),
        SampleProp szFixed sizes firsts cnts offs nChunks (j + 1)
          (smp.get ⟨j, hj⟩) := by
  intro rem
  induction rem with
  | zero =>
    intro i c so acc smp hc hlb hub hi hso hlen hacc h j hj
    rw [sampleBuild, Option.some.injEq] at h
    subst h
    rw [List.get_eq_getElem, List.getElem_reverse]
    have hj2 : acc.length - 1 - j < acc.length := by
      rw [List.length_reverse] at hj
      omega
    have := hacc (acc.length - 1 - j) hj2
    rw [List.get_eq_getElem] at this
    rw [List.length_reverse] at hj
    have hidx : i - 1 - (acc.length - 1 - j) = j + 1 := by omega
    rw [hidx] at this
    exact this
  | succ rem ih =>
    intro i c so acc smp hc hlb hub hi hso hlen hacc h
    rw [sampleBuild] at h
    split at h
    · cases h
    · rename_i c2 so2 hsc
      unfold chunkSeek at hsc
      have hspec := chunkSeek_spec firsts cnts nChunks i hnw hstep
        (nChunks - c + 1) c so c2 so2 hc hlb hub hsc
      obtain ⟨hc2, hlb2, hub2, hdisj⟩ := hspec
      have hso2 : so2 =
          sumSizes szFixed sizes (firsts c2) (i - firsts c2) % 2 ^ 32 := by
        rcases hdisj with ⟨hcc, hss⟩ | ⟨hss, hif⟩
        · rw [hcc, hss, hso]
        · rw [hss, ← hif, Nat.sub_self]
          rfl
      refine ih (i + 1) c2
        ((so2 + (if szFixed ≠ 0 then szFixed else sizes (i - 1))) % 2 ^ 32)
        _ smp hc2 (by omega) (by omega) (by omega) ?_ (by simp; omega)
        ?_ h
      · rw [hso2]
        have hexp : i + 1 - firsts c2 = (i - firsts c2) + 1 := by omega
        rw [hexp, sumSizes, Nat.mod_add_mod]
        have hat : firsts c2 + (i - firsts c2) = i := by omega
        rw [hat]
        rfl
      · intro j hj
        match j, hj with
        | 0, hj =>
          rw [show i + 1 - 1 - 0 = i from by omega]
          refine ⟨c2, hc2, hlb2, hub2, ?_, ?_⟩
          · show (offs c2 + so2) % 2 ^ 32 = _
            rw [hso2, Nat.add_mod_mod]
          · rfl
        | j + 1, hj =>
          have hj3 : j < acc.length := by simpa using hj
          have := hacc j hj3
          have hidx : i + 1 - 1 - (j + 1) = i - 1 - j := by omega
          rw [hidx]
          simpa using this


set_option maxHeartbeats 1000000 in
/-- C6: when sample-table construction succeeds (and the total sample
count fits `uint32_t`), every sample's offset is its chunk's `stco`
offset plus the sizes of the preceding samples of that chunk
(`SampleProp`); construction fails when `stsc` or `stco` is empty,
when the VBR `stsz` count disagrees with the computed total, when the
`stsc` entry walk steps past the first entry, when the chunk walk runs
past the last chunk (and this failure propagates through the builder),
and when an `stts` run extends past the sample count (which fails
`buildSampleTable`). -/
theorem C6_sample_table :
    (∀ (stD : DecoderState) (buf : List Nat) (stsc : List (Nat × Nat))
        (stco : List Nat) (sampleSize stszCount total : Nat)
        (sizes cnts : Nat → Nat) (smp : List Sample),
      chunkCounts stsc stco.length (stsc.length - 1)
        (stsc.getD (stsc.length - 1) (0, 0)).1 0 (fun _ => 0) =
          some (total, cnts) →
      1 + natSum cnts stco.length < 2 ^ 32 →
      initializeSamples stD buf stsc stco sampleSize stszCount sizes =
        some smp →
      ∀ j (hj : j < smp.length),
        SampleProp sampleSize sizes (chunkFirsts cnts) cnts
          (fun c => stco.getD c 0) stco.length (j + 1)
          (smp.get ⟨j, hj⟩)) ∧
    (∀ (stD : DecoderState) (buf : List Nat) (stsc : List (Nat × Nat))
        (stco : List Nat) (sampleSize stszCount : Nat) (sizes : Nat → Nat),
      stsc = [] ∨ stco = [] →
      initializeSamples stD buf stsc stco sampleSize stszCount sizes =
        none) ∧
    (∀ (stD : DecoderState) (buf : List Nat) (stsc : List (Nat × Nat))
        (stco : List Nat) (stszCount total : Nat) (sizes : Nat → Nat),
      (chunkCounts stsc stco.length (stsc.length - 1)
        (stsc.getD (stsc.length - 1) (0, 0)).1 0 (fun _ => 0)).map
          Prod.fst = some total →
      total ≠ stszCount →
      initializeSamples stD buf stsc stco 0 stszCount sizes = none) ∧
    (∀ (stsc : List (Nat × Nat)) (i fc : Nat),
      i < fc → stscSeek stsc i 0 fc = none) ∧
    (∀ (stD : DecoderState) (buf : List Nat) (stsc : List (Nat × Nat))
        (stco : List Nat) (sampleSize stszCount : Nat) (sizes : Nat → Nat),
      chunkCounts stsc stco.length (stsc.length - 1)
        (stsc.getD (stsc.length - 1) (0, 0)).1 0 (fun _ => 0) = none →
      initializeSamples stD buf stsc stco sampleSize stszCount sizes =
        none) ∧
    (∀ (firsts cnts : Nat → Nat) (nChunks i c so : Nat),
      (firsts c + cnts c) % 2 ^ 32 ≤ i → nChunks ≤ c + 1 →
      chunkSeek firsts cnts nChunks i c so = none) ∧
    (∀ (stD : DecoderState) (buf : List Nat) (szFixed : Nat)
        (sizes firsts cnts offs : Nat → Nat) (nChunks rem i c so : Nat)
        (acc : List Sample),
      chunkSeek firsts cnts nChunks i c so = none →
      sampleBuild stD buf szFixed sizes firsts cnts offs nChunks (rem + 1)
        i c so acc = none) ∧
    (∀ (samples : List Sample) (cnt dur estart : Nat)
        (rest : List (Nat × Nat)),
      samples.length < (estart + cnt) % 2 ^ 32 →
      sttsFill samples ((cnt, dur) :: rest) estart = none) ∧
    (∀ (stD : DecoderState) (buf : List Nat) (stsc : List (Nat × Nat))
        (stco : List Nat) (sampleSize stszCount : Nat) (sizes : Nat → Nat)
        (entries : List (Nat × Nat)) (smp : List Sample),
      initializeSamples stD buf stsc stco sampleSize stszCount sizes =
        some smp →
      sttsFill smp entries 0 = none →
      buildSampleTable stD buf stsc stco sampleSize stszCount sizes
        (some entries) = none) := by
  refine ⟨?_, ?_, ?_, ?_, ?_, ?_, ?_, ?_, ?_⟩
  · intro stD buf stsc stco sampleSize stszCount total sizes cnts smp hcc
      hnwsum hinit j hj
    unfold initializeSamples at hinit
    split at hinit
    · cases hinit
    · rename_i hne
      split at hinit
      · cases hinit
      · rename_i p total2 cnts2 heq
        rw [hcc, Option.some.injEq, Prod.mk.injEq] at heq
        obtain ⟨ht2, hc2⟩ := heq
        subst ht2
        subst hc2
        split at hinit
        · cases hinit
        · have hzpos : 0 < stco.length := by
            rcases Nat.eq_zero_or_pos stco.length with h0 | h0
            · exact absurd (Or.inr h0) hne
            · exact h0
          have hnw : ∀ c, c < stco.length →
              chunkFirsts cnts c + cnts c < 2 ^ 32 := by
            intro c hcl
            rw [chunkFirsts_nowrap cnts stco.length hnwsum c (by omega)]
            have := natSum_mono cnts (c + 1) stco.length (by omega)
            rw [natSum] at this
            omega
          have hstep : ∀ c, c + 1 < stco.length →
              chunkFirsts cnts (c + 1) = chunkFirsts cnts c + cnts c := by
            intro c hcl
            rw [chunkFirsts_nowrap cnts stco.length hnwsum (c + 1)
              (by omega), chunkFirsts_nowrap cnts stco.length hnwsum c
              (by omega), natSum]
            omega
          exact sampleBuild_inv stD buf sampleSize sizes (chunkFirsts cnts)
            cnts (fun c => stco.getD c 0) stco.length hnw hstep total 1 0 0
            [] smp hzpos (by rw [chunkFirsts]) (by rw [chunkFirsts]; omega)
            (by omega) (by rw [chunkFirsts]; rfl) rfl
            (fun j hj => absurd hj (by rw [List.length_nil]; omega)) hinit
            j hj
  · intro stD buf stsc stco sampleSize stszCount sizes h
    unfold initializeSamples
    rw [if_pos]
    rcases h with h | h
    · exact Or.inl (by rw [h]; rfl)
    · exact Or.inr (by rw [h]; rfl)
  · intro stD buf stsc stco stszCount total sizes hmap hne
    unfold initializeSamples
    split
    · rfl
    · split
      · rfl
      · rename_i p total2 cnts2 heq
        rw [heq] at hmap
        rw [show ((some (total2, cnts2)).map Prod.fst : Option Nat) =
          some total2 from rfl, Option.some.injEq] at hmap
        rw [if_pos ⟨rfl, by rw [hmap]; exact hne⟩]
  · intro stsc i fc h
    rw [stscSeek, if_pos h]
  · intro stD buf stsc stco sampleSize stszCount sizes h
    unfold initializeSamples
    split
    · rfl
    · rw [h]
  · intro firsts cnts nChunks i c so h1 h2
    unfold chunkSeek
    rw [chunkSeekF, if_pos h1, if_pos h2]
  · intro stD buf szFixed sizes firsts cnts offs nChunks rem i c so acc h
    rw [sampleBuild, h]
  · intro samples cnt dur estart rest h
    rw [sttsFill, if_pos h]
  · intro stD buf stsc stco sampleSize stszCount sizes entries smp h1 h2
    unfold buildSampleTable
    rw [h1]
    exact h2

/-- Witness for C6: a 2-sample CBR table over one chunk at offset 100
satisfies the offset property (the second sample sits at 105); empty
tables, a VBR count mismatch, an out-of-bounds `stsc` walk, and an
oversized `stts` run all fail. -/
theorem C6_sample_table_witness :
    SampleProp 5 (fun _ => 0) (chunkFirsts (updFn (fun _ => 0) 0 2))
      (updFn (fun _ => 0) 0 2) (fun c => [100].getD c 0) 1 2
      ⟨105, 5, 0, 0⟩ ∧
    initializeSamples st0 [] [] [100] 5 0 (fun _ => 0) = none ∧
    initializeSamples st0 [] [(1, 2)] [100] 0 7 (fun _ => 0) = none ∧
    stscSeek [(5, 1)] 1 0 5 = none ∧
    sttsFill [] [(3, 10)] 0 = none := by
  refine ⟨?_, ?_, ?_, ?_, ?_⟩
  · exact C6_sample_table.1 st0 [] [(1, 2)] [100] 5 0 2 (fun _ => 0)
      (updFn (fun _ => 0) 0 2) [⟨100, 5, 0, 0⟩, ⟨105, 5, 0, 0⟩] rfl
      (by decide) (by decide) 1 (by decide)
  · exact C6_sample_table.2.1 st0 [] [] [100] 5 0 (fun _ => 0) (Or.inl rfl)
  · exact C6_sample_table.2.2.1 st0 [] [(1, 2)] [100] 7 2 (fun _ => 0) rfl
      (by decide)
  · exact C6_sample_table.2.2.2.1 [(5, 1)] 1 5 (by decide)
  · exact C6_sample_table.2.2.2.2.2.2.2.1 [] 3 10 0 [] (by decide)

end HEVC
